import Mathlib

/-! # The streamer generator of the IDL compiler (`src/idl/src/streamer_generator.c`)

A shallow embedding of the generator that turns a parsed IDL tree into the text of four
C++ procedures per struct (`write_struct`, `write_size`, `read_struct`, `<name>_read_size`),
followed by an instruction reading of the generated text and the properties proved of both.
The scope walk of the C++11 backend (`backendCpp11.c`) and the string utilities
(`string_utils.c`) have sections of their own.

Conventions of the embedding.

* Text is `String`. A `char*` that is `NULL` is `none`.
* The `int` fields `accumulatedalignment`, `alignmentpresent` and the local `bytewidth`
  never hold a negative value and are `Nat`; `currentalignment` holds `-1` and is `Int`.
  `size_t depth` is `Nat`.
* The two `FILE*` of `streamer_t` are the text written to each file so far.
* Every function that mutates `*ctx` returns the new context; a function that also
  writes to the files takes and returns the `streamer_t`.
* Text printed on `stdout` (`printf`) is not part of the model.
* `sprintf` leaves the formatted text in the buffer it is given, whatever size the source
  computed for that buffer; a format string of the source is a function of its arguments.
  The sizes the source computes are set against the formatted text in the section on
  formatting buffers, where the format strings stand as they are in the source.
* The flag constants of `idl/tree.h` and `get_cpp11_name` are not in the sources and are
  parameters (`externals`); closed statements use the values of `sample`.
-/

namespace StreamerGenerator

/-! ## Declarations the sources include but do not contain -/

/-- Modelled from the spec: `idl/retcode.h` is not among the sources. The result codes
the sources name, as pairwise distinct values. -/
inductive idl_retcode_t where
  | IDL_RETCODE_OK
  | IDL_RETCODE_PRECONDITION_NOT_MET
  | IDL_RETCODE_INVALID_PARSETREE
  | IDL_RETCODE_BREAK_OUT
  deriving DecidableEq, Repr

/-- What `streamer_generator.c` uses from headers and files that are not among the sources,
taken as parameters: the flag constants of `idl/tree.h` and the name mangler
`get_cpp11_name` of the C++ backend. -/
structure externals where
  IDL_MEMBER : Nat
  IDL_MODULE : Nat
  IDL_CONSTR_TYPE : Nat
  IDL_BASE_TYPE : Nat
  IDL_SCOPED_NAME : Nat
  IDL_TEMPL_TYPE : Nat
  IDL_INTEGER_TYPE : Nat
  IDL_FLOATING_PT_TYPE : Nat
  get_cpp11_name : String → String

/-- The part of `idl_node_t` the generator reads: `flags`, `name`,
`type.member.declarator`, and the `children` and `next` pointers (`none` is `NULL`). -/
inductive idl_node where
  | mk (flags : Nat) (name : String) (declarator : String)
      (children : Option idl_node) (next : Option idl_node)

/-- Field `node->flags`. -/
def idl_node.flags : idl_node → Nat
  | .mk f _ _ _ _ => f

/-- Field `node->name`. -/
def idl_node.name : idl_node → String
  | .mk _ n _ _ _ => n

/-- Field `node->type.member.declarator`. -/
def idl_node.declarator : idl_node → String
  | .mk _ _ d _ _ => d

/-- Field `node->children`. -/
def idl_node.children : idl_node → Option idl_node
  | .mk _ _ _ c _ => c

/-- Field `node->next`. -/
def idl_node.next : idl_node → Option idl_node
  | .mk _ _ _ _ n => n

/-! ## Format strings (lines 20 to 38), each with its `sprintf` arguments applied -/

/-- The conversion `%d` of a non-negative `int`. -/
def fmt_d (n : Nat) : String := toString n

/-- Format `struct_write_func_fmt`. -/
def struct_write_func_fmt (s : String) : String :=
  "size_t write_struct(const " ++ s ++ " &write, void *data, size_t position)"

/-- Format `primitive_calc_alignment_fmt`; the source passes the same width three times. -/
def primitive_calc_alignment_fmt (a b c : Nat) : String :=
  "(" ++ fmt_d a ++ " - position%" ++ fmt_d b ++ ")%" ++ fmt_d c ++ ";"

/-- Text `primitive_calc_alignment_even_odd`. -/
def primitive_calc_alignment_even_odd : String := "position%2;"

/-- Text `primitive_incr_alignment_fmt`. -/
def primitive_incr_alignment_fmt : String := "  position += alignmentbytes;"

/-- Format `primitive_write_func_padding_fmt`. -/
def primitive_write_func_padding_fmt (n : Nat) : String :=
  "  memset(data+position,0x0," ++ fmt_d n ++ ");  //setting padding bytes to 0x0\n"

/-- Text `primitive_write_func_alignment_fmt`. -/
def primitive_write_func_alignment_fmt : String :=
  "  memset(data+position,0x0,alignmentbytes);  //setting alignment bytes to 0x0\n"

/-- Format `primitive_write_func_write_fmt`. -/
def primitive_write_func_write_fmt (s : String) (n : Nat) : String :=
  "  memcpy(data+position,&write." ++ s ++ "()," ++ fmt_d n ++ ");"

/-- Text `incr_comment`. -/
def incr_comment : String := "  //moving position indicator\n"

/-- Format `instance_write_func_fmt`. -/
def instance_write_func_fmt (s : String) : String :=
  "  position = write_struct(write." ++ s ++ "(), data, position);\n"

/-- Format `namespace_declaration_fmt`. -/
def namespace_declaration_fmt (s : String) : String := "namespace " ++ s ++ "\n"

/-- Format `struct_write_size_func_fmt`. -/
def struct_write_size_func_fmt (s : String) : String :=
  "size_t write_size(const " ++ s ++ " &write, size_t offset)"

/-- Format `primitive_incr_pos`. -/
def primitive_incr_pos (n : Nat) : String := "  position += " ++ fmt_d n ++ ";"

/-- Format `instance_size_func_calc_fmt`. -/
def instance_size_func_calc_fmt (s : String) : String :=
  "  position += write_size(write." ++ s ++ "(), position);\n"

/-- Format `struct_read_func_fmt`. -/
def struct_read_func_fmt (s : String) : String :=
  "size_t read_struct(" ++ s ++ " &read, void *data, size_t position)"

/-- Format `struct_read_size_func_fmt`. -/
def struct_read_size_func_fmt (s : String) : String :=
  "size_t " ++ s ++ "_read_size(void *data, size_t offset)"

/-- Format `struct_read_size_func_call_fmt`. -/
def struct_read_size_func_call_fmt (s : String) : String :=
  "  position += " ++ s ++ "_read_size(data, position);\n"

/-- Format `primitive_read_func_read_fmt` (the source has no comma after the first
argument of `memcpy`). -/
def primitive_read_func_read_fmt (s : String) (n : Nat) : String :=
  "  memcpy(&read." ++ s ++ "() data+position," ++ fmt_d n ++ ");"

/-- Format `instance_read_func_fmt` (the source names the object `write` here too). -/
def instance_read_func_fmt (s : String) : String :=
  "  position = read_struct(write." ++ s ++ "(), data, position);\n"

/-! ## Streams and contexts -/

/-- An `ostream_t`: `buffer` is `NULL` or the text appended so far. `bufsize` is the length
of that text plus one throughout and `indentlength` points at the `depth` of the context
that owns the stream, so neither is a field here. -/
structure ostream where
  buffer : Option String
  deriving DecidableEq, Repr

/-- The text a stream holds, the empty text for a `NULL` buffer. -/
def ostream.text (str : ostream) : String := str.buffer.getD ""

/-- A `streamer_t`: the text written so far to the header file and to the implementation
file. Both files are open: `create_streamer` returns `NULL` otherwise. -/
structure streamer_t where
  header_file : String
  impl_file : String
  deriving DecidableEq, Repr

set_option linter.dupNamespace false in
/-- The `struct context` of the source without its `str` pointer, which is passed along
as a `streamer_t`. -/
structure context where
  context : String
  header_stream : ostream
  write_size_stream : ostream
  write_stream : ostream
  read_size_stream : ostream
  read_stream : ostream
  depth : Nat
  currentalignment : Int
  accumulatedalignment : Nat
  alignmentpresent : Nat
  deriving DecidableEq, Repr

/-- A run of `n` spaces, what `memset(p, 0x20, n)` writes. -/
def spaces (n : Nat) : String := String.mk (List.replicate n ' ')

/-- Function `generatealignment`; the reallocated `oldstring` is the returned text. -/
def generatealignment (alignto : Nat) : String :=
  if alignto < 2 then "0"
  else if alignto = 2 then primitive_calc_alignment_even_odd
  else primitive_calc_alignment_fmt alignto alignto alignto

/-- Function `create_ostream`. -/
def create_ostream : ostream := { buffer := none }

/-- Function `clear_ostream`. -/
def clear_ostream (_str : ostream) : ostream := { buffer := none }

/-- Function `flush_ostream` on an open file `f`: the file's text afterwards and the
stream afterwards. -/
def flush_ostream (str : ostream) (f : String) : ostream × String :=
  match str.buffer with
  | some b => (clear_ostream str, f ++ b)
  | none => (str, f)

/-- Function `append_ostream`; `depth` is the value of `*(str->indentlength)` at the call. -/
def append_ostream (str : ostream) (depth : Nat) (toappend : String) (indent : Bool) : ostream :=
  let indentlength := if indent then 2 * depth else 0
  match str.buffer with
  | none => { buffer := some (spaces indentlength ++ toappend) }
  | some b => { buffer := some (b ++ spaces indentlength ++ toappend) }

/-- Call `append_ostream(ctx->header_stream, toappend, indent)`. -/
def append_header (ctx : context) (toappend : String) (indent : Bool) : context :=
  { ctx with header_stream := append_ostream ctx.header_stream ctx.depth toappend indent }

/-- Call `append_ostream(ctx->write_stream, toappend, indent)`. -/
def append_write (ctx : context) (toappend : String) (indent : Bool) : context :=
  { ctx with write_stream := append_ostream ctx.write_stream ctx.depth toappend indent }

/-- Call `append_ostream(ctx->write_size_stream, toappend, indent)`. -/
def append_write_size (ctx : context) (toappend : String) (indent : Bool) : context :=
  { ctx with write_size_stream := append_ostream ctx.write_size_stream ctx.depth toappend indent }

/-- Call `append_ostream(ctx->read_stream, toappend, indent)`. -/
def append_read (ctx : context) (toappend : String) (indent : Bool) : context :=
  { ctx with read_stream := append_ostream ctx.read_stream ctx.depth toappend indent }

/-- Call `append_ostream(ctx->read_size_stream, toappend, indent)`. -/
def append_read_size (ctx : context) (toappend : String) (indent : Bool) : context :=
  { ctx with read_size_stream := append_ostream ctx.read_size_stream ctx.depth toappend indent }

/-- Function `create_context`. -/
def create_context (ctx : String) : context :=
  { context := ctx
    header_stream := create_ostream
    write_size_stream := create_ostream
    write_stream := create_ostream
    read_size_stream := create_ostream
    read_stream := create_ostream
    depth := 0
    currentalignment := -1
    accumulatedalignment := 0
    alignmentpresent := 0 }

/-- Function `clear_context`. -/
def clear_context (ctx : context) : context :=
  { ctx with
    header_stream := clear_ostream ctx.header_stream
    write_stream := clear_ostream ctx.write_stream
    write_size_stream := clear_ostream ctx.write_size_stream
    read_stream := clear_ostream ctx.read_stream
    read_size_stream := clear_ostream ctx.read_size_stream }

/-- Function `flush_context`: the header stream goes to the header file, then the write,
write-size, read and read-size streams go to the implementation file, in this order. -/
def flush_context (str : streamer_t) (ctx : context) : streamer_t × context :=
  let h := flush_ostream ctx.header_stream str.header_file
  let w := flush_ostream ctx.write_stream str.impl_file
  let ws := flush_ostream ctx.write_size_stream w.2
  let r := flush_ostream ctx.read_stream ws.2
  let rs := flush_ostream ctx.read_size_stream r.2
  ({ header_file := h.2, impl_file := rs.2 },
   { ctx with
     header_stream := h.1
     write_stream := w.1
     write_size_stream := ws.1
     read_stream := r.1
     read_size_stream := rs.1 })

/-- Function `close_context`: the context is flushed and released, the files remain. -/
def close_context (str : streamer_t) (ctx : context) : streamer_t :=
  (flush_context str ctx).1

/-! ## The tree walk -/

/-- The computation of `bytewidth` at the head of `process_base` (lines 547 to 566).
The shift count `((flags & 0xf) >> 1) - 1` is taken in `Nat`: for a low nibble below 2,
which no integer kind has, the C expression is undefined. -/
def base_bytewidth (E : externals) (flags : Nat) : Nat :=
  if flags &&& E.IDL_INTEGER_TYPE = E.IDL_INTEGER_TYPE then
    0x1 <<< (((flags &&& 0xf) >>> 1) - 1)
  else if flags &&& E.IDL_FLOATING_PT_TYPE = E.IDL_FLOATING_PT_TYPE then
    if flags &&& 0xf = 0x2 then 4
    else if flags &&& 0xf = 0x4 then 8
    else if flags &&& 0xf = 0x6 then 8
    else 1
  else 1

/-- Function `process_base`. Each `let ctx` line is one `append_ostream` call or one
assignment of the source, in the source's order; `buffer` is the text `sprintf` left in
the formatting buffer. -/
def process_base (E : externals) (ctx : context) (node : idl_node) : context × idl_retcode_t :=
  let cpp11name := E.get_cpp11_name node.declarator
  let bytewidth := base_bytewidth E node.flags
  let ctx :=
    if ctx.currentalignment ≠ (bytewidth : Int) then
      if 0 > ctx.currentalignment ∧ bytewidth ≠ 1 then
        let ctx :=
          if 0 = ctx.alignmentpresent then
            let ctx := append_write ctx "  size_t alignmentbytes = " true
            let ctx := append_read ctx "  size_t alignmentbytes = " true
            { ctx with alignmentpresent := 1 }
          else
            let ctx := append_write ctx "  alignmentbytes = " true
            append_read ctx "  alignmentbytes = " true
        let buffer := generatealignment bytewidth
        let ctx := append_write ctx buffer false
        let ctx := append_write ctx "  //alignment for: " false
        let ctx := append_write ctx cpp11name false
        let ctx := append_write ctx "\n" false
        let ctx := append_write ctx primitive_write_func_alignment_fmt true
        let ctx := append_write ctx primitive_incr_alignment_fmt true
        let ctx := append_write ctx incr_comment false
        let ctx := append_read ctx buffer false
        let ctx := append_read ctx "  //alignment for: " false
        let ctx := append_read ctx cpp11name false
        let ctx := append_read ctx "\n" false
        let ctx := append_read ctx primitive_incr_alignment_fmt true
        let ctx := append_read ctx incr_comment false
        let ctx := append_write_size ctx "  position += " true
        let ctx := append_write_size ctx buffer false
        let ctx := append_write_size ctx "  //alignment for: " false
        let ctx := append_write_size ctx cpp11name false
        let ctx := append_write_size ctx "\n" false
        let ctx := append_read_size ctx "  position += " true
        let ctx := append_read_size ctx buffer false
        let ctx := append_read_size ctx "  //alignment for: " false
        let ctx := append_read_size ctx cpp11name false
        let ctx := append_read_size ctx "\n" false
        { ctx with accumulatedalignment := 0, currentalignment := (bytewidth : Int) }
      else
        let missingbytes := (bytewidth - (ctx.accumulatedalignment % bytewidth)) % bytewidth
        if 0 ≠ missingbytes then
          let buffer := primitive_write_func_padding_fmt missingbytes
          let ctx := append_write ctx buffer true
          let buffer := primitive_incr_pos missingbytes
          let ctx := append_write_size ctx buffer true
          let ctx := append_write_size ctx "  //padding bytes for: " false
          let ctx := append_write_size ctx cpp11name false
          let ctx := append_write_size ctx "\n" false
          let ctx := append_read_size ctx buffer true
          let ctx := append_read_size ctx "  //padding bytes for: " false
          let ctx := append_read_size ctx cpp11name false
          let ctx := append_read_size ctx "\n" false
          let ctx := append_read ctx buffer true
          let ctx := append_read ctx "  //padding bytes for: " false
          let ctx := append_read ctx cpp11name false
          let ctx := append_read ctx "\n" false
          let ctx := append_write ctx buffer true
          let ctx := append_write ctx incr_comment false
          { ctx with accumulatedalignment := 0 }
        else ctx
    else ctx
  let ctx := { ctx with accumulatedalignment := ctx.accumulatedalignment + bytewidth }
  let buffer := primitive_write_func_write_fmt cpp11name bytewidth
  let ctx := append_write ctx buffer true
  let ctx := append_write ctx "  //bytes for member: " false
  let ctx := append_write ctx cpp11name false
  let ctx := append_write ctx "\n" false
  let buffer := primitive_read_func_read_fmt cpp11name bytewidth
  let ctx := append_read ctx buffer true
  let ctx := append_read ctx "  //bytes for member: " false
  let ctx := append_read ctx cpp11name false
  let ctx := append_read ctx "\n" false
  let buffer := primitive_incr_pos bytewidth
  let ctx := append_write_size ctx buffer true
  let ctx := append_write_size ctx "  //bytes for member: " false
  let ctx := append_write_size ctx cpp11name false
  let ctx := append_write_size ctx "\n" false
  let ctx := append_read_size ctx buffer true
  let ctx := append_read_size ctx "  //bytes for member: " false
  let ctx := append_read_size ctx cpp11name false
  let ctx := append_read_size ctx "\n" false
  let ctx := append_write ctx buffer true
  let ctx := append_write ctx incr_comment false
  let ctx := append_read ctx buffer true
  let ctx := append_read ctx incr_comment false
  (ctx, .IDL_RETCODE_OK)

/-- Function `process_instance`. -/
def process_instance (E : externals) (ctx : context) (node : idl_node) : context × idl_retcode_t :=
  let cpp11name := E.get_cpp11_name node.declarator
  let ctx := append_write ctx (instance_write_func_fmt cpp11name) true
  let ctx := append_read ctx (instance_read_func_fmt cpp11name) true
  let ctx := append_read_size ctx (struct_read_size_func_call_fmt cpp11name) true
  let ctx := append_write_size ctx (instance_size_func_calc_fmt cpp11name) true
  let ctx := { ctx with accumulatedalignment := 0 }
  let ctx := { ctx with currentalignment := -1 }
  (ctx, .IDL_RETCODE_OK)

/-- Function `process_template`: it only prints a diagnostic on `stdout`. -/
def process_template (_E : externals) (ctx : context) (_node : idl_node) : context × idl_retcode_t :=
  (ctx, .IDL_RETCODE_OK)

/-- Function `process_member`; the results of the three callees are dropped, as in the
source. -/
def process_member (E : externals) (ctx : context) (node : idl_node) : context × idl_retcode_t :=
  let ctx :=
    if node.flags &&& E.IDL_BASE_TYPE ≠ 0 then (process_base E ctx node).1
    else if node.flags &&& E.IDL_SCOPED_NAME ≠ 0 then (process_instance E ctx node).1
    else if node.flags &&& E.IDL_TEMPL_TYPE ≠ 0 then (process_template E ctx node).1
    else ctx
  (ctx, .IDL_RETCODE_OK)

/-- The part of `process_module` before `process_node(newctx, node->children)`
(lines 455 to 468): the new context, holding the namespace's opening text in its header
and write streams, one level deeper than the caller's. -/
def process_module_open (E : externals) (ctx : context) (name : String) : context :=
  let cpp11name := E.get_cpp11_name name
  let buffer := namespace_declaration_fmt cpp11name
  let newctx := create_context cpp11name
  let newctx := { newctx with depth := ctx.depth }
  let newctx := append_header newctx buffer true
  let newctx := append_header newctx "\x7b\n\n" true
  let newctx := append_write newctx buffer true
  let newctx := append_write newctx "\x7b\n\n" true
  { newctx with depth := newctx.depth + 1 }

/-- The part of `process_module` after `process_node(newctx, node->children)`
(lines 471 to 474); the new context is closed, the files remain. -/
def process_module_close (str : streamer_t) (newctx : context) : streamer_t :=
  let newctx := { newctx with depth := newctx.depth - 1 }
  let newctx := append_header newctx "\x7d\n\n" true
  let newctx := append_read_size newctx "\x7d\n\n" true
  close_context str newctx

/-- The body of `process_module` under `if (node->children)`, with the call
`process_node(newctx, node->children)` passed in as `walk`. The caller's context is not
touched. -/
def process_module_body (E : externals)
    (walk : streamer_t → context → streamer_t × context × idl_retcode_t)
    (str : streamer_t) (ctx : context) (name : String) : streamer_t :=
  let newctx := process_module_open E ctx name
  let r := walk str newctx
  process_module_close r.1 r.2.1

/-- The part of `process_constructed` before `process_node(ctx, node->children)`
(lines 484 to 527). -/
def process_constructed_open (E : externals) (ctx : context) (name : String) : context :=
  let cpp11name := E.get_cpp11_name name
  let buffer := struct_write_func_fmt cpp11name
  let ctx := append_header ctx buffer true
  let ctx := append_header ctx ";\n\n" false
  let ctx := append_write ctx buffer true
  let ctx := append_write ctx "\n" false
  let ctx := append_write ctx "\x7b\n" true
  let buffer := struct_write_size_func_fmt cpp11name
  let ctx := append_header ctx buffer true
  let ctx := append_header ctx ";\n\n" false
  let ctx := append_write_size ctx buffer true
  let ctx := append_write_size ctx "\n" false
  let ctx := append_write_size ctx "\x7b\n" true
  let ctx := append_write_size ctx "  size_t position = offset;\n" true
  let buffer := struct_read_func_fmt cpp11name
  let ctx := append_header ctx buffer true
  let ctx := append_header ctx ";\n\n" false
  let ctx := append_read ctx buffer true
  let ctx := append_read ctx "\n" false
  let ctx := append_read ctx "\x7b\n" true
  let buffer := struct_read_size_func_fmt cpp11name
  let ctx := append_header ctx buffer true
  let ctx := append_header ctx ";\n\n" false
  let ctx := append_read_size ctx buffer true
  let ctx := append_read_size ctx "\n" false
  let ctx := append_read_size ctx "\x7b\n" true
  let ctx := append_read_size ctx "  size_t position = offset;\n" true
  let ctx := { ctx with currentalignment := -1 }
  let ctx := { ctx with alignmentpresent := 0 }
  { ctx with accumulatedalignment := 0 }

/-- The part of `process_constructed` after `process_node(ctx, node->children)`
(lines 530 to 538). -/
def process_constructed_close (str : streamer_t) (ctx : context) : streamer_t × context :=
  let ctx := append_write_size ctx "  return position-offset;\n" true
  let ctx := append_write_size ctx "\x7d\n\n" true
  let ctx := append_write ctx "  return position;\n" true
  let ctx := append_write ctx "\x7d\n\n" true
  let ctx := append_read ctx "  return position;\n" true
  let ctx := append_read ctx "\x7d\n\n" true
  let ctx := append_read_size ctx "  return position-offset;\n" true
  let ctx := append_read_size ctx "\x7d\n\n" true
  flush_context str ctx

/-- The body of `process_constructed` under `if (node->children)`, with the call
`process_node(ctx, node->children)` passed in as `walk`. -/
def process_constructed_body (E : externals)
    (walk : streamer_t → context → streamer_t × context × idl_retcode_t)
    (str : streamer_t) (ctx : context) (name : String) : streamer_t × context :=
  let ctx := process_constructed_open E ctx name
  let r := walk str ctx
  process_constructed_close r.1 r.2.1

/-- Function `process_node`. The bodies of `process_module` and `process_constructed` appear
through `process_module_body` and `process_constructed_body`, so that the recursion
is on the node alone; `process_node_eq` states the function in the source's form. The
results of the callees and of the recursive call are dropped, as in the source, and the
last line of the function is its only `return`. -/
def process_node (E : externals) :
    streamer_t → context → idl_node → streamer_t × context × idl_retcode_t
  | str, ctx, .mk flags name declarator children next =>
    let r : streamer_t × context :=
      if flags &&& E.IDL_MEMBER ≠ 0 then
        (str, (process_member E ctx (.mk flags name declarator children next)).1)
      else if flags &&& E.IDL_MODULE ≠ 0 then
        match children with
        | some c => (process_module_body E (fun s x => process_node E s x c) str ctx name, ctx)
        | none => (str, ctx)
      else if flags &&& E.IDL_CONSTR_TYPE ≠ 0 then
        match children with
        | some c => process_constructed_body E (fun s x => process_node E s x c) str ctx name
        | none => (str, ctx)
      else (str, ctx)
    let r : streamer_t × context :=
      match next with
      | some n => ((process_node E r.1 r.2 n).1, (process_node E r.1 r.2 n).2.1)
      | none => r
    (r.1, r.2, .IDL_RETCODE_PRECONDITION_NOT_MET)

/-- Function `process_module`. -/
def process_module (E : externals) (str : streamer_t) (ctx : context) (node : idl_node) :
    streamer_t × context × idl_retcode_t :=
  match node.children with
  | some c =>
    (process_module_body E (fun s x => process_node E s x c) str ctx node.name, ctx,
      .IDL_RETCODE_OK)
  | none => (str, ctx, .IDL_RETCODE_OK)

/-- Function `process_constructed`. -/
def process_constructed (E : externals) (str : streamer_t) (ctx : context) (node : idl_node) :
    streamer_t × context × idl_retcode_t :=
  match node.children with
  | some c =>
    ((process_constructed_body E (fun s x => process_node E s x c) str ctx node.name).1,
      (process_constructed_body E (fun s x => process_node E s x c) str ctx node.name).2,
      .IDL_RETCODE_OK)
  | none => (str, ctx, .IDL_RETCODE_OK)

/-- The dispatch at the head of `process_node` (lines 384 to 389), in the source's form. -/
def process_node_dispatch (E : externals) (str : streamer_t) (ctx : context) (node : idl_node) :
    streamer_t × context :=
  if node.flags &&& E.IDL_MEMBER ≠ 0 then (str, (process_member E ctx node).1)
  else if node.flags &&& E.IDL_MODULE ≠ 0 then
    ((process_module E str ctx node).1, (process_module E str ctx node).2.1)
  else if node.flags &&& E.IDL_CONSTR_TYPE ≠ 0 then
    ((process_constructed E str ctx node).1, (process_constructed E str ctx node).2.1)
  else (str, ctx)

/-- The nodes of a sibling list: the node, then `node->next`, and so on to `NULL`. -/
def idl_node.chain : idl_node → List idl_node
  | .mk flags name declarator children next =>
    .mk flags name declarator children next ::
      (match next with
       | some n => n.chain
       | none => [])

/-- What `process_node` does to the context over a sibling list of member nodes: one
`process_member` per node, in order. -/
def process_members (E : externals) (ctx : context) (nodes : List idl_node) : context :=
  nodes.foldl (fun c n => (process_member E c n).1) ctx

/-! ## The generated text, read as instructions

Every line the generator puts into a procedure body is one `instr`; `instr.line` is the
line's text and `exec` is what the line does when the generated procedure runs. The four
bodies of a struct are four renderings of one list of `step`s. The line of `copy_in` is
not a statement of C++ (its two first arguments come without a comma between them), so
`exec` gives it no effect; `run` is the execution of a body as compiled code, which
exists only when every line of the body is well formed. -/

/-- The comment that ends a `position += N;` line. -/
inductive remark where
  | moving
  | padding_for (name : String)
  | bytes_for (name : String)
  deriving DecidableEq, Repr

/-- One line of a generated procedure body. -/
inductive instr where
  | declare_alignment (w : Nat) (name : String)
  | assign_alignment (w : Nat) (name : String)
  | zero_alignment
  | skip_alignment
  | zero_padding (n : Nat)
  | advance (n : Nat) (r : remark)
  | advance_alignment (w : Nat) (name : String)
  | copy_out (name : String) (w : Nat)
  | copy_in (name : String) (w : Nat)
  | call_write (name : String)
  | call_read (name : String)
  | call_write_size (name : String)
  | call_read_size (name : String)
  deriving DecidableEq, Repr

/-- The text of a `remark`. -/
def remark.text : remark → String
  | .moving => incr_comment
  | .padding_for name => "  //padding bytes for: " ++ name ++ "\n"
  | .bytes_for name => "  //bytes for member: " ++ name ++ "\n"

/-- The text of an instruction's line, without the indentation of the context. -/
def instr.line : instr → String
  | .declare_alignment w name =>
    "  size_t alignmentbytes = " ++ generatealignment w ++ "  //alignment for: " ++ name ++ "\n"
  | .assign_alignment w name =>
    "  alignmentbytes = " ++ generatealignment w ++ "  //alignment for: " ++ name ++ "\n"
  | .zero_alignment => primitive_write_func_alignment_fmt
  | .skip_alignment => primitive_incr_alignment_fmt ++ incr_comment
  | .zero_padding n => primitive_write_func_padding_fmt n
  | .advance n r => primitive_incr_pos n ++ r.text
  | .advance_alignment w name =>
    "  position += " ++ generatealignment w ++ "  //alignment for: " ++ name ++ "\n"
  | .copy_out name w =>
    primitive_write_func_write_fmt name w ++ "  //bytes for member: " ++ name ++ "\n"
  | .copy_in name w =>
    primitive_read_func_read_fmt name w ++ "  //bytes for member: " ++ name ++ "\n"
  | .call_write name => instance_write_func_fmt name
  | .call_read name => instance_read_func_fmt name
  | .call_write_size name => instance_size_func_calc_fmt name
  | .call_read_size name => struct_read_size_func_call_fmt name

/-- The text of a list of instructions in a context of the given depth: every line
after `2 * depth` spaces. -/
def render (depth : Nat) : List instr → String
  | [] => ""
  | i :: rest => spaces (2 * depth) ++ i.line ++ render depth rest

/-- The state of a running generated procedure: the local `position` and
`alignmentbytes`, the bytes at `data`, and the struct object (`write` or `read`) as the
bytes of each field. -/
structure machine where
  position : Nat
  alignmentbytes : Nat
  data : Nat → UInt8
  object : String → List UInt8

/-- The value of the expression `generatealignment` returns for `alignto`, at `position`. -/
def alignment_value (alignto position : Nat) : Nat :=
  if alignto < 2 then 0
  else if alignto = 2 then position % 2
  else (alignto - position % alignto) % alignto

/-- Call `memset(data+position, 0x0, n)`. -/
def zero_fill (data : Nat → UInt8) (position n : Nat) : Nat → UInt8 :=
  fun i => if position ≤ i ∧ i < position + n then 0 else data i

/-- Call `memcpy(data+position, field, n)`. -/
def store (data : Nat → UInt8) (position : Nat) (field : List UInt8) (n : Nat) : Nat → UInt8 :=
  fun i => if position ≤ i ∧ i < position + n then field.getD (i - position) 0 else data i

/-- One instruction run on a machine. The four delegating calls run code of another
struct; `call` says what they do. The line of `copy_in`,
`memcpy(&read.<name>() data+position,<w>);`, is no call of `memcpy` that a compiler
accepts and is given no effect. -/
def exec_instr (call : instr → machine → machine) (i : instr) (m : machine) : machine :=
  match i with
  | .declare_alignment w _ => { m with alignmentbytes := alignment_value w m.position }
  | .assign_alignment w _ => { m with alignmentbytes := alignment_value w m.position }
  | .zero_alignment => { m with data := zero_fill m.data m.position m.alignmentbytes }
  | .skip_alignment => { m with position := m.position + m.alignmentbytes }
  | .zero_padding n => { m with data := zero_fill m.data m.position n }
  | .advance n _ => { m with position := m.position + n }
  | .advance_alignment w _ => { m with position := m.position + alignment_value w m.position }
  | .copy_out name w => { m with data := store m.data m.position (m.object name) w }
  | .copy_in _ _ => m
  | .call_write name => call (.call_write name) m
  | .call_read name => call (.call_read name) m
  | .call_write_size name => call (.call_write_size name) m
  | .call_read_size name => call (.call_read_size name) m

/-- A list of instructions run in order. -/
def exec (call : instr → machine → machine) (prog : List instr) (m : machine) : machine :=
  prog.foldl (fun s i => exec_instr call i s) m

/-- A body without delegating calls needs no callee. -/
def no_call : instr → machine → machine := fun _ m => m

/-- The result of a size procedure whose body is `prog`, called with `offset`:
`size_t position = offset;`, the body, `return position-offset;`. -/
def run_size (call : instr → machine → machine) (prog : List instr) (m : machine) (offset : Nat) :
    Nat :=
  (exec call prog { m with position := offset }).position - offset

/-- The members a body copies into the buffer, each with its width and the position at
which the copy instruction runs, in the order of execution. -/
def member_offsets (call : instr → machine → machine) :
    List instr → machine → List (String × Nat × Nat)
  | [], _ => []
  | .copy_out name w :: rest, m =>
    (name, w, m.position) :: member_offsets call rest (exec_instr call (.copy_out name w) m)
  | i :: rest, m => member_offsets call rest (exec_instr call i m)

/-- What `process_base` and `process_instance` decide for one member, before it is
written out four times: a run-time alignment (declaring `alignmentbytes` or assigning
it), a fixed padding, the member itself, a delegation to a nested instance. -/
inductive step where
  | align (declare : Bool) (w : Nat) (name : String)
  | pad (n : Nat) (name : String)
  | member (w : Nat) (name : String)
  | delegate (name : String)
  deriving DecidableEq, Repr

/-- The lines of a step in the write body. -/
def step.write : step → List instr
  | .align true w name => [.declare_alignment w name, .zero_alignment, .skip_alignment]
  | .align false w name => [.assign_alignment w name, .zero_alignment, .skip_alignment]
  | .pad n _ => [.zero_padding n, .advance n .moving]
  | .member w name => [.copy_out name w, .advance w .moving]
  | .delegate name => [.call_write name]

/-- The lines of a step in the read body. -/
def step.read : step → List instr
  | .align true w name => [.declare_alignment w name, .skip_alignment]
  | .align false w name => [.assign_alignment w name, .skip_alignment]
  | .pad n name => [.advance n (.padding_for name)]
  | .member w name => [.copy_in name w, .advance w .moving]
  | .delegate name => [.call_read name]

/-- The lines of a step in the write-size body. -/
def step.write_size : step → List instr
  | .align _ w name => [.advance_alignment w name]
  | .pad n name => [.advance n (.padding_for name)]
  | .member w name => [.advance w (.bytes_for name)]
  | .delegate name => [.call_write_size name]

/-- The lines of a step in the read-size body. -/
def step.read_size : step → List instr
  | .align _ w name => [.advance_alignment w name]
  | .pad n name => [.advance n (.padding_for name)]
  | .member w name => [.advance w (.bytes_for name)]
  | .delegate name => [.call_read_size name]

/-- How far a step other than a delegation moves `position`. -/
def step.advance (position : Nat) : step → Nat
  | .align _ w _ => position + alignment_value w position
  | .pad n _ => position + n
  | .member w _ => position + w
  | .delegate _ => position

/-- Whether a step is a delegation to a nested instance. -/
def step.is_delegate : step → Bool
  | .delegate _ => true
  | _ => false

/-- The steps `process_base` takes for a member of width `bytewidth` in context `ctx`
(lines 571 to 689): the branch conditions are those of the source. -/
def base_steps (ctx : context) (bytewidth : Nat) (cpp11name : String) : List step :=
  (if ctx.currentalignment ≠ (bytewidth : Int) then
    if 0 > ctx.currentalignment ∧ bytewidth ≠ 1 then
      [.align (decide (0 = ctx.alignmentpresent)) bytewidth cpp11name]
    else if 0 ≠ (bytewidth - (ctx.accumulatedalignment % bytewidth)) % bytewidth then
      [.pad ((bytewidth - (ctx.accumulatedalignment % bytewidth)) % bytewidth) cpp11name]
    else []
  else []) ++ [.member bytewidth cpp11name]

/-- The steps `process_member` takes for a node in context `ctx`. -/
def member_steps (E : externals) (ctx : context) (node : idl_node) : List step :=
  if node.flags &&& E.IDL_BASE_TYPE ≠ 0 then
    base_steps ctx (base_bytewidth E node.flags) (E.get_cpp11_name node.declarator)
  else if node.flags &&& E.IDL_SCOPED_NAME ≠ 0 then
    [.delegate (E.get_cpp11_name node.declarator)]
  else []

/-- The steps taken for a list of member nodes; the context each member meets is the one
`process_member` left after the members before it. -/
def members_steps (E : externals) (ctx : context) : List idl_node → List step
  | [] => []
  | n :: rest => member_steps E ctx n ++ members_steps E (process_member E ctx n).1 rest

/-- The write body of a list of steps. -/
def write_body (steps : List step) : List instr := steps.flatMap step.write

/-- The read body of a list of steps. -/
def read_body (steps : List step) : List instr := steps.flatMap step.read

/-- The write-size body of a list of steps. -/
def write_size_body (steps : List step) : List instr := steps.flatMap step.write_size

/-- The read-size body of a list of steps. -/
def read_size_body (steps : List step) : List instr := steps.flatMap step.read_size

/-! ## Well-formed lines, and running a body as compiled code -/

/-- Reading the arguments of the first call in a line of C++: `depth` counts the open
parentheses (0 before the call's own), `current` is the argument being read and `done`
the arguments read so far. An argument ends at a comma outside nested parentheses or
at the closing parenthesis of the call. -/
def call_arguments_scan : Nat → List Char → List (List Char) → List Char → List (List Char)
  | _, _, done, [] => done
  | 0, current, done, c :: rest =>
    if c = '(' then call_arguments_scan 1 [] done rest
    else call_arguments_scan 0 current done rest
  | depth + 1, current, done, c :: rest =>
    if c = ')' then
      if depth = 0 then done ++ [current]
      else call_arguments_scan depth (current ++ [c]) done rest
    else if c = ',' ∧ depth = 0 then
      call_arguments_scan (depth + 1) [] (done ++ [current]) rest
    else if c = '(' then call_arguments_scan (depth + 2) (current ++ [c]) done rest
    else call_arguments_scan (depth + 1) (current ++ [c]) done rest

/-- The arguments of the first call in a line, each without leading blanks; for the
first line of a procedure these are its parameters. -/
def call_arguments (line : String) : List String :=
  (call_arguments_scan 0 [] [] line.data).map
    (fun a => String.mk (a.dropWhile (fun c => c == ' ')))

/-- Whether a line that calls `memcpy` or `memset` passes the three arguments these
functions take; the other lines have no such call. -/
def instr.arguments_ok (i : instr) : Bool :=
  match i with
  | .copy_out _ _ => (call_arguments i.line).length == 3
  | .copy_in _ _ => (call_arguments i.line).length == 3
  | .zero_alignment => (call_arguments i.line).length == 3
  | .zero_padding _ => (call_arguments i.line).length == 3
  | _ => true

/-- A body run as compiled code: there is no run when a line of the body is not well
formed; otherwise the lines are run in order. -/
def run (call : instr → machine → machine) (prog : List instr) (m : machine) :
    Option machine :=
  if prog.all instr.arguments_ok then some (exec call prog m) else none

/-- Whether the text `sub` occurs in `text`, both as characters. -/
def occurs_chars (sub : List Char) : List Char → Bool
  | [] => sub.isEmpty
  | c :: rest => (sub == (c :: rest).take sub.length) || occurs_chars sub rest

/-- Whether the text `sub` occurs in `text`. -/
def occurs (sub text : String) : Bool := occurs_chars sub.data text.data

/-- The opening text of a namespace at the given depth. -/
def namespace_open (depth : Nat) (cpp11name : String) : String :=
  spaces (2 * depth) ++ namespace_declaration_fmt cpp11name ++
    (spaces (2 * depth) ++ "\x7b\n\n")

/-- The closing brace of a namespace at the given depth. -/
def namespace_close (depth : Nat) : String := spaces (2 * depth) ++ "\x7d\n\n"

/-- The four signatures of a struct, as declarations, at the given depth. -/
def signatures (depth : Nat) (cpp11name : String) : String :=
  spaces (2 * depth) ++ struct_write_func_fmt cpp11name ++ ";\n\n" ++
  (spaces (2 * depth) ++ struct_write_size_func_fmt cpp11name ++ ";\n\n") ++
  (spaces (2 * depth) ++ struct_read_func_fmt cpp11name ++ ";\n\n") ++
  (spaces (2 * depth) ++ struct_read_size_func_fmt cpp11name ++ ";\n\n")

/-- The procedure `write_struct` of a struct with the given body. -/
def write_procedure (depth : Nat) (cpp11name : String) (body : List instr) : String :=
  spaces (2 * depth) ++ struct_write_func_fmt cpp11name ++ "\n" ++
  (spaces (2 * depth) ++ "\x7b\n") ++
  render depth body ++
  (spaces (2 * depth) ++ "  return position;\n") ++
  (spaces (2 * depth) ++ "\x7d\n\n")

/-- The procedure `write_size` of a struct with the given body. -/
def write_size_procedure (depth : Nat) (cpp11name : String) (body : List instr) : String :=
  spaces (2 * depth) ++ struct_write_size_func_fmt cpp11name ++ "\n" ++
  (spaces (2 * depth) ++ "\x7b\n") ++
  (spaces (2 * depth) ++ "  size_t position = offset;\n") ++
  render depth body ++
  (spaces (2 * depth) ++ "  return position-offset;\n") ++
  (spaces (2 * depth) ++ "\x7d\n\n")

/-- The procedure `read_struct` of a struct with the given body. -/
def read_procedure (depth : Nat) (cpp11name : String) (body : List instr) : String :=
  spaces (2 * depth) ++ struct_read_func_fmt cpp11name ++ "\n" ++
  (spaces (2 * depth) ++ "\x7b\n") ++
  render depth body ++
  (spaces (2 * depth) ++ "  return position;\n") ++
  (spaces (2 * depth) ++ "\x7d\n\n")

/-- The procedure `<name>_read_size` of a struct with the given body. -/
def read_size_procedure (depth : Nat) (cpp11name : String) (body : List instr) : String :=
  spaces (2 * depth) ++ struct_read_size_func_fmt cpp11name ++ "\n" ++
  (spaces (2 * depth) ++ "\x7b\n") ++
  (spaces (2 * depth) ++ "  size_t position = offset;\n") ++
  render depth body ++
  (spaces (2 * depth) ++ "  return position-offset;\n") ++
  (spaces (2 * depth) ++ "\x7d\n\n")

/-! ## Sample trees -/

/-- Modelled from the spec: `idl/tree.h` and the C++ backend's `get_cpp11_name` are not
among the sources. Flag values that fit the way the sources use them: one bit for each
of member, module, constructed type, template type, scoped name and base type, all above
the low nibble; the integer and the floating-point category each contain the base-type
bit; the name mangler leaves a name that is not a C++ keyword as it is. -/
def sample : externals :=
  { IDL_MEMBER := 0x800
    IDL_MODULE := 0x400
    IDL_CONSTR_TYPE := 0x100
    IDL_BASE_TYPE := 0x010
    IDL_SCOPED_NAME := 0x200
    IDL_TEMPL_TYPE := 0x080
    IDL_INTEGER_TYPE := 0x030
    IDL_FLOATING_PT_TYPE := 0x050
    get_cpp11_name := fun s => s }

/-- Flags of an `int8`: the integer category, kind `0x2` (see `print_node`). -/
def IDL_INT8 : Nat := sample.IDL_INTEGER_TYPE ||| 0x2

/-- Flags of an `int16`: the integer category, kind `0x4`. -/
def IDL_INT16 : Nat := sample.IDL_INTEGER_TYPE ||| 0x4

/-- Flags of an `int32`: the integer category, kind `0x6`. -/
def IDL_INT32 : Nat := sample.IDL_INTEGER_TYPE ||| 0x6

/-- Flags of an `int64`: the integer category, kind `0x8`. -/
def IDL_INT64 : Nat := sample.IDL_INTEGER_TYPE ||| 0x8

/-- Flags of an `octet`: the base-type category, kind `0x4`. -/
def IDL_OCTET : Nat := sample.IDL_BASE_TYPE ||| 0x4

/-- Flags of a struct: the constructed-type category, kind `0x1`. -/
def IDL_STRUCT : Nat := sample.IDL_CONSTR_TYPE ||| 0x1

/-- A struct member of the given type flags, with its declarator and the next member. -/
def member_node (type_flags : Nat) (declarator : String) (next : Option idl_node) : idl_node :=
  .mk (sample.IDL_MEMBER ||| type_flags) "" declarator none next

/-- A struct with the given name and first member. -/
def struct_node (name : String) (children next : Option idl_node) : idl_node :=
  .mk IDL_STRUCT name "" children next

/-- A module with the given name and first child. -/
def module_node (name : String) (children next : Option idl_node) : idl_node :=
  .mk sample.IDL_MODULE name "" children next

/-- The context `process_constructed` has built when it reaches the first member of a
struct called `S` at the root (depth 0): the four signatures and opening lines are in
the streams and the alignment state is reset. -/
def at_first_member : context := process_constructed_open sample (create_context "") "S"

/-- No text written to either file yet. -/
def no_text : streamer_t := { header_file := "", impl_file := "" }

/-- The members of `struct S { int32 a; int8 b; int32 c; };`. -/
def members_4_1_4 : idl_node :=
  member_node IDL_INT32 "a" (some (member_node IDL_INT8 "b" (some (member_node IDL_INT32 "c" none))))

/-- The members of `struct S { int8 a; int32 b; int8 c; int64 d; };`. -/
def members_1_4_1_8 : idl_node :=
  member_node IDL_INT8 "a" (some (member_node IDL_INT32 "b"
    (some (member_node IDL_INT8 "c" (some (member_node IDL_INT64 "d" none))))))

/-- The members of `struct S { octet a; octet b; octet c; };`. -/
def members_octets : idl_node :=
  member_node IDL_OCTET "a" (some (member_node IDL_OCTET "b" (some (member_node IDL_OCTET "c" none))))

/-- A machine at `position` whose memory holds `0xAA` everywhere and whose object has
no bytes in any field. -/
def blank_machine (position : Nat) : machine :=
  { position := position, alignmentbytes := 0, data := fun _ => 0xAA, object := fun _ => [] }

/-- The root context of `idl_streamers_generate`: `create_context(str, "")`. -/
def root_context : context := create_context ""

/-- The tree of `struct S { octet a; octet b; octet c; };`. -/
def struct_octets : idl_node := struct_node "S" (some members_octets) none

/-- The tree of `module M { struct S { octet a; octet b; octet c; }; };`. -/
def module_M : idl_node := module_node "M" (some struct_octets) none

/-- The tree of `module A { module B { struct S { octet a; }; }; };`. -/
def module_A_B : idl_node :=
  module_node "A"
    (some (module_node "B" (some (struct_node "S" (some (member_node IDL_OCTET "a" none)) none))
      none))
    none

/-- The tree of a struct `S` without members. -/
def struct_empty : idl_node := struct_node "S" none none

/-! ## `append_ostream` and `flush_ostream` on the memory they use

`append_ostream` above is the text a stream holds. Below is the same function statement
by statement on the allocated block, and `flush_ostream` with a file that may be `NULL`. -/

/-- The terminating character of a C string. -/
def NUL : Char := Char.ofNat 0

/-- An `ostream_t` as the source declares it (without `indentlength`): `buffer` is `NULL`
or the allocated block, character by character, of which `bufsize` says the size. -/
structure ostream_mem where
  buffer : Option (List Char)
  bufsize : Nat
  deriving DecidableEq, Repr

/-- Call `malloc(n)`: a block of `n` characters whose content is whatever `junk` says. -/
def malloc (junk : Nat → Char) (n : Nat) : List Char := (List.range n).map junk

/-- The characters `src` stored into `block` from offset `off` on; `none` when they do
not fit into the block. -/
def mem_store (block : List Char) (off : Nat) (src : List Char) : Option (List Char) :=
  if off + src.length ≤ block.length then
    some (block.take off ++ src ++ block.drop (off + src.length))
  else none

/-- Call `memset(block + off, c, n)`. -/
def memset (block : List Char) (off : Nat) (c : Char) (n : Nat) : Option (List Char) :=
  mem_store block off (List.replicate n c)

/-- Call `memcpy(block + off, src, n)`; `none` also when `src` has fewer than `n`
characters. -/
def memcpy (block : List Char) (off : Nat) (src : List Char) (n : Nat) : Option (List Char) :=
  if n ≤ src.length then mem_store block off (src.take n) else none

/-- Call `strlen(s)` on the block that holds a C string: the characters before the first
`NUL`. -/
def strlen (s : List Char) : Nat := (s.takeWhile (fun c => c != NUL)).length

/-- Function `append_ostream`, statement by statement (lines 183 to 202); `toappend` is
the block that holds the argument, `depth` the value of `*(str->indentlength)`, and a
`none` is an access outside a block. `size_t` arithmetic is taken in `Nat`. -/
def append_ostream_mem (junk : Nat → Char) (str : ostream_mem) (depth : Nat)
    (toappend : List Char) (indent : Bool) : Option ostream_mem :=
  let appendlength := strlen toappend
  let indentlength := if indent then 2 * depth else 0
  match str.buffer with
  | none =>
    let bufsize := appendlength + 1 + indentlength
    let buffer := malloc junk bufsize
    (memset buffer 0 ' ' indentlength).bind fun buffer =>
    (memcpy buffer indentlength toappend (appendlength + 1)).bind fun buffer =>
    some { buffer := some buffer, bufsize := bufsize }
  | some old =>
    let newlength := appendlength + str.bufsize + indentlength
    let newbuffer := malloc junk newlength
    (memcpy newbuffer 0 old str.bufsize).bind fun newbuffer =>
    (memset newbuffer (str.bufsize - 1) ' ' indentlength).bind fun newbuffer =>
    (memcpy newbuffer (str.bufsize - 1 + indentlength) toappend (appendlength + 1)).bind
      fun newbuffer =>
    some { buffer := some newbuffer, bufsize := newlength }

/-- The block and size a stream of the model stands for: `NULL` and 0, or the text with
its terminating `NUL` and the length of the text plus one. -/
def ostream.image (str : ostream) : ostream_mem :=
  match str.buffer with
  | none => { buffer := none, bufsize := 0 }
  | some c => { buffer := some (c.data ++ [NUL]), bufsize := c.length + 1 }

/-- Function `flush_ostream` with a file that may be `NULL` (`f = none`): the stream, the
file and the text on `stdout` afterwards. -/
def flush_ostream_sink (str : ostream) (f : Option String) (stdout : String) :
    ostream × Option String × String :=
  match str.buffer with
  | some b =>
    match f with
    | none => (clear_ostream str, none, stdout ++ b)
    | some file => (clear_ostream str, some (file ++ b), stdout)
  | none => (str, f, stdout)

/-- Whether a node is a member of a template type: its flags have the template-type
category and neither of the two categories `process_member` tests before it. -/
def is_template_member (E : externals) (node : idl_node) : Bool :=
  node.flags &&& E.IDL_BASE_TYPE == 0 && node.flags &&& E.IDL_SCOPED_NAME == 0 &&
    node.flags &&& E.IDL_TEMPL_TYPE != 0

/-- What `process_member` and its callees read of a node: the flags and the declarator. -/
def member_data (node : idl_node) : Nat × String := (node.flags, node.declarator)

/-! ## More sample trees -/

/-- Flags of a sequence: the template-type category, kind `0x1` (see `print_node`). -/
def IDL_SEQUENCE : Nat := sample.IDL_TEMPL_TYPE ||| 0x1

/-- A node `X` whose flags are 0, so that they match no category, followed by the struct
`S { octet a; octet b; octet c; }`. -/
def unknown_then_struct : idl_node := .mk 0 "X" "" none (some struct_octets)

/-- The members `int8 a; sequence s; int32 b;`. -/
def members_with_sequence : idl_node :=
  member_node IDL_INT8 "a" (some (member_node IDL_SEQUENCE "s"
    (some (member_node IDL_INT32 "b" none))))

/-- The members `int8 a; int32 b;`. -/
def members_without_sequence : idl_node :=
  member_node IDL_INT8 "a" (some (member_node IDL_INT32 "b" none))

/-- The context in which `process_base` meets `c` of `struct S { int32 a; int8 b; int32 c; };`:
the one `a` and `b` leave. -/
def before_c : context :=
  process_members sample at_first_member
    [member_node IDL_INT32 "a" none, member_node IDL_INT8 "b" none]

/-- The context in which `process_base` meets `b` of `struct S { int32 a; int8 b; };`:
the one `a` leaves. -/
def before_b : context :=
  process_members sample at_first_member [member_node IDL_INT32 "a" none]

/-- The context in which `process_base` meets `d` of
`struct S { int8 a; int32 b; int8 c; int64 d; };`. -/
def before_d : context :=
  process_members sample at_first_member
    [member_node IDL_INT8 "a" none, member_node IDL_INT32 "b" none, member_node IDL_INT8 "c" none]

/-- The tree of `struct Outer { Inner b; };`: the member `b` has a scoped name as its
type. -/
def struct_outer : idl_node :=
  struct_node "Outer" (some (member_node sample.IDL_SCOPED_NAME "b" none)) none

/-- The tree of `struct Inner { octet a; }; struct Outer { Inner b; };`. -/
def struct_inner_then_outer : idl_node :=
  struct_node "Inner" (some (member_node IDL_OCTET "a" none)) (some struct_outer)

/-! ## The alignment expression as C arithmetic -/

/-- The C expressions `generatealignment` writes: the variable `position`, a decimal
literal, a parenthesised difference and a remainder. -/
inductive cexpr where
  | position
  | literal (n : Nat)
  | minus (a b : cexpr)
  | rem (a b : cexpr)
  deriving DecidableEq, Repr

/-- The C text of an expression, spaced as in `primitive_calc_alignment_fmt`. -/
def cexpr.text : cexpr → String
  | .position => "position"
  | .literal n => fmt_d n
  | .minus a b => "(" ++ a.text ++ " - " ++ b.text ++ ")"
  | .rem a b => a.text ++ "%" ++ b.text

/-- The value of an expression when the variable holds `position`, in the arithmetic
of a 64-bit `size_t`: a difference wraps around. -/
def cexpr.eval (position : Nat) : cexpr → Nat
  | .position => position
  | .literal n => n
  | .minus a b => (a.eval position + (2 ^ 64 - b.eval position % 2 ^ 64)) % 2 ^ 64
  | .rem a b => a.eval position % b.eval position

/-- The expression whose text `generatealignment` returns for `alignto`, before the
closing semicolon: the three branches of lines 72 to 89. -/
def alignment_expr (alignto : Nat) : cexpr :=
  if alignto < 2 then .literal 0
  else if alignto = 2 then .rem .position (.literal 2)
  else .rem (.minus (.literal alignto) (.rem .position (.literal alignto))) (.literal alignto)

/-! ## Flags of the remaining base types, in the encoding of `sample` -/

/-- Flags of an unsigned integer of the same kind: bit 0 set. -/
def IDL_UNSIGNED : Nat := 0x1

/-- Flags of a `float`: the floating-point category, kind `0x2`. -/
def IDL_FLOAT : Nat := sample.IDL_FLOATING_PT_TYPE ||| 0x2

/-- Flags of a `double`: the floating-point category, kind `0x4`. -/
def IDL_DOUBLE : Nat := sample.IDL_FLOATING_PT_TYPE ||| 0x4

/-- Flags of a `long double`: the floating-point category, kind `0x6`. -/
def IDL_LDOUBLE : Nat := sample.IDL_FLOATING_PT_TYPE ||| 0x6

/-- Flags of a `char`: the base-type category, kind `0x1`. -/
def IDL_CHAR : Nat := sample.IDL_BASE_TYPE ||| 0x1

/-- Flags of a `wchar`: the base-type category, kind `0x2`. -/
def IDL_WCHAR : Nat := sample.IDL_BASE_TYPE ||| 0x2

/-- Flags of a `boolean`: the base-type category, kind `0x3`. -/
def IDL_BOOL : Nat := sample.IDL_BASE_TYPE ||| 0x3

/-! ## More sample trees and contexts -/

/-- The tree of `struct S { int32 a; };`. -/
def struct_int32 : idl_node := struct_node "S" (some (member_node IDL_INT32 "a" none)) none

/-- The root context with the alignment state a struct `{ int8; int32; int8 }` leaves:
tracked width 4, 5 bytes accumulated, alignment variable declared. -/
def root_context_used : context :=
  { root_context with currentalignment := 4, accumulatedalignment := 5, alignmentpresent := 1 }

/-! ## The scope walk of the C++11 backend (`backendCpp11.c`, lines 584 to 608) -/

/-- What `cpp11_scope_walk` takes from outside: the flag constants of `idl/tree.h`, and
its two callees `on_module_open` and `on_struct_open`, whose bodies print through the
backend functions of `idl/backend.h`. A callee takes the state of the backend context
(output file, indentation, custom context) and gives the state it leaves and its
result. -/
structure backend_externals (β : Type) where
  IDL_CATEGORY_MASK : Nat
  IDL_MODULE : Nat
  IDL_CONSTR_TYPE : Nat
  IDL_STRUCT : Nat
  on_module_open : β → idl_node → β × idl_retcode_t
  on_struct_open : β → idl_node → β × idl_retcode_t

/-- Function `cpp11_scope_walk`: the outer `switch` on the category of the node, the
inner `switch` on its flags with the single case `IDL_STRUCT`, and the `default` of the
outer one. `result` starts as `IDL_RETCODE_OK`. -/
def cpp11_scope_walk {β : Type} (B : backend_externals β) (ctx : β) (node : idl_node) :
    β × idl_retcode_t :=
  let result := idl_retcode_t.IDL_RETCODE_OK
  if node.flags &&& B.IDL_CATEGORY_MASK = B.IDL_MODULE then B.on_module_open ctx node
  else if node.flags &&& B.IDL_CATEGORY_MASK = B.IDL_CONSTR_TYPE then
    if node.flags = B.IDL_STRUCT then B.on_struct_open ctx node
    else (ctx, result)
  else (ctx, .IDL_RETCODE_INVALID_PARSETREE)

/-- A backend for closed examples: the categories of `sample` under the mask `0xf00`,
the output file as the state, and for each callee the first line it prints. -/
def sample_backend : backend_externals String :=
  { IDL_CATEGORY_MASK := 0xf00
    IDL_MODULE := sample.IDL_MODULE
    IDL_CONSTR_TYPE := sample.IDL_CONSTR_TYPE
    IDL_STRUCT := IDL_STRUCT
    on_module_open := fun out node =>
      (out ++ "namespace " ++ sample.get_cpp11_name node.name ++ " \x7b\n", .IDL_RETCODE_OK)
    on_struct_open := fun out node =>
      (out ++ "class " ++ sample.get_cpp11_name node.name ++ " \x7b\n", .IDL_RETCODE_OK) }

/-- Flags of a union in the encoding of `sample`: the constructed-type category, kind
`0x2` (see `print_node`). -/
def IDL_UNION : Nat := sample.IDL_CONSTR_TYPE ||| 0x2

/-! ## Sequences of calls on the alignment state -/

/-- One call that `process_member` makes within a struct and that touches the alignment
state: `process_base` or `process_instance`, with the member node it is given. -/
inductive tracker_call where
  | base (node : idl_node)
  | nested (node : idl_node)

/-- The context a call leaves. -/
def tracker_call.run (E : externals) (ctx : context) : tracker_call → context
  | .base node => (process_base E ctx node).1
  | .nested node => (process_instance E ctx node).1

/-- The context a sequence of calls leaves, made one after the other. -/
def run_calls (E : externals) (ctx : context) (calls : List tracker_call) : context :=
  calls.foldl (tracker_call.run E) ctx

/-- The call `process_member` makes for a node: `process_base` for a base type,
`process_instance` for a scoped name, none otherwise. -/
def member_call (E : externals) (node : idl_node) : Option tracker_call :=
  if node.flags &&& E.IDL_BASE_TYPE ≠ 0 then some (.base node)
  else if node.flags &&& E.IDL_SCOPED_NAME ≠ 0 then some (.nested node)
  else none

/-- Whether a call is on a base type whose computed width is 1, 2, 4 or 8, or is a
call of `process_instance`. -/
def tracker_call.valid (E : externals) : tracker_call → Bool
  | .base node =>
    base_bytewidth E node.flags == 1 || base_bytewidth E node.flags == 2 ||
      base_bytewidth E node.flags == 4 || base_bytewidth E node.flags == 8
  | .nested _ => true

/-- The calls for `struct S { int8 a; int32 b; int64 c; Inner d; int16 e; };`. -/
def calls_1_4_8_nested_2 : List tracker_call :=
  [.base (member_node IDL_INT8 "a" none), .base (member_node IDL_INT32 "b" none),
   .base (member_node IDL_INT64 "c" none), .nested (member_node sample.IDL_SCOPED_NAME "d" none),
   .base (member_node IDL_INT16 "e" none)]

/-! ## Declaration and use of `alignmentbytes` in a procedure body -/

/-- Whether the lines of a body use the local variable `alignmentbytes` as C++ requires,
`declared` telling whether a declaration precedes them: the declaring line must not
follow another declaration; the assigning line, the zero-fill of `alignmentbytes` bytes
and `position += alignmentbytes` must follow one. -/
def well_declared (declared : Bool) : List instr → Bool
  | [] => true
  | .declare_alignment _ _ :: rest => !declared && well_declared true rest
  | .assign_alignment _ _ :: rest => declared && well_declared declared rest
  | .zero_alignment :: rest => declared && well_declared declared rest
  | .skip_alignment :: rest => declared && well_declared declared rest
  | _ :: rest => well_declared declared rest

/-- The form of a run-time alignment step: `some true` for the declaring form, `some
false` for the assigning form, `none` for a step that is no run-time alignment. -/
def step.declares : step → Option Bool
  | .align d _ _ => some d
  | _ => none

/-- The members `int32 a; Inner b; int8 c; int64 d; Inner e; int16 f;`. -/
def members_with_instances : idl_node :=
  member_node IDL_INT32 "a" (some (member_node sample.IDL_SCOPED_NAME "b"
    (some (member_node IDL_INT8 "c" (some (member_node IDL_INT64 "d"
      (some (member_node sample.IDL_SCOPED_NAME "e"
        (some (member_node IDL_INT16 "f" none))))))))))

/-! ## The call of `generatealignment` -/

/-- The argument with which `process_base` calls `generatealignment` (line 587) for a
member of width `bytewidth` in context `ctx`, `none` when the call is not reached: the
conditions are those of lines 571 and 573. -/
def generatealignment_call (ctx : context) (bytewidth : Nat) : Option Nat :=
  if ctx.currentalignment ≠ (bytewidth : Int) then
    if 0 > ctx.currentalignment ∧ bytewidth ≠ 1 then some bytewidth
    else none
  else none

/-! ## Formatting buffers

The format strings of lines 20 to 38 as they stand in the source, a `sprintf` over
them, and for every `sprintf_s` (or `strcpy_s`) of the generator the size the source
computes for the buffer next to the text that is written into it. `strlen` of a text
is its length; member names are taken to be identifiers, one byte per character. -/

namespace raw

/-- Format string of line 20. -/
def struct_write_func_fmt : String :=
  "size_t write_struct(const %s &write, void *data, size_t position)"

/-- Format string of line 21. -/
def primitive_calc_alignment_fmt : String := "(%d - position%%%d)%%%d;"

/-- Text of line 22. -/
def primitive_calc_alignment_even_odd : String := "position%2;"

/-- Format string of line 24. -/
def primitive_write_func_padding_fmt : String :=
  "  memset(data+position,0x0,%d);  //setting padding bytes to 0x0\n"

/-- Format string of line 26. -/
def primitive_write_func_write_fmt : String := "  memcpy(data+position,&write.%s(),%d);"

/-- Format string of line 28. -/
def instance_write_func_fmt : String :=
  "  position = write_struct(write.%s(), data, position);\n"

/-- Format string of line 29. -/
def namespace_declaration_fmt : String := "namespace %s\n"

/-- Format string of line 30. -/
def struct_write_size_func_fmt : String := "size_t write_size(const %s &write, size_t offset)"

/-- Format string of line 31. -/
def primitive_incr_pos : String := "  position += %d;"

/-- Format string of line 32. -/
def instance_size_func_calc_fmt : String :=
  "  position += write_size(write.%s(), position);\n"

/-- Format string of line 34. -/
def struct_read_func_fmt : String :=
  "size_t read_struct(%s &read, void *data, size_t position)"

/-- Format string of line 35. -/
def struct_read_size_func_fmt : String := "size_t %s_read_size(void *data, size_t offset)"

/-- Format string of line 36. -/
def struct_read_size_func_call_fmt : String :=
  "  position += %s_read_size(data, position);\n"

/-- Format string of line 37. -/
def primitive_read_func_read_fmt : String := "  memcpy(&read.%s() data+position,%d);"

/-- Format string of line 38. -/
def instance_read_func_fmt : String :=
  "  position = read_struct(write.%s(), data, position);\n"

end raw

/-- An argument of `sprintf`: a string for `%s`, a non-negative `int` for `%d`. -/
inductive fmt_arg where
  | str (s : String)
  | int (n : Nat)
  deriving DecidableEq, Repr

/-- The characters `sprintf` writes for a format and its arguments, without the
terminating NUL: `%%` gives a percent sign, `%s` and `%d` take the next argument, every
other character is copied. -/
def sprintf_chars : List Char → List fmt_arg → List Char
  | [], _ => []
  | '%' :: '%' :: rest, args => '%' :: sprintf_chars rest args
  | '%' :: 's' :: rest, .str s :: args => s.data ++ sprintf_chars rest args
  | '%' :: 'd' :: rest, .int n :: args => (fmt_d n).data ++ sprintf_chars rest args
  | c :: rest, args => c :: sprintf_chars rest args

/-- The text `sprintf` leaves in its buffer. -/
def sprintf (fmt : String) (args : List fmt_arg) : String :=
  String.mk (sprintf_chars fmt.data args)

/-- One formatting of the generator: the source line of the `sprintf_s` or `strcpy_s`,
the number of bytes allocated for the buffer, and the text written into it. -/
structure formatting where
  line : Nat
  bufsize : Nat
  text : String
  deriving DecidableEq, Repr

/-- Whether the buffer holds the text and its terminating NUL. -/
def formatting.fits (f : formatting) : Bool := decide (f.text.length + 1 ≤ f.bufsize)

/-- The formatting in `generatealignment` (lines 72 to 89); `"0" + 1` is the address of
the NUL of the literal, so its `strlen` is that of the literal without its first
character. -/
def generatealignment_formatting (alignto : Nat) : formatting :=
  if alignto < 2 then
    { line := 76, bufsize := ("0".drop 1).length, text := "0" }
  else if alignto = 2 then
    { line := 82, bufsize := raw.primitive_calc_alignment_even_odd.length + 1,
      text := raw.primitive_calc_alignment_even_odd }
  else
    { line := 88, bufsize := raw.primitive_calc_alignment_fmt.length - 10 + 5 + 1,
      text := sprintf raw.primitive_calc_alignment_fmt
        [.int alignto, .int alignto, .int alignto] }

/-- The formatting of the padding instruction (lines 623 to 625). -/
def padding_formatting (missingbytes : Nat) : formatting :=
  { line := 625, bufsize := raw.primitive_write_func_padding_fmt.length - 2,
    text := sprintf raw.primitive_write_func_padding_fmt [.int missingbytes] }

/-- The formatting of `position += n;` (lines 628 to 630 and 672 to 674). -/
def incr_pos_formatting (line n : Nat) : formatting :=
  { line := line, bufsize := raw.primitive_incr_pos.length,
    text := sprintf raw.primitive_incr_pos [.int n] }

/-- The formatting of the copy into the buffer (lines 656 to 658). -/
def write_formatting (cpp11name : String) (bytewidth : Nat) : formatting :=
  { line := 658,
    bufsize := raw.primitive_write_func_write_fmt.length - 2 + 1 + cpp11name.length - 2 + 1,
    text := sprintf raw.primitive_write_func_write_fmt [.str cpp11name, .int bytewidth] }

/-- The formatting of the copy out of the buffer (lines 664 to 666). -/
def read_formatting (cpp11name : String) (bytewidth : Nat) : formatting :=
  { line := 666,
    bufsize := raw.primitive_read_func_read_fmt.length - 2 + 1 + cpp11name.length - 2 + 1,
    text := sprintf raw.primitive_read_func_read_fmt [.str cpp11name, .int bytewidth] }

/-- The formattings of one `process_base` call, in the order they are made; the branch
conditions are those of `process_base`. -/
def process_base_formattings (ctx : context) (bytewidth : Nat) (cpp11name : String) :
    List formatting :=
  (if ctx.currentalignment ≠ (bytewidth : Int) then
    if 0 > ctx.currentalignment ∧ bytewidth ≠ 1 then
      [generatealignment_formatting bytewidth]
    else if 0 ≠ (bytewidth - (ctx.accumulatedalignment % bytewidth)) % bytewidth then
      [padding_formatting ((bytewidth - (ctx.accumulatedalignment % bytewidth)) % bytewidth),
       incr_pos_formatting 630
         ((bytewidth - (ctx.accumulatedalignment % bytewidth)) % bytewidth)]
    else []
  else []) ++
  [write_formatting cpp11name bytewidth, read_formatting cpp11name bytewidth,
   incr_pos_formatting 674 bytewidth]

/-- The formattings of `process_instance` (lines 417 to 434). -/
def process_instance_formattings (cpp11name : String) : List formatting :=
  [{ line := 419, bufsize := raw.instance_write_func_fmt.length - 2 + cpp11name.length + 1,
     text := sprintf raw.instance_write_func_fmt [.str cpp11name] },
   { line := 424, bufsize := raw.instance_read_func_fmt.length - 2 + cpp11name.length + 1,
     text := sprintf raw.instance_read_func_fmt [.str cpp11name] },
   { line := 429,
     bufsize := raw.struct_read_size_func_call_fmt.length - 2 + cpp11name.length + 1,
     text := sprintf raw.struct_read_size_func_call_fmt [.str cpp11name] },
   { line := 434,
     bufsize := raw.instance_size_func_calc_fmt.length - 2 + cpp11name.length + 1,
     text := sprintf raw.instance_size_func_calc_fmt [.str cpp11name] }]

/-- The formatting of `process_module` (lines 456 to 458). -/
def process_module_formattings (cpp11name : String) : List formatting :=
  [{ line := 458,
     bufsize := raw.namespace_declaration_fmt.length + cpp11name.length - 2 + 1,
     text := sprintf raw.namespace_declaration_fmt [.str cpp11name] }]

/-- The formattings of `process_constructed` (lines 485 to 515). -/
def process_constructed_formattings (cpp11name : String) : List formatting :=
  [{ line := 487, bufsize := cpp11name.length + raw.struct_write_func_fmt.length - 2 + 1,
     text := sprintf raw.struct_write_func_fmt [.str cpp11name] },
   { line := 496,
     bufsize := cpp11name.length + raw.struct_write_size_func_fmt.length - 2 + 1,
     text := sprintf raw.struct_write_size_func_fmt [.str cpp11name] },
   { line := 506, bufsize := cpp11name.length + raw.struct_read_func_fmt.length - 2 + 1,
     text := sprintf raw.struct_read_func_fmt [.str cpp11name] },
   { line := 515,
     bufsize := cpp11name.length + raw.struct_read_size_func_fmt.length - 2 + 1,
     text := sprintf raw.struct_read_size_func_fmt [.str cpp11name] }]

/-! ## String utilities (`src/idl/src/string_utils.c`)

A `char*` is a run of memory read from the pointer on, as the list of its byte values
(`unsigned char`, 0 to 255); a read past the end of the list gives NUL, so every run
holds a terminated string. `tolower` and `strchr` are the functions of the C library,
`tolower` in the "C" locale. -/

/-- The bytes of a text, one per character (for texts of ASCII characters). -/
def c_bytes (s : String) : List Nat := s.data.map Char.toNat

/-- The string at the start of a run of memory: the bytes before the first NUL. -/
def c_string (mem : List Nat) : List Nat := mem.takeWhile (fun c => c != 0)

/-- The byte `*(p)` for a pointer at offset `p` of a block. -/
def peek (mem : List Nat) (p : Nat) : Nat := mem.getD p 0

/-- Library function `tolower` in the "C" locale: the letters `A` to `Z` go to `a` to
`z`, every other value is returned as it is. -/
def tolower (c : Nat) : Nat := if 65 ≤ c ∧ c ≤ 90 then c + 32 else c

/-- Library function `strchr` on the string at `s`: the offset of the first byte equal
to `c`, the terminating NUL being part of the string, or `none` for a null pointer. -/
def strchr : List Nat → Nat → Option Nat
  | [], c => if c = 0 then some 0 else none
  | b :: rest, c =>
    if b = c then some 0
    else if b = 0 then none
    else (strchr rest c).map (fun i => i + 1)

/-- Function `idl_strcasecmp`: one step of the recursion is one round of the `while`
loop of lines 28 to 35; the last case is the code after the loop. -/
def idl_strcasecmp : List Nat → List Nat → Int
  | a :: s1, b :: s2 =>
    if a ≠ 0 ∧ b ≠ 0 then
      let cr := (tolower a : Int) - (tolower b : Int)
      if cr ≠ 0 then cr
      else idl_strcasecmp s1 s2
    else (tolower a : Int) - (tolower b : Int)
  | s1, s2 => (tolower (s1.headD 0) : Int) - (tolower (s2.headD 0) : Int)

/-- The loop of `idl_strncasecmp` (lines 51 to 59) and the code after it, entered with
the current value of `cr`. -/
def idl_strncasecmp_loop : Int → List Nat → List Nat → Nat → Int
  | _, a :: s1, b :: s2, n + 1 =>
    if a ≠ 0 ∧ b ≠ 0 then
      let cr := (tolower a : Int) - (tolower b : Int)
      if cr ≠ 0 then cr
      else idl_strncasecmp_loop cr s1 s2 n
    else (tolower a : Int) - (tolower b : Int)
  | cr, s1, s2, n =>
    if n ≠ 0 then (tolower (s1.headD 0) : Int) - (tolower (s2.headD 0) : Int)
    else cr

/-- Function `idl_strncasecmp`; `cr` starts as 0. -/
def idl_strncasecmp (s1 s2 : List Nat) (n : Nat) : Int := idl_strncasecmp_loop 0 s1 s2 n

/-- What the bounded comparison is said to compute: `idl_strcasecmp` of the first `n`
characters of the one string and the first `n` characters of the other. -/
def strcasecmp_of_prefixes (s1 s2 : List Nat) (n : Nat) : Int :=
  idl_strcasecmp ((c_string s1).take n) ((c_string s2).take n)

/-- The loop of `idl_strsep` (lines 143 to 144): the first argument is the memory from
`*str` on, the second the offset `*str`; the result is `*str` after the loop. -/
def idl_strsep_loop (sep : List Nat) : List Nat → Nat → Nat
  | c :: rest, str =>
    if c ≠ 0 ∧ strchr sep c = none then idl_strsep_loop sep rest (str + 1)
    else str
  | [], str => str

/-- Function `idl_strsep` on a block `mem` with `*str` at offset `str`: the returned
pointer (`none` for null), the block afterwards and `*str` afterwards. -/
def idl_strsep (mem : List Nat) (str : Nat) (sep : List Nat) : Option Nat × List Nat × Nat :=
  if peek mem str = 0 then (none, mem, str)
  else
    let ret := str
    let str := idl_strsep_loop sep (mem.drop str) str
    if peek mem str ≠ 0 then (some ret, mem.set str 0, str + 1)
    else (some ret, mem, str)

/-- The text of the string a pointer into a block points at. -/
def string_at (mem : List Nat) (p : Nat) : String :=
  String.mk ((c_string (mem.drop p)).map Char.ofNat)

/-! # Theorems -/

/-! ## Streams: what an append leaves -/

theorem spaces_zero : spaces 0 = "" := rfl

theorem text_append_ostream_indent (str : ostream) (depth : Nat) (t : String) :
    (append_ostream str depth t true).text = str.text ++ (spaces (2 * depth) ++ t) := by
  unfold append_ostream ostream.text
  cases h : str.buffer <;> simp [String.append_assoc]

theorem text_append_ostream_plain (str : ostream) (depth : Nat) (t : String) :
    (append_ostream str depth t false).text = str.text ++ t := by
  unfold append_ostream ostream.text
  cases h : str.buffer <;> simp [spaces_zero]

@[simp] theorem append_header_context (ctx : context) (t : String) (i : Bool) :
    (append_header ctx t i).context = ctx.context := rfl

@[simp] theorem append_header_text_indent (ctx : context) (t : String) :
    (append_header ctx t true).header_stream.text = ctx.header_stream.text ++ (spaces (2 * ctx.depth) ++ t) :=
  text_append_ostream_indent _ _ _

@[simp] theorem append_header_text_plain (ctx : context) (t : String) :
    (append_header ctx t false).header_stream.text = ctx.header_stream.text ++ t :=
  text_append_ostream_plain _ _ _

@[simp] theorem append_header_write_size_stream (ctx : context) (t : String) (i : Bool) :
    (append_header ctx t i).write_size_stream = ctx.write_size_stream := rfl

@[simp] theorem append_header_write_stream (ctx : context) (t : String) (i : Bool) :
    (append_header ctx t i).write_stream = ctx.write_stream := rfl

@[simp] theorem append_header_read_size_stream (ctx : context) (t : String) (i : Bool) :
    (append_header ctx t i).read_size_stream = ctx.read_size_stream := rfl

@[simp] theorem append_header_read_stream (ctx : context) (t : String) (i : Bool) :
    (append_header ctx t i).read_stream = ctx.read_stream := rfl

@[simp] theorem append_header_depth (ctx : context) (t : String) (i : Bool) :
    (append_header ctx t i).depth = ctx.depth := rfl

@[simp] theorem append_header_currentalignment (ctx : context) (t : String) (i : Bool) :
    (append_header ctx t i).currentalignment = ctx.currentalignment := rfl

@[simp] theorem append_header_accumulatedalignment (ctx : context) (t : String) (i : Bool) :
    (append_header ctx t i).accumulatedalignment = ctx.accumulatedalignment := rfl

@[simp] theorem append_header_alignmentpresent (ctx : context) (t : String) (i : Bool) :
    (append_header ctx t i).alignmentpresent = ctx.alignmentpresent := rfl

@[simp] theorem append_write_context (ctx : context) (t : String) (i : Bool) :
    (append_write ctx t i).context = ctx.context := rfl

@[simp] theorem append_write_header_stream (ctx : context) (t : String) (i : Bool) :
    (append_write ctx t i).header_stream = ctx.header_stream := rfl

@[simp] theorem append_write_write_size_stream (ctx : context) (t : String) (i : Bool) :
    (append_write ctx t i).write_size_stream = ctx.write_size_stream := rfl

@[simp] theorem append_write_text_indent (ctx : context) (t : String) :
    (append_write ctx t true).write_stream.text = ctx.write_stream.text ++ (spaces (2 * ctx.depth) ++ t) :=
  text_append_ostream_indent _ _ _

@[simp] theorem append_write_text_plain (ctx : context) (t : String) :
    (append_write ctx t false).write_stream.text = ctx.write_stream.text ++ t :=
  text_append_ostream_plain _ _ _

@[simp] theorem append_write_read_size_stream (ctx : context) (t : String) (i : Bool) :
    (append_write ctx t i).read_size_stream = ctx.read_size_stream := rfl

@[simp] theorem append_write_read_stream (ctx : context) (t : String) (i : Bool) :
    (append_write ctx t i).read_stream = ctx.read_stream := rfl

@[simp] theorem append_write_depth (ctx : context) (t : String) (i : Bool) :
    (append_write ctx t i).depth = ctx.depth := rfl

@[simp] theorem append_write_currentalignment (ctx : context) (t : String) (i : Bool) :
    (append_write ctx t i).currentalignment = ctx.currentalignment := rfl

@[simp] theorem append_write_accumulatedalignment (ctx : context) (t : String) (i : Bool) :
    (append_write ctx t i).accumulatedalignment = ctx.accumulatedalignment := rfl

@[simp] theorem append_write_alignmentpresent (ctx : context) (t : String) (i : Bool) :
    (append_write ctx t i).alignmentpresent = ctx.alignmentpresent := rfl

@[simp] theorem append_write_size_context (ctx : context) (t : String) (i : Bool) :
    (append_write_size ctx t i).context = ctx.context := rfl

@[simp] theorem append_write_size_header_stream (ctx : context) (t : String) (i : Bool) :
    (append_write_size ctx t i).header_stream = ctx.header_stream := rfl

@[simp] theorem append_write_size_text_indent (ctx : context) (t : String) :
    (append_write_size ctx t true).write_size_stream.text = ctx.write_size_stream.text ++ (spaces (2 * ctx.depth) ++ t) :=
  text_append_ostream_indent _ _ _

@[simp] theorem append_write_size_text_plain (ctx : context) (t : String) :
    (append_write_size ctx t false).write_size_stream.text = ctx.write_size_stream.text ++ t :=
  text_append_ostream_plain _ _ _

@[simp] theorem append_write_size_write_stream (ctx : context) (t : String) (i : Bool) :
    (append_write_size ctx t i).write_stream = ctx.write_stream := rfl

@[simp] theorem append_write_size_read_size_stream (ctx : context) (t : String) (i : Bool) :
    (append_write_size ctx t i).read_size_stream = ctx.read_size_stream := rfl

@[simp] theorem append_write_size_read_stream (ctx : context) (t : String) (i : Bool) :
    (append_write_size ctx t i).read_stream = ctx.read_stream := rfl

@[simp] theorem append_write_size_depth (ctx : context) (t : String) (i : Bool) :
    (append_write_size ctx t i).depth = ctx.depth := rfl

@[simp] theorem append_write_size_currentalignment (ctx : context) (t : String) (i : Bool) :
    (append_write_size ctx t i).currentalignment = ctx.currentalignment := rfl

@[simp] theorem append_write_size_accumulatedalignment (ctx : context) (t : String) (i : Bool) :
    (append_write_size ctx t i).accumulatedalignment = ctx.accumulatedalignment := rfl

@[simp] theorem append_write_size_alignmentpresent (ctx : context) (t : String) (i : Bool) :
    (append_write_size ctx t i).alignmentpresent = ctx.alignmentpresent := rfl

@[simp] theorem append_read_context (ctx : context) (t : String) (i : Bool) :
    (append_read ctx t i).context = ctx.context := rfl

@[simp] theorem append_read_header_stream (ctx : context) (t : String) (i : Bool) :
    (append_read ctx t i).header_stream = ctx.header_stream := rfl

@[simp] theorem append_read_write_size_stream (ctx : context) (t : String) (i : Bool) :
    (append_read ctx t i).write_size_stream = ctx.write_size_stream := rfl

@[simp] theorem append_read_write_stream (ctx : context) (t : String) (i : Bool) :
    (append_read ctx t i).write_stream = ctx.write_stream := rfl

@[simp] theorem append_read_read_size_stream (ctx : context) (t : String) (i : Bool) :
    (append_read ctx t i).read_size_stream = ctx.read_size_stream := rfl

@[simp] theorem append_read_text_indent (ctx : context) (t : String) :
    (append_read ctx t true).read_stream.text = ctx.read_stream.text ++ (spaces (2 * ctx.depth) ++ t) :=
  text_append_ostream_indent _ _ _

@[simp] theorem append_read_text_plain (ctx : context) (t : String) :
    (append_read ctx t false).read_stream.text = ctx.read_stream.text ++ t :=
  text_append_ostream_plain _ _ _

@[simp] theorem append_read_depth (ctx : context) (t : String) (i : Bool) :
    (append_read ctx t i).depth = ctx.depth := rfl

@[simp] theorem append_read_currentalignment (ctx : context) (t : String) (i : Bool) :
    (append_read ctx t i).currentalignment = ctx.currentalignment := rfl

@[simp] theorem append_read_accumulatedalignment (ctx : context) (t : String) (i : Bool) :
    (append_read ctx t i).accumulatedalignment = ctx.accumulatedalignment := rfl

@[simp] theorem append_read_alignmentpresent (ctx : context) (t : String) (i : Bool) :
    (append_read ctx t i).alignmentpresent = ctx.alignmentpresent := rfl

@[simp] theorem append_read_size_context (ctx : context) (t : String) (i : Bool) :
    (append_read_size ctx t i).context = ctx.context := rfl

@[simp] theorem append_read_size_header_stream (ctx : context) (t : String) (i : Bool) :
    (append_read_size ctx t i).header_stream = ctx.header_stream := rfl

@[simp] theorem append_read_size_write_size_stream (ctx : context) (t : String) (i : Bool) :
    (append_read_size ctx t i).write_size_stream = ctx.write_size_stream := rfl

@[simp] theorem append_read_size_write_stream (ctx : context) (t : String) (i : Bool) :
    (append_read_size ctx t i).write_stream = ctx.write_stream := rfl

@[simp] theorem append_read_size_text_indent (ctx : context) (t : String) :
    (append_read_size ctx t true).read_size_stream.text = ctx.read_size_stream.text ++ (spaces (2 * ctx.depth) ++ t) :=
  text_append_ostream_indent _ _ _

@[simp] theorem append_read_size_text_plain (ctx : context) (t : String) :
    (append_read_size ctx t false).read_size_stream.text = ctx.read_size_stream.text ++ t :=
  text_append_ostream_plain _ _ _

@[simp] theorem append_read_size_read_stream (ctx : context) (t : String) (i : Bool) :
    (append_read_size ctx t i).read_stream = ctx.read_stream := rfl

@[simp] theorem append_read_size_depth (ctx : context) (t : String) (i : Bool) :
    (append_read_size ctx t i).depth = ctx.depth := rfl

@[simp] theorem append_read_size_currentalignment (ctx : context) (t : String) (i : Bool) :
    (append_read_size ctx t i).currentalignment = ctx.currentalignment := rfl

@[simp] theorem append_read_size_accumulatedalignment (ctx : context) (t : String) (i : Bool) :
    (append_read_size ctx t i).accumulatedalignment = ctx.accumulatedalignment := rfl

@[simp] theorem append_read_size_alignmentpresent (ctx : context) (t : String) (i : Bool) :
    (append_read_size ctx t i).alignmentpresent = ctx.alignmentpresent := rfl

/-! ## Rendering -/

theorem render_append (d : Nat) (p q : List instr) :
    render d (p ++ q) = render d p ++ render d q := by
  induction p with
  | nil => simp [render]
  | cons i rest ih => simp [render, ih, String.append_assoc]

theorem render_nil (d : Nat) : render d [] = "" := rfl

/-! ## `process_base`, `process_instance`, `process_member`: the text they append -/

theorem process_base_write_text (E : externals) (ctx : context) (node : idl_node) :
    (process_base E ctx node).1.write_stream.text =
      ctx.write_stream.text ++ render ctx.depth (write_body
        (base_steps ctx (base_bytewidth E node.flags) (E.get_cpp11_name node.declarator))) := by
  unfold process_base base_steps
  by_cases h1 : ctx.currentalignment ≠ (base_bytewidth E node.flags : Int)
  · simp only [if_pos h1]
    by_cases h2 : 0 > ctx.currentalignment ∧ base_bytewidth E node.flags ≠ 1
    · simp only [if_pos h2]
      by_cases h3 : 0 = ctx.alignmentpresent
      · simp only [if_pos h3, decide_eq_true h3]
        simp [write_body, step.write, render, instr.line, remark.text, String.append_assoc]
      · simp only [if_neg h3, decide_eq_false h3]
        simp [write_body, step.write, render, instr.line, remark.text, String.append_assoc]
    · simp only [if_neg h2]
      by_cases h3 : 0 ≠ (base_bytewidth E node.flags -
          ctx.accumulatedalignment % base_bytewidth E node.flags) % base_bytewidth E node.flags
      · simp only [if_pos h3]
        simp [write_body, step.write, render, instr.line, remark.text, String.append_assoc]
      · simp only [if_neg h3]
        simp [write_body, step.write, render, instr.line, remark.text, String.append_assoc]
  · simp only [if_neg h1]
    simp [write_body, step.write, render, instr.line, remark.text, String.append_assoc]

theorem process_base_read_text (E : externals) (ctx : context) (node : idl_node) :
    (process_base E ctx node).1.read_stream.text =
      ctx.read_stream.text ++ render ctx.depth (read_body
        (base_steps ctx (base_bytewidth E node.flags) (E.get_cpp11_name node.declarator))) := by
  unfold process_base base_steps
  by_cases h1 : ctx.currentalignment ≠ (base_bytewidth E node.flags : Int)
  · simp only [if_pos h1]
    by_cases h2 : 0 > ctx.currentalignment ∧ base_bytewidth E node.flags ≠ 1
    · simp only [if_pos h2]
      by_cases h3 : 0 = ctx.alignmentpresent
      · simp only [if_pos h3, decide_eq_true h3]
        simp [read_body, step.read, render, instr.line, remark.text, String.append_assoc]
      · simp only [if_neg h3, decide_eq_false h3]
        simp [read_body, step.read, render, instr.line, remark.text, String.append_assoc]
    · simp only [if_neg h2]
      by_cases h3 : 0 ≠ (base_bytewidth E node.flags -
          ctx.accumulatedalignment % base_bytewidth E node.flags) % base_bytewidth E node.flags
      · simp only [if_pos h3]
        simp [read_body, step.read, render, instr.line, remark.text, String.append_assoc]
      · simp only [if_neg h3]
        simp [read_body, step.read, render, instr.line, remark.text, String.append_assoc]
  · simp only [if_neg h1]
    simp [read_body, step.read, render, instr.line, remark.text, String.append_assoc]

theorem process_base_write_size_text (E : externals) (ctx : context) (node : idl_node) :
    (process_base E ctx node).1.write_size_stream.text =
      ctx.write_size_stream.text ++ render ctx.depth (write_size_body
        (base_steps ctx (base_bytewidth E node.flags) (E.get_cpp11_name node.declarator))) := by
  unfold process_base base_steps
  by_cases h1 : ctx.currentalignment ≠ (base_bytewidth E node.flags : Int)
  · simp only [if_pos h1]
    by_cases h2 : 0 > ctx.currentalignment ∧ base_bytewidth E node.flags ≠ 1
    · simp only [if_pos h2]
      by_cases h3 : 0 = ctx.alignmentpresent
      · simp only [if_pos h3, decide_eq_true h3]
        simp [write_size_body, step.write_size, render, instr.line, remark.text, String.append_assoc]
      · simp only [if_neg h3, decide_eq_false h3]
        simp [write_size_body, step.write_size, render, instr.line, remark.text, String.append_assoc]
    · simp only [if_neg h2]
      by_cases h3 : 0 ≠ (base_bytewidth E node.flags -
          ctx.accumulatedalignment % base_bytewidth E node.flags) % base_bytewidth E node.flags
      · simp only [if_pos h3]
        simp [write_size_body, step.write_size, render, instr.line, remark.text, String.append_assoc]
      · simp only [if_neg h3]
        simp [write_size_body, step.write_size, render, instr.line, remark.text, String.append_assoc]
  · simp only [if_neg h1]
    simp [write_size_body, step.write_size, render, instr.line, remark.text, String.append_assoc]

theorem process_base_read_size_text (E : externals) (ctx : context) (node : idl_node) :
    (process_base E ctx node).1.read_size_stream.text =
      ctx.read_size_stream.text ++ render ctx.depth (read_size_body
        (base_steps ctx (base_bytewidth E node.flags) (E.get_cpp11_name node.declarator))) := by
  unfold process_base base_steps
  by_cases h1 : ctx.currentalignment ≠ (base_bytewidth E node.flags : Int)
  · simp only [if_pos h1]
    by_cases h2 : 0 > ctx.currentalignment ∧ base_bytewidth E node.flags ≠ 1
    · simp only [if_pos h2]
      by_cases h3 : 0 = ctx.alignmentpresent
      · simp only [if_pos h3, decide_eq_true h3]
        simp [read_size_body, step.read_size, render, instr.line, remark.text, String.append_assoc]
      · simp only [if_neg h3, decide_eq_false h3]
        simp [read_size_body, step.read_size, render, instr.line, remark.text, String.append_assoc]
    · simp only [if_neg h2]
      by_cases h3 : 0 ≠ (base_bytewidth E node.flags -
          ctx.accumulatedalignment % base_bytewidth E node.flags) % base_bytewidth E node.flags
      · simp only [if_pos h3]
        simp [read_size_body, step.read_size, render, instr.line, remark.text, String.append_assoc]
      · simp only [if_neg h3]
        simp [read_size_body, step.read_size, render, instr.line, remark.text, String.append_assoc]
  · simp only [if_neg h1]
    simp [read_size_body, step.read_size, render, instr.line, remark.text, String.append_assoc]

theorem process_base_header_stream (E : externals) (ctx : context) (node : idl_node) :
    (process_base E ctx node).1.header_stream = ctx.header_stream := by
  unfold process_base
  by_cases h1 : ctx.currentalignment ≠ (base_bytewidth E node.flags : Int)
  · simp only [if_pos h1]
    by_cases h2 : 0 > ctx.currentalignment ∧ base_bytewidth E node.flags ≠ 1
    · simp only [if_pos h2]
      by_cases h3 : 0 = ctx.alignmentpresent
      · simp only [if_pos h3]
        simp
      · simp only [if_neg h3]
        simp
    · simp only [if_neg h2]
      by_cases h3 : 0 ≠ (base_bytewidth E node.flags -
          ctx.accumulatedalignment % base_bytewidth E node.flags) % base_bytewidth E node.flags
      · simp only [if_pos h3]
        simp
      · simp only [if_neg h3]
        simp
  · simp only [if_neg h1]
    simp

theorem process_base_depth (E : externals) (ctx : context) (node : idl_node) :
    (process_base E ctx node).1.depth = ctx.depth := by
  unfold process_base
  by_cases h1 : ctx.currentalignment ≠ (base_bytewidth E node.flags : Int)
  · simp only [if_pos h1]
    by_cases h2 : 0 > ctx.currentalignment ∧ base_bytewidth E node.flags ≠ 1
    · simp only [if_pos h2]
      by_cases h3 : 0 = ctx.alignmentpresent
      · simp only [if_pos h3]
        simp
      · simp only [if_neg h3]
        simp
    · simp only [if_neg h2]
      by_cases h3 : 0 ≠ (base_bytewidth E node.flags -
          ctx.accumulatedalignment % base_bytewidth E node.flags) % base_bytewidth E node.flags
      · simp only [if_pos h3]
        simp
      · simp only [if_neg h3]
        simp
  · simp only [if_neg h1]
    simp

theorem process_base_context (E : externals) (ctx : context) (node : idl_node) :
    (process_base E ctx node).1.context = ctx.context := by
  unfold process_base
  by_cases h1 : ctx.currentalignment ≠ (base_bytewidth E node.flags : Int)
  · simp only [if_pos h1]
    by_cases h2 : 0 > ctx.currentalignment ∧ base_bytewidth E node.flags ≠ 1
    · simp only [if_pos h2]
      by_cases h3 : 0 = ctx.alignmentpresent
      · simp only [if_pos h3]
        simp
      · simp only [if_neg h3]
        simp
    · simp only [if_neg h2]
      by_cases h3 : 0 ≠ (base_bytewidth E node.flags -
          ctx.accumulatedalignment % base_bytewidth E node.flags) % base_bytewidth E node.flags
      · simp only [if_pos h3]
        simp
      · simp only [if_neg h3]
        simp
  · simp only [if_neg h1]
    simp

theorem process_instance_write_text (E : externals) (ctx : context) (node : idl_node) :
    (process_instance E ctx node).1.write_stream.text =
      ctx.write_stream.text ++ render ctx.depth (write_body [.delegate (E.get_cpp11_name node.declarator)]) := by
  simp [process_instance, write_body, step.write, render, instr.line]

theorem process_member_write_text (E : externals) (ctx : context) (node : idl_node) :
    (process_member E ctx node).1.write_stream.text =
      ctx.write_stream.text ++ render ctx.depth (write_body (member_steps E ctx node)) := by
  unfold process_member member_steps
  by_cases h1 : node.flags &&& E.IDL_BASE_TYPE ≠ 0
  · simp only [if_pos h1]
    exact process_base_write_text E ctx node
  · simp only [if_neg h1]
    by_cases h2 : node.flags &&& E.IDL_SCOPED_NAME ≠ 0
    · simp only [if_pos h2]
      exact process_instance_write_text E ctx node
    · simp only [if_neg h2]
      by_cases h3 : node.flags &&& E.IDL_TEMPL_TYPE ≠ 0
      · simp [if_pos h3, process_template, write_body, render]
      · simp [if_neg h3, write_body, render]

theorem write_body_append (p q : List step) : write_body (p ++ q) = write_body p ++ write_body q := by
  simp [write_body]

theorem process_instance_read_text (E : externals) (ctx : context) (node : idl_node) :
    (process_instance E ctx node).1.read_stream.text =
      ctx.read_stream.text ++ render ctx.depth (read_body [.delegate (E.get_cpp11_name node.declarator)]) := by
  simp [process_instance, read_body, step.read, render, instr.line]

theorem process_member_read_text (E : externals) (ctx : context) (node : idl_node) :
    (process_member E ctx node).1.read_stream.text =
      ctx.read_stream.text ++ render ctx.depth (read_body (member_steps E ctx node)) := by
  unfold process_member member_steps
  by_cases h1 : node.flags &&& E.IDL_BASE_TYPE ≠ 0
  · simp only [if_pos h1]
    exact process_base_read_text E ctx node
  · simp only [if_neg h1]
    by_cases h2 : node.flags &&& E.IDL_SCOPED_NAME ≠ 0
    · simp only [if_pos h2]
      exact process_instance_read_text E ctx node
    · simp only [if_neg h2]
      by_cases h3 : node.flags &&& E.IDL_TEMPL_TYPE ≠ 0
      · simp [if_pos h3, process_template, read_body, render]
      · simp [if_neg h3, read_body, render]

theorem read_body_append (p q : List step) : read_body (p ++ q) = read_body p ++ read_body q := by
  simp [read_body]

theorem process_instance_write_size_text (E : externals) (ctx : context) (node : idl_node) :
    (process_instance E ctx node).1.write_size_stream.text =
      ctx.write_size_stream.text ++ render ctx.depth (write_size_body [.delegate (E.get_cpp11_name node.declarator)]) := by
  simp [process_instance, write_size_body, step.write_size, render, instr.line]

theorem process_member_write_size_text (E : externals) (ctx : context) (node : idl_node) :
    (process_member E ctx node).1.write_size_stream.text =
      ctx.write_size_stream.text ++ render ctx.depth (write_size_body (member_steps E ctx node)) := by
  unfold process_member member_steps
  by_cases h1 : node.flags &&& E.IDL_BASE_TYPE ≠ 0
  · simp only [if_pos h1]
    exact process_base_write_size_text E ctx node
  · simp only [if_neg h1]
    by_cases h2 : node.flags &&& E.IDL_SCOPED_NAME ≠ 0
    · simp only [if_pos h2]
      exact process_instance_write_size_text E ctx node
    · simp only [if_neg h2]
      by_cases h3 : node.flags &&& E.IDL_TEMPL_TYPE ≠ 0
      · simp [if_pos h3, process_template, write_size_body, render]
      · simp [if_neg h3, write_size_body, render]

theorem write_size_body_append (p q : List step) : write_size_body (p ++ q) = write_size_body p ++ write_size_body q := by
  simp [write_size_body]

theorem process_instance_read_size_text (E : externals) (ctx : context) (node : idl_node) :
    (process_instance E ctx node).1.read_size_stream.text =
      ctx.read_size_stream.text ++ render ctx.depth (read_size_body [.delegate (E.get_cpp11_name node.declarator)]) := by
  simp [process_instance, read_size_body, step.read_size, render, instr.line]

theorem process_member_read_size_text (E : externals) (ctx : context) (node : idl_node) :
    (process_member E ctx node).1.read_size_stream.text =
      ctx.read_size_stream.text ++ render ctx.depth (read_size_body (member_steps E ctx node)) := by
  unfold process_member member_steps
  by_cases h1 : node.flags &&& E.IDL_BASE_TYPE ≠ 0
  · simp only [if_pos h1]
    exact process_base_read_size_text E ctx node
  · simp only [if_neg h1]
    by_cases h2 : node.flags &&& E.IDL_SCOPED_NAME ≠ 0
    · simp only [if_pos h2]
      exact process_instance_read_size_text E ctx node
    · simp only [if_neg h2]
      by_cases h3 : node.flags &&& E.IDL_TEMPL_TYPE ≠ 0
      · simp [if_pos h3, process_template, read_size_body, render]
      · simp [if_neg h3, read_size_body, render]

theorem read_size_body_append (p q : List step) : read_size_body (p ++ q) = read_size_body p ++ read_size_body q := by
  simp [read_size_body]

theorem process_instance_header_stream (E : externals) (ctx : context) (node : idl_node) :
    (process_instance E ctx node).1.header_stream = ctx.header_stream := by
  simp [process_instance]

theorem process_member_header_stream (E : externals) (ctx : context) (node : idl_node) :
    (process_member E ctx node).1.header_stream = ctx.header_stream := by
  unfold process_member
  split_ifs
  · exact process_base_header_stream E ctx node
  · exact process_instance_header_stream E ctx node
  · rfl
  · rfl

theorem process_members_header_stream (E : externals) (nodes : List idl_node) :
    ∀ ctx : context, (process_members E ctx nodes).header_stream = ctx.header_stream := by
  induction nodes with
  | nil => intro ctx; rfl
  | cons n rest ih =>
    intro ctx
    show (process_members E (process_member E ctx n).1 rest).header_stream = _
    rw [ih, process_member_header_stream]

theorem process_instance_depth (E : externals) (ctx : context) (node : idl_node) :
    (process_instance E ctx node).1.depth = ctx.depth := by
  simp [process_instance]

theorem process_member_depth (E : externals) (ctx : context) (node : idl_node) :
    (process_member E ctx node).1.depth = ctx.depth := by
  unfold process_member
  split_ifs
  · exact process_base_depth E ctx node
  · exact process_instance_depth E ctx node
  · rfl
  · rfl

theorem process_members_depth (E : externals) (nodes : List idl_node) :
    ∀ ctx : context, (process_members E ctx nodes).depth = ctx.depth := by
  induction nodes with
  | nil => intro ctx; rfl
  | cons n rest ih =>
    intro ctx
    show (process_members E (process_member E ctx n).1 rest).depth = _
    rw [ih, process_member_depth]

theorem process_instance_context (E : externals) (ctx : context) (node : idl_node) :
    (process_instance E ctx node).1.context = ctx.context := by
  simp [process_instance]

theorem process_member_context (E : externals) (ctx : context) (node : idl_node) :
    (process_member E ctx node).1.context = ctx.context := by
  unfold process_member
  split_ifs
  · exact process_base_context E ctx node
  · exact process_instance_context E ctx node
  · rfl
  · rfl

theorem process_members_context (E : externals) (nodes : List idl_node) :
    ∀ ctx : context, (process_members E ctx nodes).context = ctx.context := by
  induction nodes with
  | nil => intro ctx; rfl
  | cons n rest ih =>
    intro ctx
    show (process_members E (process_member E ctx n).1 rest).context = _
    rw [ih, process_member_context]

theorem process_members_cons (E : externals) (ctx : context) (n : idl_node)
    (rest : List idl_node) :
    process_members E ctx (n :: rest) = process_members E (process_member E ctx n).1 rest := rfl

theorem process_members_append (E : externals) (ctx : context) (p q : List idl_node) :
    process_members E ctx (p ++ q) = process_members E (process_members E ctx p) q := by
  simp [process_members]

theorem members_steps_append (E : externals) (p q : List idl_node) :
    ∀ ctx : context, members_steps E ctx (p ++ q) =
      members_steps E ctx p ++ members_steps E (process_members E ctx p) q := by
  induction p with
  | nil => intro ctx; rfl
  | cons n rest ih =>
    intro ctx
    simp [members_steps, ih, process_members_cons]

theorem process_members_write_text (E : externals) (nodes : List idl_node) :
    ∀ ctx : context, (process_members E ctx nodes).write_stream.text =
      ctx.write_stream.text ++ render ctx.depth (write_body (members_steps E ctx nodes)) := by
  induction nodes with
  | nil => intro ctx; simp [process_members, members_steps, write_body, render]
  | cons n rest ih =>
    intro ctx
    rw [process_members_cons, ih, process_member_write_text, process_member_depth]
    simp [members_steps, write_body_append, render_append, String.append_assoc]

theorem process_members_read_text (E : externals) (nodes : List idl_node) :
    ∀ ctx : context, (process_members E ctx nodes).read_stream.text =
      ctx.read_stream.text ++ render ctx.depth (read_body (members_steps E ctx nodes)) := by
  induction nodes with
  | nil => intro ctx; simp [process_members, members_steps, read_body, render]
  | cons n rest ih =>
    intro ctx
    rw [process_members_cons, ih, process_member_read_text, process_member_depth]
    simp [members_steps, read_body_append, render_append, String.append_assoc]

theorem process_members_write_size_text (E : externals) (nodes : List idl_node) :
    ∀ ctx : context, (process_members E ctx nodes).write_size_stream.text =
      ctx.write_size_stream.text ++ render ctx.depth (write_size_body (members_steps E ctx nodes)) := by
  induction nodes with
  | nil => intro ctx; simp [process_members, members_steps, write_size_body, render]
  | cons n rest ih =>
    intro ctx
    rw [process_members_cons, ih, process_member_write_size_text, process_member_depth]
    simp [members_steps, write_size_body_append, render_append, String.append_assoc]

theorem process_members_read_size_text (E : externals) (nodes : List idl_node) :
    ∀ ctx : context, (process_members E ctx nodes).read_size_stream.text =
      ctx.read_size_stream.text ++ render ctx.depth (read_size_body (members_steps E ctx nodes)) := by
  induction nodes with
  | nil => intro ctx; simp [process_members, members_steps, read_size_body, render]
  | cons n rest ih =>
    intro ctx
    rw [process_members_cons, ih, process_member_read_size_text, process_member_depth]
    simp [members_steps, read_size_body_append, render_append, String.append_assoc]

/-! ## `process_node` in the source's form, and over a list of members -/

theorem process_node_eq (E : externals) (str : streamer_t) (ctx : context) (node : idl_node) :
    process_node E str ctx node =
      match node.next with
      | some n =>
        ((process_node E (process_node_dispatch E str ctx node).1
            (process_node_dispatch E str ctx node).2 n).1,
         (process_node E (process_node_dispatch E str ctx node).1
            (process_node_dispatch E str ctx node).2 n).2.1,
         idl_retcode_t.IDL_RETCODE_PRECONDITION_NOT_MET)
      | none =>
        ((process_node_dispatch E str ctx node).1, (process_node_dispatch E str ctx node).2,
         idl_retcode_t.IDL_RETCODE_PRECONDITION_NOT_MET) := by
  cases node with
  | mk flags name declarator children next =>
    cases children <;> cases next <;>
    simp only [process_node, process_node_dispatch, process_module, process_constructed,
      idl_node.next, idl_node.flags, idl_node.children, idl_node.name]

theorem process_node_members (E : externals) :
    ∀ (node : idl_node) (str : streamer_t) (ctx : context),
      (∀ n ∈ node.chain, n.flags &&& E.IDL_MEMBER ≠ 0) →
      process_node E str ctx node =
        (str, process_members E ctx node.chain, idl_retcode_t.IDL_RETCODE_PRECONDITION_NOT_MET)
  | .mk flags name declarator children none, str, ctx, h => by
    have h0 : flags &&& E.IDL_MEMBER ≠ 0 := by
      have := h (.mk flags name declarator children none) (by simp [idl_node.chain])
      simpa [idl_node.flags] using this
    rw [process_node_eq]
    simp [idl_node.next, process_node_dispatch, idl_node.flags, h0, idl_node.chain,
      process_members]
  | .mk flags name declarator children (some nx), str, ctx, h => by
    have h0 : flags &&& E.IDL_MEMBER ≠ 0 := by
      have := h (.mk flags name declarator children (some nx)) (by simp [idl_node.chain])
      simpa [idl_node.flags] using this
    have hrest : ∀ n ∈ nx.chain, n.flags &&& E.IDL_MEMBER ≠ 0 := by
      intro n hn
      exact h n (by simp [idl_node.chain, hn])
    rw [process_node_eq]
    simp [idl_node.next, process_node_dispatch, idl_node.flags, h0, idl_node.chain,
      process_members_cons, process_node_members E nx _ _ hrest]

/-! ## Running the generated bodies -/

theorem exec_nil (call : instr → machine → machine) (m : machine) : exec call [] m = m := rfl

theorem exec_cons (call : instr → machine → machine) (i : instr) (prog : List instr)
    (m : machine) : exec call (i :: prog) m = exec call prog (exec_instr call i m) := rfl

theorem exec_append (call : instr → machine → machine) (p q : List instr) (m : machine) :
    exec call (p ++ q) m = exec call q (exec call p m) := by
  simp [exec]

theorem write_body_cons (s : step) (rest : List step) :
    write_body (s :: rest) = s.write ++ write_body rest := by
  simp [write_body]

theorem read_body_cons (s : step) (rest : List step) :
    read_body (s :: rest) = s.read ++ read_body rest := by
  simp [read_body]

theorem write_size_body_cons (s : step) (rest : List step) :
    write_size_body (s :: rest) = s.write_size ++ write_size_body rest := by
  simp [write_size_body]

theorem read_size_body_cons (s : step) (rest : List step) :
    read_size_body (s :: rest) = s.read_size ++ read_size_body rest := by
  simp [read_size_body]

/-- The four renderings of one step that is not a delegation move `position` alike. -/
theorem step_position (call : instr → machine → machine) (s : step) (m : machine)
    (h : s.is_delegate = false) :
    (exec call s.write m).position = s.advance m.position ∧
    (exec call s.read m).position = s.advance m.position ∧
    (exec call s.write_size m).position = s.advance m.position ∧
    (exec call s.read_size m).position = s.advance m.position := by
  cases s with
  | align d w name =>
    cases d <;>
    simp [step.write, step.read, step.write_size, step.read_size, step.advance, exec,
      exec_instr]
  | pad n name =>
    simp [step.write, step.read, step.write_size, step.read_size, step.advance, exec,
      exec_instr]
  | member w name =>
    simp [step.write, step.read, step.write_size, step.read_size, step.advance, exec,
      exec_instr]
  | delegate name => simp [step.is_delegate] at h

/-- The position a list of steps without delegation leaves, from the position before. -/
theorem steps_position (call : instr → machine → machine) (steps : List step)
    (h : ∀ s ∈ steps, s.is_delegate = false) :
    ∀ m : machine,
      (exec call (write_body steps) m).position =
          steps.foldl (fun p s => s.advance p) m.position ∧
      (exec call (read_body steps) m).position =
          steps.foldl (fun p s => s.advance p) m.position ∧
      (exec call (write_size_body steps) m).position =
          steps.foldl (fun p s => s.advance p) m.position ∧
      (exec call (read_size_body steps) m).position =
          steps.foldl (fun p s => s.advance p) m.position := by
  induction steps with
  | nil => intro m; simp [write_body, read_body, write_size_body, read_size_body, exec]
  | cons s rest ih =>
    intro m
    have hs := step_position call s m (h s (by simp))
    have hrest : ∀ t ∈ rest, t.is_delegate = false := fun t ht => h t (by simp [ht])
    simp only [write_body_cons, read_body_cons, write_size_body_cons, read_size_body_cons,
      exec_append, List.foldl_cons]
    refine ⟨?_, ?_, ?_, ?_⟩
    · rw [(ih hrest _).1, hs.1]
    · rw [(ih hrest _).2.1, hs.2.1]
    · rw [(ih hrest _).2.2.1, hs.2.2.1]
    · rw [(ih hrest _).2.2.2, hs.2.2.2]

theorem base_steps_no_delegate (ctx : context) (w : Nat) (name : String) :
    ∀ s ∈ base_steps ctx w name, s.is_delegate = false := by
  intro s hs
  unfold base_steps at hs
  simp only [List.mem_append, List.mem_singleton] at hs
  rcases hs with hs | hs
  · split_ifs at hs <;> simp at hs <;> simp [hs, step.is_delegate]
  · simp [hs, step.is_delegate]

theorem members_steps_no_delegate (E : externals) (nodes : List idl_node) :
    ∀ ctx : context, (∀ n ∈ nodes, n.flags &&& E.IDL_BASE_TYPE ≠ 0) →
      ∀ s ∈ members_steps E ctx nodes, s.is_delegate = false := by
  induction nodes with
  | nil => intro ctx _ s hs; simp [members_steps] at hs
  | cons n rest ih =>
    intro ctx h s hs
    simp only [members_steps, List.mem_append] at hs
    rcases hs with hs | hs
    · have hn : n.flags &&& E.IDL_BASE_TYPE ≠ 0 := h n (by simp)
      rw [member_steps, if_pos hn] at hs
      exact base_steps_no_delegate _ _ _ s hs
    · exact ih _ (fun m hm => h m (by simp [hm])) s hs

/-! ## The alignment invariant and the mixed-width example -/

set_option maxRecDepth 100000 in
/-- C1 (broken by the code). For `struct S { int32 a; int8 b; int32 c; };` the tree walk
takes the steps: run-time alignment to 4, `a`, `b`, `c`, with no padding before `c`
(the tracked width equals the width of `c`, so `process_base` skips its whole alignment
block). The write body is the text shown, and run from position 0 it copies `c`, of
width 4, at offset 5, which is not divisible by 4. -/
theorem alignment_invariant_broken :
    members_steps sample at_first_member members_4_1_4.chain =
      [.align true 4 "a", .member 4 "a", .member 1 "b", .member 4 "c"] ∧
    (process_node sample no_text at_first_member members_4_1_4).2.1.write_stream.text =
      at_first_member.write_stream.text ++
        render 0 (write_body (members_steps sample at_first_member members_4_1_4.chain)) ∧
    render 0 (write_body (members_steps sample at_first_member members_4_1_4.chain)) =
      "  size_t alignmentbytes = (4 - position%4)%4;  //alignment for: a\n" ++
      "  memset(data+position,0x0,alignmentbytes);  //setting alignment bytes to 0x0\n" ++
      "  position += alignmentbytes;  //moving position indicator\n" ++
      "  memcpy(data+position,&write.a(),4);  //bytes for member: a\n" ++
      "  position += 4;  //moving position indicator\n" ++
      "  memcpy(data+position,&write.b(),1);  //bytes for member: b\n" ++
      "  position += 1;  //moving position indicator\n" ++
      "  memcpy(data+position,&write.c(),4);  //bytes for member: c\n" ++
      "  position += 4;  //moving position indicator\n" ∧
    member_offsets no_call
        (write_body (members_steps sample at_first_member members_4_1_4.chain))
        (blank_machine 0) =
      [("a", 4, 0), ("b", 1, 4), ("c", 4, 5)] ∧
    ¬ (5 % 4 = 0) := by
  refine ⟨by decide, ?_, by decide, by decide, by decide⟩
  rw [process_node_members sample members_4_1_4 no_text at_first_member (by decide)]
  exact process_members_write_text sample _ _

set_option maxRecDepth 100000 in
/-- C2. For `struct S { int8 a; int32 b; int8 c; int64 d; };` the tree walk takes the
steps `a`, run-time alignment to 4, `b`, `c`, fixed padding of 3, `d`. Run from position
0 the write body copies `a` at 0, `b` at 4, `c` at 8 and `d` at 12, so there are 3 bytes
before `b`, none before `c` and 3 before `d`, all six set to zero whatever the memory
held; the write body ends at position 20 and the write-size body, whose text is shown,
returns 20 for offset 0. -/
theorem mixed_widths :
    members_steps sample at_first_member members_1_4_1_8.chain =
      [.member 1 "a", .align true 4 "b", .member 4 "b", .member 1 "c", .pad 3 "d",
        .member 8 "d"] ∧
    (process_node sample no_text at_first_member members_1_4_1_8).2.1.write_stream.text =
      at_first_member.write_stream.text ++
        render 0 (write_body (members_steps sample at_first_member members_1_4_1_8.chain)) ∧
    (process_node sample no_text at_first_member members_1_4_1_8).2.1.write_size_stream.text =
      at_first_member.write_size_stream.text ++
        render 0 (write_size_body
          (members_steps sample at_first_member members_1_4_1_8.chain)) ∧
    render 0 (write_body (members_steps sample at_first_member members_1_4_1_8.chain)) =
      "  memcpy(data+position,&write.a(),1);  //bytes for member: a\n" ++
      "  position += 1;  //moving position indicator\n" ++
      "  size_t alignmentbytes = (4 - position%4)%4;  //alignment for: b\n" ++
      "  memset(data+position,0x0,alignmentbytes);  //setting alignment bytes to 0x0\n" ++
      "  position += alignmentbytes;  //moving position indicator\n" ++
      "  memcpy(data+position,&write.b(),4);  //bytes for member: b\n" ++
      "  position += 4;  //moving position indicator\n" ++
      "  memcpy(data+position,&write.c(),1);  //bytes for member: c\n" ++
      "  position += 1;  //moving position indicator\n" ++
      "  memset(data+position,0x0,3);  //setting padding bytes to 0x0\n" ++
      "  position += 3;  //moving position indicator\n" ++
      "  memcpy(data+position,&write.d(),8);  //bytes for member: d\n" ++
      "  position += 8;  //moving position indicator\n" ∧
    render 0 (write_size_body (members_steps sample at_first_member members_1_4_1_8.chain)) =
      "  position += 1;  //bytes for member: a\n" ++
      "  position += (4 - position%4)%4;  //alignment for: b\n" ++
      "  position += 4;  //bytes for member: b\n" ++
      "  position += 1;  //bytes for member: c\n" ++
      "  position += 3;  //padding bytes for: d\n" ++
      "  position += 8;  //bytes for member: d\n" ∧
    (∀ m : machine,
      member_offsets no_call
          (write_body (members_steps sample at_first_member members_1_4_1_8.chain))
          { m with position := 0 } =
        [("a", 1, 0), ("b", 4, 4), ("c", 1, 8), ("d", 8, 12)] ∧
      (exec no_call
          (write_body (members_steps sample at_first_member members_1_4_1_8.chain))
          { m with position := 0 }).position = 20 ∧
      (∀ i, i ∈ [1, 2, 3, 9, 10, 11] →
        (exec no_call
          (write_body (members_steps sample at_first_member members_1_4_1_8.chain))
          { m with position := 0 }).data i = 0) ∧
      run_size no_call
          (write_size_body (members_steps sample at_first_member members_1_4_1_8.chain))
          m 0 = 20) := by
  have hs : members_steps sample at_first_member members_1_4_1_8.chain =
      [.member 1 "a", .align true 4 "b", .member 4 "b", .member 1 "c", .pad 3 "d",
        .member 8 "d"] := by decide
  refine ⟨hs, ?_, ?_, by decide, by decide, ?_⟩
  · rw [process_node_members sample members_1_4_1_8 no_text at_first_member (by decide)]
    exact process_members_write_text sample _ _
  · rw [process_node_members sample members_1_4_1_8 no_text at_first_member (by decide)]
    exact process_members_write_size_text sample _ _
  · intro m
    rw [hs]
    refine ⟨?_, ?_, ?_, ?_⟩
    · simp [member_offsets, exec_instr, write_body, step.write, alignment_value]
    · simp [exec, exec_instr, write_body, step.write, alignment_value]
    · intro i hi
      simp only [List.mem_cons, List.mem_singleton, List.not_mem_nil, or_false] at hi
      rcases hi with h | h | h | h | h | h <;> subst h <;>
        simp [exec, exec_instr, write_body, step.write, zero_fill, store, alignment_value]
    · simp [run_size, exec, exec_instr, write_size_body, step.write_size, alignment_value]

/-! ## The alignment state after a member -/

theorem base_steps_one (ctx : context) (name : String) :
    base_steps ctx 1 name = [.member 1 name] := by
  unfold base_steps
  have h2 : ¬ (0 > ctx.currentalignment ∧ (1 : Nat) ≠ 1) := by simp
  have h3 : ¬ (0 ≠ (1 - ctx.accumulatedalignment % 1) % 1) := by simp [Nat.mod_one]
  by_cases h : ctx.currentalignment ≠ ((1 : Nat) : Int)
  · simp only [if_pos h, if_neg h2, if_neg h3, List.nil_append]
  · simp only [if_neg h, List.nil_append]

theorem process_instance_state (E : externals) (ctx : context) (node : idl_node) :
    (process_instance E ctx node).1.currentalignment = -1 ∧
    (process_instance E ctx node).1.accumulatedalignment = 0 ∧
    (process_instance E ctx node).1.alignmentpresent = ctx.alignmentpresent := by
  simp [process_instance]

theorem process_base_one_state (E : externals) (ctx : context) (node : idl_node)
    (hw : base_bytewidth E node.flags = 1) :
    (process_base E ctx node).1.currentalignment = ctx.currentalignment ∧
    (process_base E ctx node).1.alignmentpresent = ctx.alignmentpresent := by
  unfold process_base
  rw [hw]
  have h2 : ¬ (0 > ctx.currentalignment ∧ (1 : Nat) ≠ 1) := by simp
  have h3 : ¬ (0 ≠ (1 - ctx.accumulatedalignment % 1) % 1) := by simp [Nat.mod_one]
  by_cases h : ctx.currentalignment ≠ ((1 : Nat) : Int)
  · simp only [if_pos h, if_neg h2, if_neg h3]
    simp
  · simp only [if_neg h]
    simp

theorem member_steps_one (E : externals) (ctx : context) (node : idl_node)
    (hb : node.flags &&& E.IDL_BASE_TYPE ≠ 0) (hw : base_bytewidth E node.flags = 1) :
    member_steps E ctx node = [.member 1 (E.get_cpp11_name node.declarator)] := by
  rw [member_steps, if_pos hb, hw, base_steps_one]

theorem members_steps_ones (E : externals) (nodes : List idl_node) :
    ∀ ctx : context,
      (∀ n ∈ nodes, n.flags &&& E.IDL_BASE_TYPE ≠ 0 ∧ base_bytewidth E n.flags = 1) →
      members_steps E ctx nodes =
        nodes.map (fun n => step.member 1 (E.get_cpp11_name n.declarator)) := by
  induction nodes with
  | nil => intro ctx _; rfl
  | cons n rest ih =>
    intro ctx h
    have hn := h n (by simp)
    simp only [members_steps, List.map_cons]
    rw [member_steps_one E ctx n hn.1 hn.2, ih _ (fun m hm => h m (by simp [hm]))]
    rfl

theorem process_members_ones_state (E : externals) (nodes : List idl_node) :
    ∀ ctx : context,
      (∀ n ∈ nodes, n.flags &&& E.IDL_BASE_TYPE ≠ 0 ∧ base_bytewidth E n.flags = 1) →
      (process_members E ctx nodes).currentalignment = ctx.currentalignment ∧
      (process_members E ctx nodes).alignmentpresent = ctx.alignmentpresent := by
  induction nodes with
  | nil => intro ctx _; exact ⟨rfl, rfl⟩
  | cons n rest ih =>
    intro ctx h
    have hn := h n (by simp)
    have hstep : (process_member E ctx n).1 = (process_base E ctx n).1 := by
      simp [process_member, hn.1]
    rw [process_members_cons, hstep]
    have hr := ih (process_base E ctx n).1 (fun m hm => h m (by simp [hm]))
    have hb := process_base_one_state E ctx n hn.2
    exact ⟨hr.1.trans hb.1, hr.2.trans hb.2⟩

theorem base_steps_unknown (ctx : context) (w : Nat) (name : String)
    (hc : ctx.currentalignment = -1) (hw : 1 < w) :
    base_steps ctx w name =
      [.align (decide (0 = ctx.alignmentpresent)) w name, .member w name] := by
  unfold base_steps
  have h1 : ctx.currentalignment ≠ (w : Int) := by omega
  have h2 : 0 > ctx.currentalignment ∧ w ≠ 1 := ⟨by omega, by omega⟩
  simp [h1, h2]

/-! ## Structs of one-byte members, and members after a nested instance -/

theorem write_body_members_one (E : externals) (nodes : List idl_node) :
    write_body (nodes.map (fun n => step.member 1 (E.get_cpp11_name n.declarator))) =
      nodes.flatMap (fun n =>
        [instr.copy_out (E.get_cpp11_name n.declarator) 1, instr.advance 1 remark.moving]) := by
  induction nodes with
  | nil => rfl
  | cons n rest ih => simp [write_body_cons, step.write, ih]

theorem read_body_members_one (E : externals) (nodes : List idl_node) :
    read_body (nodes.map (fun n => step.member 1 (E.get_cpp11_name n.declarator))) =
      nodes.flatMap (fun n =>
        [instr.copy_in (E.get_cpp11_name n.declarator) 1, instr.advance 1 remark.moving]) := by
  induction nodes with
  | nil => rfl
  | cons n rest ih => simp [read_body_cons, step.read, ih]

theorem write_size_body_members_one (E : externals) (nodes : List idl_node) :
    write_size_body (nodes.map (fun n => step.member 1 (E.get_cpp11_name n.declarator))) =
      nodes.map (fun n =>
        instr.advance 1 (remark.bytes_for (E.get_cpp11_name n.declarator))) := by
  induction nodes with
  | nil => rfl
  | cons n rest ih => simp [write_size_body_cons, step.write_size, ih]

theorem read_size_body_members_one (E : externals) (nodes : List idl_node) :
    read_size_body (nodes.map (fun n => step.member 1 (E.get_cpp11_name n.declarator))) =
      nodes.map (fun n =>
        instr.advance 1 (remark.bytes_for (E.get_cpp11_name n.declarator))) := by
  induction nodes with
  | nil => rfl
  | cons n rest ih => simp [read_size_body_cons, step.read_size, ih]

theorem exec_advance_ones (call : instr → machine → machine) (f : idl_node → remark)
    (nodes : List idl_node) :
    ∀ m : machine,
      (exec call (nodes.map (fun n => instr.advance 1 (f n))) m).position =
        m.position + nodes.length := by
  induction nodes with
  | nil => intro m; rfl
  | cons n rest ih =>
    intro m
    rw [List.map_cons, exec_cons, ih]
    simp [exec_instr]
    omega

/-- C5. For a sibling list of base-type members that all have width 1, in any context:
the write body holds, per member, the copy and `position += 1`; the read body likewise;
each size body holds one `position += 1` per member; no body holds a run-time alignment
or a fixed padding. Called with any offset, the write-size body returns the number of
members. -/
theorem all_one_byte (E : externals) (first : idl_node) (str : streamer_t) (ctx : context)
    (h : ∀ n ∈ first.chain, n.flags &&& E.IDL_MEMBER ≠ 0 ∧
      n.flags &&& E.IDL_BASE_TYPE ≠ 0 ∧ base_bytewidth E n.flags = 1) :
    (process_node E str ctx first).2.1.write_stream.text =
      ctx.write_stream.text ++ render ctx.depth (first.chain.flatMap (fun n =>
        [instr.copy_out (E.get_cpp11_name n.declarator) 1, instr.advance 1 remark.moving])) ∧
    (process_node E str ctx first).2.1.read_stream.text =
      ctx.read_stream.text ++ render ctx.depth (first.chain.flatMap (fun n =>
        [instr.copy_in (E.get_cpp11_name n.declarator) 1, instr.advance 1 remark.moving])) ∧
    (process_node E str ctx first).2.1.write_size_stream.text =
      ctx.write_size_stream.text ++ render ctx.depth (first.chain.map (fun n =>
        instr.advance 1 (remark.bytes_for (E.get_cpp11_name n.declarator)))) ∧
    (process_node E str ctx first).2.1.read_size_stream.text =
      ctx.read_size_stream.text ++ render ctx.depth (first.chain.map (fun n =>
        instr.advance 1 (remark.bytes_for (E.get_cpp11_name n.declarator)))) ∧
    ∀ (call : instr → machine → machine) (m : machine) (offset : Nat),
      run_size call (first.chain.map (fun n =>
        instr.advance 1 (remark.bytes_for (E.get_cpp11_name n.declarator)))) m offset =
        first.chain.length := by
  have hsteps := members_steps_ones E first.chain ctx (fun n hn => (h n hn).2)
  rw [process_node_members E first str ctx (fun n hn => (h n hn).1)]
  refine ⟨?_, ?_, ?_, ?_, ?_⟩
  · rw [process_members_write_text, hsteps, write_body_members_one]
  · rw [process_members_read_text, hsteps, read_body_members_one]
  · rw [process_members_write_size_text, hsteps, write_size_body_members_one]
  · rw [process_members_read_size_text, hsteps, read_size_body_members_one]
  · intro call m offset
    rw [run_size, exec_advance_ones]
    simp

set_option maxRecDepth 100000 in
/-- C5 at `struct S { octet a; octet b; octet c; };`: the write-size body is three
`position += 1` lines and returns 3. -/
theorem octets_one_byte_each :
    (∀ n ∈ members_octets.chain, n.flags &&& sample.IDL_MEMBER ≠ 0 ∧
      n.flags &&& sample.IDL_BASE_TYPE ≠ 0 ∧ base_bytewidth sample n.flags = 1) ∧
    (process_node sample no_text at_first_member members_octets).2.1.write_size_stream.text =
      at_first_member.write_size_stream.text ++ render 0
        [.advance 1 (.bytes_for "a"), .advance 1 (.bytes_for "b"), .advance 1 (.bytes_for "c")] ∧
    run_size no_call
      [.advance 1 (.bytes_for "a"), .advance 1 (.bytes_for "b"), .advance 1 (.bytes_for "c")]
      (blank_machine 0) 0 = 3 :=
  ⟨by decide,
   (all_one_byte sample members_octets no_text at_first_member (by decide)).2.2.1,
   (all_one_byte sample members_octets no_text at_first_member (by decide)).2.2.2.2
     no_call (blank_machine 0) 0⟩

/-- C6. In any context, take a nested-instance member `inst`, then any number of base-type
members of width 1 (`ones`), then a base-type member `wide` of width above 1. The steps
taken are: the delegation; for each member of `ones` the member alone, with no
alignment and no padding; for `wide` a run-time alignment to its width (no fixed
padding) and the member. The four bodies are these steps written out. -/
theorem nested_instance_reset (E : externals) (ctx : context) (inst wide : idl_node)
    (ones : List idl_node)
    (hinst : inst.flags &&& E.IDL_BASE_TYPE = 0 ∧ inst.flags &&& E.IDL_SCOPED_NAME ≠ 0)
    (hones : ∀ n ∈ ones, n.flags &&& E.IDL_BASE_TYPE ≠ 0 ∧ base_bytewidth E n.flags = 1)
    (hwide : wide.flags &&& E.IDL_BASE_TYPE ≠ 0 ∧ 1 < base_bytewidth E wide.flags) :
    members_steps E ctx (inst :: (ones ++ [wide])) =
      step.delegate (E.get_cpp11_name inst.declarator) ::
        (ones.map (fun n => step.member 1 (E.get_cpp11_name n.declarator)) ++
          [step.align (decide (0 = ctx.alignmentpresent)) (base_bytewidth E wide.flags)
              (E.get_cpp11_name wide.declarator),
            step.member (base_bytewidth E wide.flags) (E.get_cpp11_name wide.declarator)]) ∧
    (process_members E ctx (inst :: (ones ++ [wide]))).write_stream.text =
      ctx.write_stream.text ++ render ctx.depth
        (write_body (members_steps E ctx (inst :: (ones ++ [wide])))) ∧
    (process_members E ctx (inst :: (ones ++ [wide]))).read_stream.text =
      ctx.read_stream.text ++ render ctx.depth
        (read_body (members_steps E ctx (inst :: (ones ++ [wide])))) ∧
    (process_members E ctx (inst :: (ones ++ [wide]))).write_size_stream.text =
      ctx.write_size_stream.text ++ render ctx.depth
        (write_size_body (members_steps E ctx (inst :: (ones ++ [wide])))) ∧
    (process_members E ctx (inst :: (ones ++ [wide]))).read_size_stream.text =
      ctx.read_size_stream.text ++ render ctx.depth
        (read_size_body (members_steps E ctx (inst :: (ones ++ [wide])))) := by
  refine ⟨?_, process_members_write_text E _ ctx, process_members_read_text E _ ctx,
    process_members_write_size_text E _ ctx, process_members_read_size_text E _ ctx⟩
  have hi : (process_member E ctx inst).1 = (process_instance E ctx inst).1 := by
    simp [process_member, hinst.1, hinst.2]
  have hst := process_instance_state E ctx inst
  have hones_state := process_members_ones_state E ones (process_instance E ctx inst).1 hones
  have hwide_steps :
      member_steps E (process_members E (process_instance E ctx inst).1 ones) wide =
        [step.align (decide (0 = ctx.alignmentpresent)) (base_bytewidth E wide.flags)
            (E.get_cpp11_name wide.declarator),
          step.member (base_bytewidth E wide.flags) (E.get_cpp11_name wide.declarator)] := by
    rw [member_steps, if_pos hwide.1,
      base_steps_unknown _ _ _ (hones_state.1.trans hst.1) hwide.2, hones_state.2, hst.2.2]
  have hinst_steps : member_steps E ctx inst =
      [step.delegate (E.get_cpp11_name inst.declarator)] := by
    simp [member_steps, hinst.1, hinst.2]
  simp only [members_steps, hinst_steps, hi, members_steps_append,
    members_steps_ones E ones _ hones, hwide_steps, List.append_nil, List.singleton_append]

/-! ## What a write body leaves untouched -/

/-- A write body without delegation leaves the object as it was, never moves `position`
back, and leaves the bytes below the starting position as they were. -/
theorem write_body_frame (call : instr → machine → machine) (steps : List step)
    (h : ∀ s ∈ steps, s.is_delegate = false) :
    ∀ m : machine,
      (exec call (write_body steps) m).object = m.object ∧
      m.position ≤ (exec call (write_body steps) m).position ∧
      ∀ i, i < m.position → (exec call (write_body steps) m).data i = m.data i := by
  induction steps with
  | nil => intro m; simp [write_body, exec]
  | cons s rest ih =>
    intro m
    have hrest : ∀ t ∈ rest, t.is_delegate = false := fun t ht => h t (by simp [ht])
    have hs := h s (by simp)
    rw [write_body_cons, exec_append]
    have hr := ih hrest (exec call s.write m)
    have h1 : (exec call s.write m).object = m.object ∧
        m.position ≤ (exec call s.write m).position ∧
        ∀ i, i < m.position → (exec call s.write m).data i = m.data i := by
      cases s with
      | align d w name =>
        cases d <;> simp [step.write, exec, exec_instr, zero_fill] <;> intro i hi <;> omega
      | pad n name =>
        simp [step.write, exec, exec_instr, zero_fill]
        intro i hi; omega
      | member w name =>
        simp [step.write, exec, exec_instr, store]
        intro i hi; omega
      | delegate name => simp [step.is_delegate] at hs
    refine ⟨hr.1.trans h1.1, le_trans h1.2.1 hr.2.1, ?_⟩
    intro i hi
    rw [hr.2.2 i (lt_of_lt_of_le hi h1.2.1), h1.2.2 i hi]

/-! ## Size agreement -/

theorem member_of_mem_base_steps (ctx : context) (w w' : Nat) (name f : String)
    (h : step.member w' f ∈ base_steps ctx w name) : w' = w ∧ f = name := by
  unfold base_steps at h
  simp only [List.mem_append, List.mem_singleton] at h
  rcases h with h | h
  · split_ifs at h <;> simp at h
  · injection h with h1 h2
    exact ⟨h1, h2⟩

theorem member_of_mem_members_steps (E : externals) (nodes : List idl_node) :
    ∀ (ctx : context) (w : Nat) (f : String), step.member w f ∈ members_steps E ctx nodes →
      ∃ n ∈ nodes, w = base_bytewidth E n.flags ∧ f = E.get_cpp11_name n.declarator := by
  induction nodes with
  | nil => intro ctx w f h; simp [members_steps] at h
  | cons a rest ih =>
    intro ctx w f h
    simp only [members_steps, List.mem_append] at h
    rcases h with h | h
    · refine ⟨a, by simp, ?_⟩
      unfold member_steps at h
      split_ifs at h
      · exact member_of_mem_base_steps _ _ _ _ _ h
      · simp at h
      · simp at h
    · obtain ⟨n, hn, hw⟩ := ih _ w f h
      exact ⟨n, by simp [hn], hw⟩

/-- C3. For a sibling list of member nodes, in any context, the write, read, write-size
and read-size bodies are one list of steps written out four times (`step.write`,
`step.read`, `step.write_size`, `step.read_size`). Every step that is not a delegation
moves `position` by the same amount in all four; a delegation is one call in each of
the four. When all members are base types, the write-size body called with offset `p`,
and the read-size body too, return the position the write body reaches from `p`, less
`p` (that position is not below `p`); the read body reaches the same position. -/
theorem size_agreement (E : externals) (first : idl_node) (str : streamer_t) (ctx : context)
    (hmem : ∀ n ∈ first.chain, n.flags &&& E.IDL_MEMBER ≠ 0) :
    ((process_node E str ctx first).2.1.write_stream.text =
        ctx.write_stream.text ++
          render ctx.depth (write_body (members_steps E ctx first.chain)) ∧
      (process_node E str ctx first).2.1.read_stream.text =
        ctx.read_stream.text ++
          render ctx.depth (read_body (members_steps E ctx first.chain)) ∧
      (process_node E str ctx first).2.1.write_size_stream.text =
        ctx.write_size_stream.text ++
          render ctx.depth (write_size_body (members_steps E ctx first.chain)) ∧
      (process_node E str ctx first).2.1.read_size_stream.text =
        ctx.read_size_stream.text ++
          render ctx.depth (read_size_body (members_steps E ctx first.chain))) ∧
    (∀ s ∈ members_steps E ctx first.chain, s.is_delegate = false →
      ∀ (call : instr → machine → machine) (m : machine),
        (exec call s.write m).position = s.advance m.position ∧
        (exec call s.read m).position = s.advance m.position ∧
        (exec call s.write_size m).position = s.advance m.position ∧
        (exec call s.read_size m).position = s.advance m.position) ∧
    (∀ s ∈ members_steps E ctx first.chain, s.is_delegate = true →
      ∃ name, s.write = [.call_write name] ∧ s.read = [.call_read name] ∧
        s.write_size = [.call_write_size name] ∧ s.read_size = [.call_read_size name]) ∧
    ((∀ n ∈ first.chain, n.flags &&& E.IDL_BASE_TYPE ≠ 0) →
      ∀ (call : instr → machine → machine) (mw ms : machine) (p : Nat),
        run_size call (write_size_body (members_steps E ctx first.chain)) ms p =
          (exec call (write_body (members_steps E ctx first.chain))
            { mw with position := p }).position - p ∧
        run_size call (read_size_body (members_steps E ctx first.chain)) ms p =
          (exec call (write_body (members_steps E ctx first.chain))
            { mw with position := p }).position - p ∧
        (exec call (read_body (members_steps E ctx first.chain))
            { ms with position := p }).position =
          (exec call (write_body (members_steps E ctx first.chain))
            { mw with position := p }).position ∧
        p ≤ (exec call (write_body (members_steps E ctx first.chain))
            { mw with position := p }).position) := by
  refine ⟨?_, ?_, ?_, ?_⟩
  · rw [process_node_members E first str ctx hmem]
    exact ⟨process_members_write_text E _ ctx, process_members_read_text E _ ctx,
      process_members_write_size_text E _ ctx, process_members_read_size_text E _ ctx⟩
  · intro s _ hs call m
    exact step_position call s m hs
  · intro s _ hs
    cases s with
    | delegate name => exact ⟨name, rfl, rfl, rfl, rfl⟩
    | align d w name => simp [step.is_delegate] at hs
    | pad n name => simp [step.is_delegate] at hs
    | member w name => simp [step.is_delegate] at hs
  · intro hbase call mw ms p
    have hnd := members_steps_no_delegate E first.chain ctx hbase
    have hw := steps_position call _ hnd { mw with position := p }
    have hr := steps_position call _ hnd { ms with position := p }
    have hle := (write_body_frame call _ hnd { mw with position := p }).2.1
    refine ⟨?_, ?_, ?_, hle⟩
    · simp only [run_size]
      rw [hw.1, hr.2.2.1]
    · simp only [run_size]
      rw [hw.1, hr.2.2.2]
    · rw [hw.1, hr.2.1]

/-- C3 at `struct S { int8 a; int32 b; int8 c; int64 d; };`, whose members are base types:
called with offset 0 the write-size body returns 20, the position the write body
reaches from 0. -/
theorem size_agreement_at_1_4_1_8 :
    (∀ n ∈ members_1_4_1_8.chain, n.flags &&& sample.IDL_MEMBER ≠ 0) ∧
    (∀ n ∈ members_1_4_1_8.chain, n.flags &&& sample.IDL_BASE_TYPE ≠ 0) ∧
    run_size no_call
        (write_size_body (members_steps sample at_first_member members_1_4_1_8.chain))
        (blank_machine 0) 0 =
      (exec no_call (write_body (members_steps sample at_first_member members_1_4_1_8.chain))
        { blank_machine 7 with position := 0 }).position - 0 ∧
    (exec no_call (write_body (members_steps sample at_first_member members_1_4_1_8.chain))
        { blank_machine 7 with position := 0 }).position = 20 :=
  ⟨by decide, by decide,
   ((size_agreement sample members_1_4_1_8 no_text at_first_member (by decide)).2.2.2
      (by decide) no_call (blank_machine 7) (blank_machine 0) 0).1,
   by decide⟩

/-! ## The read body is not C++ -/

theorem flush_ostream_file (s : ostream) (f : String) : (flush_ostream s f).2 = f ++ s.text := by
  unfold flush_ostream ostream.text
  cases h : s.buffer <;> simp

theorem flush_ostream_stream (s : ostream) (f : String) :
    (flush_ostream s f).1 = { buffer := none } := by
  unfold flush_ostream
  cases s with
  | mk b => cases b <;> simp [clear_ostream]

theorem flush_context_files (str : streamer_t) (ctx : context) :
    (flush_context str ctx).1.header_file = str.header_file ++ ctx.header_stream.text ∧
    (flush_context str ctx).1.impl_file =
      str.impl_file ++ ctx.write_stream.text ++ ctx.write_size_stream.text ++
        ctx.read_stream.text ++ ctx.read_size_stream.text := by
  simp [flush_context, flush_ostream_file]

theorem flush_context_streams (str : streamer_t) (ctx : context) :
    (flush_context str ctx).2 =
      { ctx with
        header_stream := { buffer := none }
        write_stream := { buffer := none }
        write_size_stream := { buffer := none }
        read_stream := { buffer := none }
        read_size_stream := { buffer := none } } := by
  simp [flush_context, flush_ostream_stream]

theorem process_constructed_open_text (E : externals) (ctx : context) (name : String) :
    (process_constructed_open E ctx name).header_stream.text =
      ctx.header_stream.text ++ signatures ctx.depth (E.get_cpp11_name name) ∧
    (process_constructed_open E ctx name).write_stream.text =
      ctx.write_stream.text ++
        (spaces (2 * ctx.depth) ++ struct_write_func_fmt (E.get_cpp11_name name) ++ "\n" ++
          (spaces (2 * ctx.depth) ++ "\x7b\n")) ∧
    (process_constructed_open E ctx name).write_size_stream.text =
      ctx.write_size_stream.text ++
        (spaces (2 * ctx.depth) ++ struct_write_size_func_fmt (E.get_cpp11_name name) ++ "\n" ++
          (spaces (2 * ctx.depth) ++ "\x7b\n") ++
          (spaces (2 * ctx.depth) ++ "  size_t position = offset;\n")) ∧
    (process_constructed_open E ctx name).read_stream.text =
      ctx.read_stream.text ++
        (spaces (2 * ctx.depth) ++ struct_read_func_fmt (E.get_cpp11_name name) ++ "\n" ++
          (spaces (2 * ctx.depth) ++ "\x7b\n")) ∧
    (process_constructed_open E ctx name).read_size_stream.text =
      ctx.read_size_stream.text ++
        (spaces (2 * ctx.depth) ++ struct_read_size_func_fmt (E.get_cpp11_name name) ++ "\n" ++
          (spaces (2 * ctx.depth) ++ "\x7b\n") ++
          (spaces (2 * ctx.depth) ++ "  size_t position = offset;\n")) ∧
    (process_constructed_open E ctx name).depth = ctx.depth := by
  simp [process_constructed_open, signatures, String.append_assoc]

theorem process_constructed_open_state (E : externals) (ctx : context) (name : String) :
    (process_constructed_open E ctx name).currentalignment = -1 ∧
    (process_constructed_open E ctx name).accumulatedalignment = 0 ∧
    (process_constructed_open E ctx name).alignmentpresent = 0 := by
  simp [process_constructed_open]

theorem process_constructed_close_files (str : streamer_t) (ctx : context) :
    (process_constructed_close str ctx).1.header_file =
      str.header_file ++ ctx.header_stream.text ∧
    (process_constructed_close str ctx).1.impl_file =
      str.impl_file ++
        (ctx.write_stream.text ++ (spaces (2 * ctx.depth) ++ "  return position;\n") ++
          (spaces (2 * ctx.depth) ++ "\x7d\n\n")) ++
        (ctx.write_size_stream.text ++
          (spaces (2 * ctx.depth) ++ "  return position-offset;\n") ++
          (spaces (2 * ctx.depth) ++ "\x7d\n\n")) ++
        (ctx.read_stream.text ++ (spaces (2 * ctx.depth) ++ "  return position;\n") ++
          (spaces (2 * ctx.depth) ++ "\x7d\n\n")) ++
        (ctx.read_size_stream.text ++
          (spaces (2 * ctx.depth) ++ "  return position-offset;\n") ++
          (spaces (2 * ctx.depth) ++ "\x7d\n\n")) := by
  unfold process_constructed_close
  simp [flush_context_files, String.append_assoc]

theorem process_constructed_close_streams (str : streamer_t) (ctx : context) :
    (process_constructed_close str ctx).2.header_stream = { buffer := none } ∧
    (process_constructed_close str ctx).2.write_stream = { buffer := none } ∧
    (process_constructed_close str ctx).2.write_size_stream = { buffer := none } ∧
    (process_constructed_close str ctx).2.read_stream = { buffer := none } ∧
    (process_constructed_close str ctx).2.read_size_stream = { buffer := none } ∧
    (process_constructed_close str ctx).2.depth = ctx.depth := by
  unfold process_constructed_close
  simp [flush_context_streams]

/-- A struct whose children are member nodes, processed in any context: what reaches
the two files. Text waiting in a stream of the context goes out in front of the
procedure of that stream. -/
theorem process_constructed_files (E : externals) (str : streamer_t) (ctx : context)
    (node first : idl_node) (hc : node.children = some first)
    (hmem : ∀ n ∈ first.chain, n.flags &&& E.IDL_MEMBER ≠ 0) :
    (process_constructed E str ctx node).1.header_file =
      str.header_file ++
        (ctx.header_stream.text ++ signatures ctx.depth (E.get_cpp11_name node.name)) ∧
    (process_constructed E str ctx node).1.impl_file =
      str.impl_file ++
        (ctx.write_stream.text ++ write_procedure ctx.depth (E.get_cpp11_name node.name)
          (write_body (members_steps E (process_constructed_open E ctx node.name)
            first.chain))) ++
        (ctx.write_size_stream.text ++
          write_size_procedure ctx.depth (E.get_cpp11_name node.name)
            (write_size_body (members_steps E (process_constructed_open E ctx node.name)
              first.chain))) ++
        (ctx.read_stream.text ++ read_procedure ctx.depth (E.get_cpp11_name node.name)
          (read_body (members_steps E (process_constructed_open E ctx node.name)
            first.chain))) ++
        (ctx.read_size_stream.text ++
          read_size_procedure ctx.depth (E.get_cpp11_name node.name)
            (read_size_body (members_steps E (process_constructed_open E ctx node.name)
              first.chain))) ∧
    (process_constructed E str ctx node).2.1.header_stream = { buffer := none } ∧
    (process_constructed E str ctx node).2.1.write_stream = { buffer := none } ∧
    (process_constructed E str ctx node).2.1.write_size_stream = { buffer := none } ∧
    (process_constructed E str ctx node).2.1.read_stream = { buffer := none } ∧
    (process_constructed E str ctx node).2.1.read_size_stream = { buffer := none } ∧
    (process_constructed E str ctx node).2.1.depth = ctx.depth := by
  have ho := process_constructed_open_text E ctx node.name
  simp only [process_constructed, hc, process_constructed_body,
    process_node_members E first str _ hmem]
  have hcl := process_constructed_close_files str
    (process_members E (process_constructed_open E ctx node.name) first.chain)
  have hst := process_constructed_close_streams str
    (process_members E (process_constructed_open E ctx node.name) first.chain)
  rw [process_members_depth, ho.2.2.2.2.2] at hst
  refine ⟨?_, ?_, hst.1, hst.2.1, hst.2.2.1, hst.2.2.2.1, hst.2.2.2.2.1, hst.2.2.2.2.2⟩
  · rw [hcl.1, process_members_header_stream, ho.1]
  · rw [hcl.2, process_members_write_text, process_members_write_size_text,
      process_members_read_text, process_members_read_size_text, process_members_depth,
      ho.2.1, ho.2.2.1, ho.2.2.2.1, ho.2.2.2.2.1, ho.2.2.2.2.2]
    simp only [write_procedure, write_size_procedure, read_procedure, read_size_procedure,
      String.append_assoc]

/-! ## Modules -/

theorem text_none : ({ buffer := none } : ostream).text = "" := rfl

theorem process_module_open_text (E : externals) (ctx : context) (name : String) :
    (process_module_open E ctx name).header_stream.text =
      namespace_open ctx.depth (E.get_cpp11_name name) ∧
    (process_module_open E ctx name).write_stream.text =
      namespace_open ctx.depth (E.get_cpp11_name name) ∧
    (process_module_open E ctx name).write_size_stream.text = "" ∧
    (process_module_open E ctx name).read_stream.text = "" ∧
    (process_module_open E ctx name).read_size_stream.text = "" ∧
    (process_module_open E ctx name).depth = ctx.depth + 1 := by
  simp [process_module_open, create_context, create_ostream, namespace_open, text_none,
    String.append_assoc]

theorem process_module_close_files (str : streamer_t) (newctx : context) :
    (process_module_close str newctx).header_file =
      str.header_file ++ (newctx.header_stream.text ++ namespace_close (newctx.depth - 1)) ∧
    (process_module_close str newctx).impl_file =
      str.impl_file ++ newctx.write_stream.text ++ newctx.write_size_stream.text ++
        newctx.read_stream.text ++
        (newctx.read_size_stream.text ++ namespace_close (newctx.depth - 1)) := by
  simp [process_module_close, close_context, flush_context_files, namespace_close]

theorem process_node_single_struct (E : externals) (str : streamer_t) (ctx : context)
    (node : idl_node) (hnext : node.next = none)
    (hflags : node.flags &&& E.IDL_MEMBER = 0 ∧ node.flags &&& E.IDL_MODULE = 0 ∧
      node.flags &&& E.IDL_CONSTR_TYPE ≠ 0) :
    (process_node E str ctx node).1 = (process_constructed E str ctx node).1 ∧
    (process_node E str ctx node).2.1 = (process_constructed E str ctx node).2.1 := by
  rw [process_node_eq, hnext]
  simp [process_node_dispatch, hflags.1, hflags.2.1, hflags.2.2]

/-- C8. A module whose only child is a struct whose children are member nodes, processed
in any context: the header file receives the namespace's opening text, the struct's
four signatures one level deeper, and the closing brace; the implementation file
receives the opening text, the four procedures (write, write-size, read, read-size),
and the closing brace. -/
theorem module_with_one_struct (E : externals) (str : streamer_t) (ctx : context)
    (module struct first : idl_node)
    (hchild : module.children = some struct)
    (honly : struct.next = none)
    (hflags : struct.flags &&& E.IDL_MEMBER = 0 ∧ struct.flags &&& E.IDL_MODULE = 0 ∧
      struct.flags &&& E.IDL_CONSTR_TYPE ≠ 0)
    (hfirst : struct.children = some first)
    (hmem : ∀ n ∈ first.chain, n.flags &&& E.IDL_MEMBER ≠ 0) :
    (process_module E str ctx module).1.header_file =
      str.header_file ++
        (namespace_open ctx.depth (E.get_cpp11_name module.name) ++
          signatures (ctx.depth + 1) (E.get_cpp11_name struct.name) ++
          namespace_close ctx.depth) ∧
    (process_module E str ctx module).1.impl_file =
      str.impl_file ++
        (namespace_open ctx.depth (E.get_cpp11_name module.name) ++
          write_procedure (ctx.depth + 1) (E.get_cpp11_name struct.name)
            (write_body (members_steps E
              (process_constructed_open E (process_module_open E ctx module.name) struct.name)
              first.chain)) ++
          write_size_procedure (ctx.depth + 1) (E.get_cpp11_name struct.name)
            (write_size_body (members_steps E
              (process_constructed_open E (process_module_open E ctx module.name) struct.name)
              first.chain)) ++
          read_procedure (ctx.depth + 1) (E.get_cpp11_name struct.name)
            (read_body (members_steps E
              (process_constructed_open E (process_module_open E ctx module.name) struct.name)
              first.chain)) ++
          read_size_procedure (ctx.depth + 1) (E.get_cpp11_name struct.name)
            (read_size_body (members_steps E
              (process_constructed_open E (process_module_open E ctx module.name) struct.name)
              first.chain)) ++
          namespace_close ctx.depth) := by
  have hs := process_node_single_struct E str (process_module_open E ctx module.name) struct
    honly hflags
  have hf := process_constructed_files E str (process_module_open E ctx module.name) struct
    first hfirst hmem
  have ho := process_module_open_text E ctx module.name
  have hcl := process_module_close_files
    (process_node E str (process_module_open E ctx module.name) struct).1
    (process_node E str (process_module_open E ctx module.name) struct).2.1
  simp only [process_module, hchild, process_module_body]
  rw [hs.1, hs.2] at hcl
  rw [hf.2.2.1, hf.2.2.2.1, hf.2.2.2.2.1, hf.2.2.2.2.2.1, hf.2.2.2.2.2.2.1,
    hf.2.2.2.2.2.2.2, hf.1, hf.2.1, ho.1, ho.2.1, ho.2.2.1, ho.2.2.2.1, ho.2.2.2.2.1,
    ho.2.2.2.2.2] at hcl
  rw [hs.1, hs.2]
  constructor
  · rw [hcl.1]
    simp [text_none, String.append_assoc]
  · rw [hcl.2]
    simp [text_none, String.append_assoc]

/-! ## Nested modules, empty structs, and the result of `process_node` -/

set_option maxRecDepth 100000 in
/-- C8 at `module M { struct S { octet a; octet b; octet c; }; };` processed at the
root: the header file holds the namespace of `M` around the four signatures. -/
theorem module_M_around_struct :
    (module_M.children = some struct_octets ∧ struct_octets.next = none ∧
      (struct_octets.flags &&& sample.IDL_MEMBER = 0 ∧
        struct_octets.flags &&& sample.IDL_MODULE = 0 ∧
        struct_octets.flags &&& sample.IDL_CONSTR_TYPE ≠ 0) ∧
      struct_octets.children = some members_octets ∧
      ∀ n ∈ members_octets.chain, n.flags &&& sample.IDL_MEMBER ≠ 0) ∧
    (process_module sample no_text root_context module_M).1.header_file =
      no_text.header_file ++
        (namespace_open 0 "M" ++ signatures 1 "S" ++ namespace_close 0) ∧
    namespace_open 0 "M" ++ signatures 1 "S" ++ namespace_close 0 =
      "namespace M\n\x7b\n\n" ++
      "  size_t write_struct(const S &write, void *data, size_t position);\n\n" ++
      "  size_t write_size(const S &write, size_t offset);\n\n" ++
      "  size_t read_struct(S &read, void *data, size_t position);\n\n" ++
      "  size_t S_read_size(void *data, size_t offset);\n\n" ++
      "\x7d\n\n" :=
  ⟨⟨rfl, rfl, by decide, rfl, by decide⟩,
   (module_with_one_struct sample no_text root_context module_M struct_octets members_octets
      rfl rfl (by decide) rfl (by decide)).1,
   by decide⟩

/-- C6 at `struct S { int8 a; Inner b; int8 c; int32 d; };`, in the context that `a`
leaves: `b` is a delegation, `c` comes with no alignment and no padding, and `d` is
aligned at run time. -/
theorem instance_then_wide_member :
    ((member_node sample.IDL_SCOPED_NAME "b" none).flags &&& sample.IDL_BASE_TYPE = 0 ∧
      (member_node sample.IDL_SCOPED_NAME "b" none).flags &&& sample.IDL_SCOPED_NAME ≠ 0) ∧
    (∀ n ∈ [member_node IDL_INT8 "c" none],
      n.flags &&& sample.IDL_BASE_TYPE ≠ 0 ∧ base_bytewidth sample n.flags = 1) ∧
    ((member_node IDL_INT32 "d" none).flags &&& sample.IDL_BASE_TYPE ≠ 0 ∧
      1 < base_bytewidth sample (member_node IDL_INT32 "d" none).flags) ∧
    members_steps sample
        (process_members sample at_first_member [member_node IDL_INT8 "a" none])
        [member_node sample.IDL_SCOPED_NAME "b" none, member_node IDL_INT8 "c" none,
          member_node IDL_INT32 "d" none] =
      [.delegate "b", .member 1 "c", .align true 4 "d", .member 4 "d"] :=
  ⟨by decide, by decide, by decide,
   (nested_instance_reset sample
      (process_members sample at_first_member [member_node IDL_INT8 "a" none])
      (member_node sample.IDL_SCOPED_NAME "b" none) (member_node IDL_INT32 "d" none)
      [member_node IDL_INT8 "c" none] (by decide) (by decide) (by decide)).1⟩

set_option maxRecDepth 100000 in
/-- C7 (broken by the code). For `module A { module B { struct S { octet a; }; }; };`
processed at the root, the header file holds the whole namespace of `B`, opened and
closed, and only then the opening text of `A`; the implementation file likewise. The
context of `A` keeps its opening text in its streams until it is closed, and the struct
inside `B` has flushed the context of `B` by then. -/
theorem nested_modules_out_of_order :
    (process_module sample no_text root_context module_A_B).1.header_file =
      "  namespace B\n  \x7b\n\n" ++
      "    size_t write_struct(const S &write, void *data, size_t position);\n\n" ++
      "    size_t write_size(const S &write, size_t offset);\n\n" ++
      "    size_t read_struct(S &read, void *data, size_t position);\n\n" ++
      "    size_t S_read_size(void *data, size_t offset);\n\n" ++
      "  \x7d\n\n" ++
      "namespace A\n\x7b\n\n" ++
      "\x7d\n\n" ∧
    (process_module sample no_text root_context module_A_B).1.impl_file =
      namespace_open 1 "B" ++
      write_procedure 2 "S" [.copy_out "a" 1, .advance 1 .moving] ++
      write_size_procedure 2 "S" [.advance 1 (.bytes_for "a")] ++
      read_procedure 2 "S" [.copy_in "a" 1, .advance 1 .moving] ++
      read_size_procedure 2 "S" [.advance 1 (.bytes_for "a")] ++
      namespace_close 1 ++
      namespace_open 0 "A" ++
      namespace_close 0 := by
  constructor <;> decide

/-- C9 as the code has it. A struct node without children, processed in any context:
`process_constructed` writes nothing to either file, leaves the context as it is, its
streams included, and returns `IDL_RETCODE_OK`. -/
theorem zero_member_struct (E : externals) (str : streamer_t) (ctx : context) (node : idl_node)
    (h : node.children = none) :
    process_constructed E str ctx node = (str, ctx, idl_retcode_t.IDL_RETCODE_OK) := by
  simp [process_constructed, h]

/-- C9 as the code has it, at the struct `S` without members processed at the root. -/
theorem empty_struct_untouched :
    struct_empty.children = none ∧
    process_constructed sample no_text root_context struct_empty =
      (no_text, root_context, idl_retcode_t.IDL_RETCODE_OK) :=
  ⟨rfl, zero_member_struct sample no_text root_context struct_empty rfl⟩

set_option maxRecDepth 100000 in
/-- C9 as stated fails. For the struct `S` without members processed at the root, the
header file does not hold the four signatures and the implementation file does not hold
four procedures with empty bodies: both files stay empty. -/
theorem empty_struct_emits_nothing :
    (process_constructed sample no_text root_context struct_empty).1.header_file = "" ∧
    (process_constructed sample no_text root_context struct_empty).1.impl_file = "" ∧
    (process_constructed sample no_text root_context struct_empty).1.header_file ≠
      signatures 0 "S" ∧
    (process_constructed sample no_text root_context struct_empty).1.impl_file ≠
      write_procedure 0 "S" [] ++ write_size_procedure 0 "S" [] ++
        read_procedure 0 "S" [] ++ read_size_procedure 0 "S" [] := by
  refine ⟨by decide, by decide, by decide, by decide⟩

theorem process_node_returns (E : externals) (str : streamer_t) (ctx : context)
    (node : idl_node) :
    (process_node E str ctx node).2.2 = idl_retcode_t.IDL_RETCODE_PRECONDITION_NOT_MET := by
  rw [process_node_eq]
  cases node.next <;> rfl

/-- C10 (broken by the code). For the well-formed tree
`module M { struct S { octet a; octet b; octet c; }; };` processed at the root,
`process_node` returns `IDL_RETCODE_PRECONDITION_NOT_MET`, not `IDL_RETCODE_OK`,
although `process_module`, the step it took, returned `IDL_RETCODE_OK`. -/
theorem process_node_reports_failure :
    (process_node sample no_text root_context module_M).2.2 =
      idl_retcode_t.IDL_RETCODE_PRECONDITION_NOT_MET ∧
    (process_node sample no_text root_context module_M).2.2 ≠
      idl_retcode_t.IDL_RETCODE_OK ∧
    (process_module sample no_text root_context module_M).2.2 =
      idl_retcode_t.IDL_RETCODE_OK := by
  refine ⟨process_node_returns _ _ _ _, ?_, rfl⟩
  rw [process_node_returns]
  decide

/-! ## `append_ostream` on memory agrees with `append_ostream` on text -/

theorem malloc_length (junk : Nat → Char) (n : Nat) : (malloc junk n).length = n := by
  simp [malloc]

theorem mem_store_parts (block pre mid post src : List Char) (off : Nat)
    (hblock : block = pre ++ mid ++ post) (hoff : off = pre.length)
    (h : mid.length = src.length) :
    mem_store block off src = some (pre ++ src ++ post) := by
  subst hblock hoff
  unfold mem_store
  have hlen : pre.length + src.length ≤ (pre ++ mid ++ post).length := by
    simp [h]
  rw [if_pos hlen]
  congr 1
  have h1 : (pre ++ mid ++ post).take pre.length = pre := by
    rw [List.append_assoc, List.take_left]
  have h2 : (pre ++ mid ++ post).drop (pre.length + src.length) = post := by
    have : pre.length + src.length = (pre ++ mid).length := by simp [h]
    rw [this, List.drop_left]
  rw [h1, h2]

theorem strlen_terminated (t : List Char) (h : NUL ∉ t) : strlen (t ++ [NUL]) = t.length := by
  unfold strlen
  induction t with
  | nil => simp [List.takeWhile]
  | cons c rest ih =>
    have hc : (c != NUL) = true := by
      simp only [bne_iff_ne, ne_eq]
      intro e
      exact h (by simp [e])
    have hrest : NUL ∉ rest := fun e => h (by simp [e])
    rw [List.cons_append, List.takeWhile_cons, hc]
    simp only [if_true, List.length_cons, ih hrest]

theorem memcpy_whole (block pre mid post src : List Char) (off : Nat)
    (hblock : block = pre ++ mid ++ post) (hoff : off = pre.length)
    (h : mid.length = src.length) :
    memcpy block off src src.length = some (pre ++ src ++ post) := by
  unfold memcpy
  rw [if_pos (le_refl _), List.take_length]
  exact mem_store_parts block pre mid post src off hblock hoff h

theorem append_ostream_mem_null (junk : Nat → Char) (depth : Nat) (t : List Char)
    (indent : Bool) (h : NUL ∉ t) :
    append_ostream_mem junk { buffer := none, bufsize := 0 } depth (t ++ [NUL]) indent =
      some { buffer := some (List.replicate (if indent then 2 * depth else 0) ' ' ++ t ++ [NUL]),
             bufsize := t.length + 1 + (if indent then 2 * depth else 0) } := by
  unfold append_ostream_mem
  simp only [strlen_terminated t h]
  generalize (if indent = true then 2 * depth else 0) = i
  have hlen := malloc_length junk (t.length + 1 + i)
  generalize malloc junk (t.length + 1 + i) = M at hlen
  have s1 : memset M 0 ' ' i = some (List.replicate i ' ' ++ M.drop i) :=
    mem_store_parts M [] (M.take i) (M.drop i) (List.replicate i ' ') 0
      (by simp) rfl (by simp [hlen])
  have s2 : memcpy (List.replicate i ' ' ++ M.drop i) i (t ++ [NUL]) (t.length + 1) =
      some (List.replicate i ' ' ++ (t ++ [NUL]) ++ []) := by
    have := memcpy_whole (List.replicate i ' ' ++ M.drop i) (List.replicate i ' ') (M.drop i) []
      (t ++ [NUL]) i (by simp) (by simp) (by simp [hlen])
    simpa using this
  rw [s1, Option.some_bind, s2, Option.some_bind]
  simp

theorem append_ostream_mem_block (junk : Nat → Char) (c : List Char) (depth : Nat)
    (t : List Char) (indent : Bool) (h : NUL ∉ t) :
    append_ostream_mem junk { buffer := some (c ++ [NUL]), bufsize := c.length + 1 } depth
        (t ++ [NUL]) indent =
      some { buffer :=
               some (c ++ List.replicate (if indent then 2 * depth else 0) ' ' ++ t ++ [NUL]),
             bufsize := t.length + (c.length + 1) + (if indent then 2 * depth else 0) } := by
  unfold append_ostream_mem
  simp only [strlen_terminated t h]
  generalize (if indent = true then 2 * depth else 0) = i
  have hlen := malloc_length junk (t.length + (c.length + 1) + i)
  generalize malloc junk (t.length + (c.length + 1) + i) = M at hlen
  have s1 : memcpy M 0 (c ++ [NUL]) (c.length + 1) =
      some (c ++ ([NUL] ++ M.drop (c.length + 1))) := by
    have := memcpy_whole M [] (M.take (c.length + 1)) (M.drop (c.length + 1)) (c ++ [NUL]) 0
      (by simp) rfl (by simp [hlen]; omega)
    simpa using this
  have hR : ([NUL] ++ M.drop (c.length + 1)).length = 1 + (i + t.length) := by
    simp [hlen]; omega
  generalize [NUL] ++ M.drop (c.length + 1) = R at hR s1
  have s2 : memset (c ++ R) (c.length + 1 - 1) ' ' i =
      some (c ++ List.replicate i ' ' ++ R.drop i) :=
    mem_store_parts (c ++ R) c (R.take i) (R.drop i) (List.replicate i ' ') (c.length + 1 - 1)
      (by simp) (by simp) (by simp [hR]; omega)
  have s3 : memcpy (c ++ List.replicate i ' ' ++ R.drop i) (c.length + 1 - 1 + i) (t ++ [NUL])
      (t.length + 1) = some (c ++ List.replicate i ' ' ++ (t ++ [NUL]) ++ []) := by
    have := memcpy_whole (c ++ List.replicate i ' ' ++ R.drop i) (c ++ List.replicate i ' ')
      (R.drop i) [] (t ++ [NUL]) (c.length + 1 - 1 + i) (by simp) (by simp)
      (by simp [hR]; omega)
    simpa using this
  rw [s1, Option.some_bind, s2, Option.some_bind, s3, Option.some_bind]
  simp

theorem spaces_data (n : Nat) : (spaces n).data = List.replicate n ' ' := rfl

theorem spaces_length (n : Nat) : (spaces n).length = n := by
  simp [spaces, String.length]

theorem image_append_ostream (str : ostream) (depth : Nat) (t : String) (indent : Bool) :
    (append_ostream str depth t indent).image =
      { buffer := some (str.text.data ++
          List.replicate (if indent then 2 * depth else 0) ' ' ++ t.data ++ [NUL]),
        bufsize := str.text.data.length + (if indent then 2 * depth else 0) +
          t.data.length + 1 } := by
  have happ : ∀ a b : String, (a.append b).length = a.length + b.length :=
    String.length_append
  have hl : ∀ a : String, a.data.length = a.length := fun _ => rfl
  cases str with
  | mk b =>
    cases b with
    | none =>
      simp only [append_ostream, ostream.image, ostream.text, Option.getD, String.data_append,
        spaces_data, hl]
      simp [happ, spaces_length, String.length_append]
    | some c =>
      simp only [append_ostream, ostream.image, ostream.text, Option.getD, String.data_append,
        spaces_data, hl]
      simp [happ, spaces_length, String.length_append]

theorem append_ostream_mem_image (junk : Nat → Char) (str : ostream) (depth : Nat)
    (t : String) (indent : Bool) (h : NUL ∉ t.data) :
    append_ostream_mem junk str.image depth (t.data ++ [NUL]) indent =
      some (append_ostream str depth t indent).image := by
  rw [image_append_ostream]
  cases str with
  | mk b =>
    cases b with
    | none =>
      have := append_ostream_mem_null junk depth t.data indent h
      simp only [ostream.image, ostream.text, Option.getD]
      rw [this]
      simp
      omega
    | some c =>
      have := append_ostream_mem_block junk c.data depth t.data indent h
      simp only [ostream.image, ostream.text, Option.getD, String.length]
      rw [this]
      simp
      omega

/-! ## The alignment state `process_base` leaves, and nodes `process_node` skips -/

theorem process_base_state (E : externals) (ctx : context) (node : idl_node) :
    (process_base E ctx node).1.currentalignment =
      (if ctx.currentalignment ≠ (base_bytewidth E node.flags : Int) ∧
          (0 > ctx.currentalignment ∧ base_bytewidth E node.flags ≠ 1)
        then (base_bytewidth E node.flags : Int) else ctx.currentalignment) ∧
    (process_base E ctx node).1.accumulatedalignment =
      (if ctx.currentalignment ≠ (base_bytewidth E node.flags : Int) then
        if 0 > ctx.currentalignment ∧ base_bytewidth E node.flags ≠ 1 then 0
        else if 0 ≠ (base_bytewidth E node.flags -
            ctx.accumulatedalignment % base_bytewidth E node.flags) %
            base_bytewidth E node.flags then 0
        else ctx.accumulatedalignment
      else ctx.accumulatedalignment) + base_bytewidth E node.flags ∧
    (process_base E ctx node).1.alignmentpresent =
      (if ctx.currentalignment ≠ (base_bytewidth E node.flags : Int) ∧
          (0 > ctx.currentalignment ∧ base_bytewidth E node.flags ≠ 1)
        then (if 0 = ctx.alignmentpresent then 1 else ctx.alignmentpresent)
        else ctx.alignmentpresent) := by
  unfold process_base
  by_cases h1 : ctx.currentalignment ≠ (base_bytewidth E node.flags : Int)
  · simp only [if_pos h1]
    by_cases h2 : 0 > ctx.currentalignment ∧ base_bytewidth E node.flags ≠ 1
    · simp only [if_pos h2, if_pos (And.intro h1 h2)]
      by_cases h3 : 0 = ctx.alignmentpresent
      · simp only [if_pos h3]
        simp
      · simp only [if_neg h3]
        simp
    · simp only [if_neg h2, if_neg (fun h : _ ∧ _ => h2 h.2)]
      by_cases h3 : 0 ≠ (base_bytewidth E node.flags -
          ctx.accumulatedalignment % base_bytewidth E node.flags) % base_bytewidth E node.flags
      · simp only [if_pos h3]
        simp
      · simp only [if_neg h3]
        simp
  · simp only [if_neg h1, if_neg (fun h : _ ∧ _ => h1 h.1)]
    simp

theorem base_steps_known (ctx : context) (w : Nat) (name : String)
    (hknown : 0 ≤ ctx.currentalignment) (hne : ctx.currentalignment ≠ (w : Int)) :
    base_steps ctx w name =
      (if (w - ctx.accumulatedalignment % w) % w ≠ 0
        then [step.pad ((w - ctx.accumulatedalignment % w) % w) name] else []) ++
      [step.member w name] := by
  unfold base_steps
  have h2 : ¬ (0 > ctx.currentalignment ∧ w ≠ 1) := fun h => by omega
  simp only [if_pos hne, if_neg h2]
  by_cases h3 : 0 ≠ (w - ctx.accumulatedalignment % w) % w
  · rw [if_pos h3, if_pos (Ne.symm h3)]
  · rw [if_neg h3, if_neg (fun h => h3 (Ne.symm h))]

theorem base_steps_same (ctx : context) (w : Nat) (name : String)
    (h : ctx.currentalignment = (w : Int)) :
    base_steps ctx w name = [step.member w name] := by
  unfold base_steps
  simp [h]

/-- A node whose flags match none of member, module and constructed type is passed
over: `process_node` goes on with `node->next` in the same context. -/
theorem process_node_unmatched (E : externals) (str : streamer_t) (ctx : context)
    (node : idl_node)
    (h : node.flags &&& E.IDL_MEMBER = 0 ∧ node.flags &&& E.IDL_MODULE = 0 ∧
      node.flags &&& E.IDL_CONSTR_TYPE = 0) :
    process_node E str ctx node =
      match node.next with
      | some n =>
        ((process_node E str ctx n).1, (process_node E str ctx n).2.1,
          idl_retcode_t.IDL_RETCODE_PRECONDITION_NOT_MET)
      | none => (str, ctx, idl_retcode_t.IDL_RETCODE_PRECONDITION_NOT_MET) := by
  rw [process_node_eq]
  simp [process_node_dispatch, h.1, h.2.1, h.2.2]

theorem process_member_template (E : externals) (ctx : context) (node : idl_node)
    (h : is_template_member E node = true) :
    process_member E ctx node = (ctx, idl_retcode_t.IDL_RETCODE_OK) := by
  simp only [is_template_member, Bool.and_eq_true, beq_iff_eq, bne_iff_ne, ne_eq] at h
  simp [process_member, h.1.1, h.1.2, h.2, process_template]

theorem process_members_without_templates (E : externals) (nodes : List idl_node) :
    ∀ ctx : context,
      process_members E ctx nodes =
        process_members E ctx (nodes.filter (fun n => !is_template_member E n)) := by
  induction nodes with
  | nil => intro ctx; rfl
  | cons n rest ih =>
    intro ctx
    by_cases h : is_template_member E n = true
    · rw [process_members_cons, process_member_template E ctx n h, List.filter_cons]
      simp only [h, Bool.not_true, Bool.false_eq_true, if_false]
      exact ih ctx
    · have h' : is_template_member E n = false := by simpa using h
      rw [process_members_cons, List.filter_cons]
      simp only [h', Bool.not_false, if_true, process_members_cons]
      exact ih _

theorem process_member_congr (E : externals) (ctx : context) (n m : idl_node)
    (h : member_data n = member_data m) :
    process_member E ctx n = process_member E ctx m := by
  simp only [member_data, Prod.mk.injEq] at h
  simp only [process_member, process_base, process_instance, process_template, h.1, h.2]

theorem process_members_congr (E : externals) (l1 : List idl_node) :
    ∀ (l2 : List idl_node) (ctx : context), l1.map member_data = l2.map member_data →
      process_members E ctx l1 = process_members E ctx l2 := by
  induction l1 with
  | nil =>
    intro l2 ctx h
    cases l2 with
    | nil => rfl
    | cons b rest => simp at h
  | cons a rest ih =>
    intro l2 ctx h
    cases l2 with
    | nil => simp at h
    | cons b rest2 =>
      simp only [List.map_cons, List.cons.injEq] at h
      rw [process_members_cons, process_members_cons, process_member_congr E ctx a b h.1]
      exact ih rest2 _ h.2

/-! ## Unmatched nodes, template members, nested instances, empty modules, closing -/

set_option maxRecDepth 100000 in
/-- C11 (broken by the code). The sibling list `X`, `struct S { octet a; octet b; octet c; }`
where the flags of `X` match none of member, module and constructed type, processed at
the root: the struct after `X` is processed all the same, so that both files hold what
they hold for the struct alone (the header file its four signatures), and the result is
`IDL_RETCODE_PRECONDITION_NOT_MET`, the result for the well-formed list without `X`,
not `IDL_RETCODE_INVALID_PARSETREE`. -/
theorem unmatched_node_does_not_abort :
    (unknown_then_struct.flags &&& sample.IDL_MEMBER = 0 ∧
      unknown_then_struct.flags &&& sample.IDL_MODULE = 0 ∧
      unknown_then_struct.flags &&& sample.IDL_CONSTR_TYPE = 0) ∧
    unknown_then_struct.next = some struct_octets ∧
    (process_node sample no_text root_context unknown_then_struct).1 =
      (process_node sample no_text root_context struct_octets).1 ∧
    (process_node sample no_text root_context unknown_then_struct).1.header_file =
      "size_t write_struct(const S &write, void *data, size_t position);\n\n" ++
      "size_t write_size(const S &write, size_t offset);\n\n" ++
      "size_t read_struct(S &read, void *data, size_t position);\n\n" ++
      "size_t S_read_size(void *data, size_t offset);\n\n" ∧
    (process_node sample no_text root_context unknown_then_struct).2.2 =
      idl_retcode_t.IDL_RETCODE_PRECONDITION_NOT_MET ∧
    (process_node sample no_text root_context unknown_then_struct).2.2 ≠
      idl_retcode_t.IDL_RETCODE_INVALID_PARSETREE ∧
    (process_node sample no_text root_context unknown_then_struct).2.2 =
      (process_node sample no_text root_context struct_octets).2.2 := by
  have h := process_node_unmatched sample no_text root_context unknown_then_struct (by decide)
  have hn : unknown_then_struct.next = some struct_octets := rfl
  rw [hn] at h
  refine ⟨by decide, rfl, ?_, ?_, ?_, ?_, ?_⟩
  · rw [h]
  · rw [h]
    decide
  · rw [h]
  · rw [h]
    decide
  · rw [h, process_node_returns]

/-- C12. `process_template` returns the context as it was, and so does `process_member`
on a member of a template type, in any context: no stream gets text and the alignment
state stays. Hence for a
sibling list of member nodes `process_node` writes nothing to the files and leaves the
context that the list without its template-typed members leaves; a sibling list with
the flags and declarators of the first list without those members gives the same files
and the same context. -/
theorem template_members_add_nothing (E : externals) (first : idl_node) (str : streamer_t)
    (ctx : context)
    (hmem : ∀ n ∈ first.chain, n.flags &&& E.IDL_MEMBER ≠ 0) :
    (∀ (c : context) (n : idl_node),
      process_template E c n = (c, idl_retcode_t.IDL_RETCODE_OK)) ∧
    (∀ (c : context) (n : idl_node), is_template_member E n = true →
      process_member E c n = (c, idl_retcode_t.IDL_RETCODE_OK)) ∧
    (process_node E str ctx first).1 = str ∧
    (process_node E str ctx first).2.1 =
      process_members E ctx (first.chain.filter (fun n => !is_template_member E n)) ∧
    (∀ other : idl_node,
      other.chain.map member_data =
        (first.chain.filter (fun n => !is_template_member E n)).map member_data →
      process_node E str ctx other = process_node E str ctx first) := by
  have hp := process_node_members E first str ctx hmem
  refine ⟨fun _ _ => rfl, fun c n h => process_member_template E c n h, ?_, ?_, ?_⟩
  · rw [hp]
  · rw [hp, ← process_members_without_templates]
  · intro other ho
    have hmo : ∀ n ∈ other.chain, n.flags &&& E.IDL_MEMBER ≠ 0 := by
      intro n hn
      have hk : member_data n ∈ other.chain.map member_data := List.mem_map_of_mem _ hn
      rw [ho] at hk
      obtain ⟨m, hm, hmk⟩ := List.mem_map.mp hk
      have hf : m.flags = n.flags := by
        simp only [member_data, Prod.mk.injEq] at hmk
        exact hmk.1
      rw [← hf]
      exact hmem m (List.mem_of_mem_filter hm)
    rw [hp, process_node_members E other str ctx hmo,
      process_members_congr E _ _ ctx ho, ← process_members_without_templates]

/-- C12 at the members `int8 a; sequence s; int32 b;`: the walk gives what it gives for
`int8 a; int32 b;`. -/
theorem sequence_member_adds_nothing :
    (∀ n ∈ members_with_sequence.chain, n.flags &&& sample.IDL_MEMBER ≠ 0) ∧
    is_template_member sample (member_node IDL_SEQUENCE "s"
      (some (member_node IDL_INT32 "b" none))) = true ∧
    members_without_sequence.chain.map member_data =
      (members_with_sequence.chain.filter
        (fun n => !is_template_member sample n)).map member_data ∧
    process_node sample no_text at_first_member members_without_sequence =
      process_node sample no_text at_first_member members_with_sequence :=
  ⟨by decide, by decide, by decide,
   (template_members_add_nothing sample members_with_sequence no_text at_first_member
      (by decide)).2.2.2.2 members_without_sequence (by decide)⟩

/-- For any node in any context, `process_instance` appends, after the indentation
of the context, the line `position = write_struct(write.<name>(), data, position);` to
the write stream, `position = read_struct(write.<name>(), data, position);` to the read
stream, `position += write_size(write.<name>(), position);` to the write-size stream and
`position += <name>_read_size(data, position);` to the read-size stream, where `<name>`
is the mangled declarator. These are the four renderings of one delegation step. The
header stream, the depth and the alignment-variable flag stay; the tracked width becomes
`-1` (unknown) and the accumulated bytes 0; the result is `IDL_RETCODE_OK`. -/
theorem process_instance_lines (E : externals) (ctx : context) (node : idl_node) :
    (process_instance E ctx node).1.write_stream.text =
      ctx.write_stream.text ++ (spaces (2 * ctx.depth) ++
        ("  position = write_struct(write." ++ E.get_cpp11_name node.declarator ++
          "(), data, position);\n")) ∧
    (process_instance E ctx node).1.read_stream.text =
      ctx.read_stream.text ++ (spaces (2 * ctx.depth) ++
        ("  position = read_struct(write." ++ E.get_cpp11_name node.declarator ++
          "(), data, position);\n")) ∧
    (process_instance E ctx node).1.write_size_stream.text =
      ctx.write_size_stream.text ++ (spaces (2 * ctx.depth) ++
        ("  position += write_size(write." ++ E.get_cpp11_name node.declarator ++
          "(), position);\n")) ∧
    (process_instance E ctx node).1.read_size_stream.text =
      ctx.read_size_stream.text ++ (spaces (2 * ctx.depth) ++
        ("  position += " ++ E.get_cpp11_name node.declarator ++
          "_read_size(data, position);\n")) ∧
    ((process_instance E ctx node).1.write_stream.text =
        ctx.write_stream.text ++
          render ctx.depth [instr.call_write (E.get_cpp11_name node.declarator)] ∧
      (process_instance E ctx node).1.read_stream.text =
        ctx.read_stream.text ++
          render ctx.depth [instr.call_read (E.get_cpp11_name node.declarator)] ∧
      (process_instance E ctx node).1.write_size_stream.text =
        ctx.write_size_stream.text ++
          render ctx.depth [instr.call_write_size (E.get_cpp11_name node.declarator)] ∧
      (process_instance E ctx node).1.read_size_stream.text =
        ctx.read_size_stream.text ++
          render ctx.depth [instr.call_read_size (E.get_cpp11_name node.declarator)]) ∧
    (process_instance E ctx node).1.header_stream = ctx.header_stream ∧
    (process_instance E ctx node).1.depth = ctx.depth ∧
    (process_instance E ctx node).1.context = ctx.context ∧
    (process_instance E ctx node).1.currentalignment = -1 ∧
    (process_instance E ctx node).1.accumulatedalignment = 0 ∧
    (process_instance E ctx node).1.alignmentpresent = ctx.alignmentpresent ∧
    (process_instance E ctx node).2 = idl_retcode_t.IDL_RETCODE_OK := by
  have hs := process_instance_state E ctx node
  refine ⟨?_, ?_, ?_, ?_, ⟨?_, ?_, ?_, ?_⟩, process_instance_header_stream E ctx node,
    process_instance_depth E ctx node, process_instance_context E ctx node,
    hs.1, hs.2.1, hs.2.2, rfl⟩
  · simp [process_instance, instance_write_func_fmt, String.append_assoc]
  · simp [process_instance, instance_read_func_fmt, String.append_assoc]
  · simp [process_instance, instance_size_func_calc_fmt, String.append_assoc]
  · simp [process_instance, struct_read_size_func_call_fmt, String.append_assoc]
  · simp [process_instance, render, instr.line]
  · simp [process_instance, render, instr.line]
  · simp [process_instance, render, instr.line]
  · simp [process_instance, render, instr.line]

set_option maxRecDepth 100000 in
/-- C13. `process_instance` appends one line to each of the four body streams, but two of
the four are no calls of the nested type's procedures. The line of the read body is
`position = read_struct(write.<name>(), data, position);`: it names the object `write`,
while the parameters of `read_struct` are `read`, `data` and `position`. The line of the
read-size body calls `<name>_read_size` with the member's declarator as `<name>`, while
the procedure a struct gets is named after the struct. For
`struct Inner { octet a; }; struct Outer { Inner b; };` the implementation file calls
`b_read_size`, and the header file declares `Inner_read_size` and `Outer_read_size`
only. -/
theorem nested_instance_calls_misnamed :
    (∀ (E : externals) (ctx : context) (node : idl_node),
      (process_instance E ctx node).1.read_stream.text =
        ctx.read_stream.text ++ (spaces (2 * ctx.depth) ++
          ("  position = read_struct(write." ++ E.get_cpp11_name node.declarator ++
            "(), data, position);\n")) ∧
      (process_instance E ctx node).1.read_size_stream.text =
        ctx.read_size_stream.text ++ (spaces (2 * ctx.depth) ++
          ("  position += " ++ E.get_cpp11_name node.declarator ++
            "_read_size(data, position);\n")) ∧
      (process_constructed_open E ctx node.name).read_size_stream.text =
        ctx.read_size_stream.text ++
          (spaces (2 * ctx.depth) ++
            ("size_t " ++ E.get_cpp11_name node.name ++ "_read_size(void *data, size_t offset)") ++
            "\n" ++ (spaces (2 * ctx.depth) ++ "\x7b\n") ++
            (spaces (2 * ctx.depth) ++ "  size_t position = offset;\n"))) ∧
    (process_node sample no_text root_context struct_inner_then_outer).1.header_file =
      "size_t write_struct(const Inner &write, void *data, size_t position);\n\n" ++
      "size_t write_size(const Inner &write, size_t offset);\n\n" ++
      "size_t read_struct(Inner &read, void *data, size_t position);\n\n" ++
      "size_t Inner_read_size(void *data, size_t offset);\n\n" ++
      "size_t write_struct(const Outer &write, void *data, size_t position);\n\n" ++
      "size_t write_size(const Outer &write, size_t offset);\n\n" ++
      "size_t read_struct(Outer &read, void *data, size_t position);\n\n" ++
      "size_t Outer_read_size(void *data, size_t offset);\n\n" ∧
    (process_constructed sample no_text root_context struct_outer).1.impl_file =
      "size_t write_struct(const Outer &write, void *data, size_t position)\n" ++
      "\x7b\n" ++
      "  position = write_struct(write.b(), data, position);\n" ++
      "  return position;\n" ++
      "\x7d\n\n" ++
      "size_t write_size(const Outer &write, size_t offset)\n" ++
      "\x7b\n" ++
      "  size_t position = offset;\n" ++
      "  position += write_size(write.b(), position);\n" ++
      "  return position-offset;\n" ++
      "\x7d\n\n" ++
      "size_t read_struct(Outer &read, void *data, size_t position)\n" ++
      "\x7b\n" ++
      "  position = read_struct(write.b(), data, position);\n" ++
      "  return position;\n" ++
      "\x7d\n\n" ++
      "size_t Outer_read_size(void *data, size_t offset)\n" ++
      "\x7b\n" ++
      "  size_t position = offset;\n" ++
      "  position += b_read_size(data, position);\n" ++
      "  return position-offset;\n" ++
      "\x7d\n\n" ∧
    call_arguments (struct_read_func_fmt "Outer") =
      ["Outer &read", "void *data", "size_t position"] ∧
    call_arguments (instr.line (.call_read "b")) = ["write.b()", "data", "position"] ∧
    call_arguments (instr.line (.call_write "b")) = ["write.b()", "data", "position"] ∧
    call_arguments (struct_write_func_fmt "Outer") =
      ["const Outer &write", "void *data", "size_t position"] ∧
    occurs "b_read_size("
      (process_node sample no_text root_context struct_inner_then_outer).1.impl_file = true ∧
    occurs "b_read_size"
      (process_node sample no_text root_context struct_inner_then_outer).1.header_file = false ∧
    occurs "Inner_read_size("
      (process_node sample no_text root_context struct_inner_then_outer).1.header_file = true := by
  refine ⟨?_, by decide, by decide, by decide, by decide, by decide, by decide, by decide,
    by decide, by decide⟩
  intro E ctx node
  have h := process_instance_lines E ctx node
  have ho := process_constructed_open_text E ctx node.name
  exact ⟨h.2.1, h.2.2.2.1, ho.2.2.2.2.1⟩

/-- C14. A module node without children, in any context and with any text in the files:
`process_module` returns the files and the whole context as they were (every stream, the
depth, the alignment state), and `IDL_RETCODE_OK`. -/
theorem module_without_children (E : externals) (str : streamer_t) (ctx : context)
    (node : idl_node) (h : node.children = none) :
    process_module E str ctx node = (str, ctx, idl_retcode_t.IDL_RETCODE_OK) := by
  simp [process_module, h]

/-- C14 at the module `M` without children, processed at the root. -/
theorem empty_module_M :
    (module_node "M" none none).children = none ∧
    process_module sample no_text root_context (module_node "M" none none) =
      (no_text, root_context, idl_retcode_t.IDL_RETCODE_OK) :=
  ⟨rfl, module_without_children sample no_text root_context (module_node "M" none none) rfl⟩

/-- C15. `close_context` is the flush of `flush_context`: the header file gets the text
of the header stream appended; the implementation file gets appended the text of the
write stream, then of the write-size stream, then of the read stream, then of the
read-size stream; and after the flush each of the five buffers is `NULL`, the rest of the
context as before. -/
theorem close_order (str : streamer_t) (ctx : context) :
    close_context str ctx = (flush_context str ctx).1 ∧
    (close_context str ctx).header_file = str.header_file ++ ctx.header_stream.text ∧
    (close_context str ctx).impl_file =
      str.impl_file ++ ctx.write_stream.text ++ ctx.write_size_stream.text ++
        ctx.read_stream.text ++ ctx.read_size_stream.text ∧
    (flush_context str ctx).2 =
      { ctx with
        header_stream := { buffer := none }
        write_stream := { buffer := none }
        write_size_stream := { buffer := none }
        read_stream := { buffer := none }
        read_size_stream := { buffer := none } } :=
  ⟨rfl, (flush_context_files str ctx).1, (flush_context_files str ctx).2,
    flush_context_streams str ctx⟩

/-! ## Appending, flushing, and the alignment tracker's padding -/

/-- C16. For a stream holding any content, any depth and any text `t` without `NUL`:
`append_ostream` with `indent` set leaves the content, then `2 * depth` spaces, then `t`;
with `indent` not set it leaves the content, then `t`. The run of the source's statements
on the allocated block (`append_ostream_mem`, with any content in freshly allocated
memory) stays inside its blocks and ends with the block and the size of exactly that
text. A second append at another depth adds its own indentation behind and leaves the
text of the first as it was. -/
theorem append_leaves (str : ostream) (depth : Nat) (t : String) (h : NUL ∉ t.data) :
    (append_ostream str depth t true).text = str.text ++ (spaces (2 * depth) ++ t) ∧
    (append_ostream str depth t false).text = str.text ++ t ∧
    (spaces (2 * depth)).data = List.replicate (2 * depth) ' ' ∧
    (∀ (junk : Nat → Char) (indent : Bool),
      append_ostream_mem junk str.image depth (t.data ++ [NUL]) indent =
        some (append_ostream str depth t indent).image) ∧
    (∀ (later : Nat) (t2 : String),
      (append_ostream (append_ostream str depth t true) later t2 true).text =
        str.text ++ (spaces (2 * depth) ++ t) ++ (spaces (2 * later) ++ t2)) :=
  ⟨text_append_ostream_indent str depth t, text_append_ostream_plain str depth t, rfl,
   fun junk indent => append_ostream_mem_image junk str depth t indent h,
   fun later t2 => by rw [text_append_ostream_indent, text_append_ostream_indent]⟩

/-- C16 at the stream holding `ab`, depth 2 and the text `cd`. -/
theorem append_leaves_ab_cd :
    NUL ∉ "cd".data ∧
    (append_ostream { buffer := some "ab" } 2 "cd" true).text = "ab" ++ ("    " ++ "cd") ∧
    append_ostream_mem (fun _ => 'z') (ostream.image { buffer := some "ab" }) 2
        ("cd".data ++ [NUL]) true =
      some { buffer := some ['a', 'b', ' ', ' ', ' ', ' ', 'c', 'd', NUL], bufsize := 9 } :=
  ⟨by decide, (append_leaves { buffer := some "ab" } 2 "cd" (by decide)).1,
   (append_leaves { buffer := some "ab" } 2 "cd" (by decide)).2.2.2.1 (fun _ => 'z') true⟩

/-- C17. `flush_ostream` on a stream whose buffer is not `NULL` appends the whole text of
the buffer to the file (to `stdout` when the file is `NULL`) and leaves the buffer `NULL`;
on a stream whose buffer is `NULL` it changes neither stream nor file nor `stdout`. So a
second flush right after a first changes nothing, and the text is written once. With an
open file `flush_ostream_sink` is `flush_ostream`. -/
theorem flush_once (str : ostream) (f : Option String) (out : String) :
    (∀ b file, str.buffer = some b →
      flush_ostream_sink str (some file) out = ({ buffer := none }, some (file ++ b), out)) ∧
    (∀ b, str.buffer = some b →
      flush_ostream_sink str none out = ({ buffer := none }, none, out ++ b)) ∧
    (str.buffer = none → flush_ostream_sink str f out = (str, f, out)) ∧
    flush_ostream_sink (flush_ostream_sink str f out).1 (flush_ostream_sink str f out).2.1
        (flush_ostream_sink str f out).2.2 =
      flush_ostream_sink str f out ∧
    (∀ file, flush_ostream_sink str (some file) out =
      ((flush_ostream str file).1, some (flush_ostream str file).2, out)) := by
  refine ⟨?_, ?_, ?_, ?_, ?_⟩
  · intro b file hb
    simp [flush_ostream_sink, hb, clear_ostream]
  · intro b hb
    simp [flush_ostream_sink, hb, clear_ostream]
  · intro hb
    simp [flush_ostream_sink, hb]
  · cases str with
    | mk b =>
      cases b with
      | none => simp [flush_ostream_sink]
      | some c => cases f <;> simp [flush_ostream_sink, clear_ostream]
  · intro file
    cases str with
    | mk b => cases b <;> simp [flush_ostream_sink, flush_ostream, clear_ostream]

set_option maxRecDepth 100000 in
/-- C18 (broken by the code). In `struct S { int32 a; int8 b; int32 c; };`, when
`process_base` meets `c` the tracked width is 4, the width of `c`, and 5 bytes are
accumulated, so the padding count `(4 - 5 % 4) % 4` is 3; yet the only step taken is the
member itself and the write body gets the two lines of `c` with no padding before. -/
theorem equal_width_gets_no_padding :
    before_c.currentalignment = 4 ∧
    before_c.accumulatedalignment = 5 ∧
    base_bytewidth sample (member_node IDL_INT32 "c" none).flags = 4 ∧
    (4 - before_c.accumulatedalignment % 4) % 4 = 3 ∧
    base_steps before_c 4 "c" = [.member 4 "c"] ∧
    (process_base sample before_c (member_node IDL_INT32 "c" none)).1.write_stream.text =
      before_c.write_stream.text ++
        render 0 (write_body (base_steps before_c 4 "c")) ∧
    render 0 (write_body (base_steps before_c 4 "c")) =
      "  memcpy(data+position,&write.c(),4);  //bytes for member: c\n" ++
      "  position += 4;  //moving position indicator\n" ∧
    (process_base sample before_c (member_node IDL_INT32 "c" none)).1.write_size_stream.text =
      before_c.write_size_stream.text ++
        render 0 (write_size_body (base_steps before_c 4 "c")) ∧
    render 0 (write_size_body (base_steps before_c 4 "c")) =
      "  position += 4;  //bytes for member: c\n" := by
  refine ⟨by decide, by decide, by decide, by decide, by decide, ?_, by decide, ?_, by decide⟩
  · exact process_base_write_text sample before_c (member_node IDL_INT32 "c" none)
  · exact process_base_write_size_text sample before_c (member_node IDL_INT32 "c" none)

/-- C19 (broken by the code). In `struct S { int32 a; int8 b; };`, when `process_base`
meets `b` the tracked width is 4, known and different from the width 1 of `b`; after
the call the tracked width is still 4, not 1. -/
theorem known_width_is_kept :
    before_b.currentalignment = 4 ∧
    base_bytewidth sample (member_node IDL_INT8 "b" none).flags = 1 ∧
    (process_base sample before_b (member_node IDL_INT8 "b" none)).1.currentalignment = 4 ∧
    (process_base sample before_b (member_node IDL_INT8 "b" none)).1.currentalignment ≠
      (base_bytewidth sample (member_node IDL_INT8 "b" none).flags : Int) := by
  have h := (process_base_state sample before_b (member_node IDL_INT8 "b" none)).1
  have hc : before_b.currentalignment = 4 := by decide
  have hw : base_bytewidth sample (member_node IDL_INT8 "b" none).flags = 1 := by decide
  rw [hw, hc] at h
  simp at h
  refine ⟨hc, hw, h, ?_⟩
  rw [h, hw]
  decide

/-- C20. `process_base` on a member of width `w` in a context whose tracked width is
known (not negative) and different from `w`, with `pad = (w - accumulated % w) % w`
computed by the generator. If `pad` is not 0: the write body gets a zero-fill of `pad`
bytes and `position += pad`, the read body and both size bodies get `position += pad`,
each before the lines of the member, and the accumulated bytes become `0 + w`. If `pad`
is 0: the four bodies get the lines of the member only and the accumulated bytes grow
by `w`. No run-time alignment is emitted and the alignment-variable flag stays. -/
theorem known_width_padding (E : externals) (ctx : context) (node : idl_node)
    (w pad : Nat) (name : String)
    (hw : w = base_bytewidth E node.flags)
    (hname : name = E.get_cpp11_name node.declarator)
    (hpad : pad = (w - ctx.accumulatedalignment % w) % w)
    (hknown : 0 ≤ ctx.currentalignment)
    (hne : ctx.currentalignment ≠ (w : Int)) :
    (pad ≠ 0 →
      (process_base E ctx node).1.write_stream.text =
        ctx.write_stream.text ++ render ctx.depth
          [.zero_padding pad, .advance pad .moving, .copy_out name w, .advance w .moving] ∧
      (process_base E ctx node).1.read_stream.text =
        ctx.read_stream.text ++ render ctx.depth
          [.advance pad (.padding_for name), .copy_in name w, .advance w .moving] ∧
      (process_base E ctx node).1.write_size_stream.text =
        ctx.write_size_stream.text ++ render ctx.depth
          [.advance pad (.padding_for name), .advance w (.bytes_for name)] ∧
      (process_base E ctx node).1.read_size_stream.text =
        ctx.read_size_stream.text ++ render ctx.depth
          [.advance pad (.padding_for name), .advance w (.bytes_for name)] ∧
      (process_base E ctx node).1.accumulatedalignment = 0 + w) ∧
    (pad = 0 →
      (process_base E ctx node).1.write_stream.text =
        ctx.write_stream.text ++ render ctx.depth [.copy_out name w, .advance w .moving] ∧
      (process_base E ctx node).1.read_stream.text =
        ctx.read_stream.text ++ render ctx.depth [.copy_in name w, .advance w .moving] ∧
      (process_base E ctx node).1.write_size_stream.text =
        ctx.write_size_stream.text ++ render ctx.depth [.advance w (.bytes_for name)] ∧
      (process_base E ctx node).1.read_size_stream.text =
        ctx.read_size_stream.text ++ render ctx.depth [.advance w (.bytes_for name)] ∧
      (process_base E ctx node).1.accumulatedalignment = ctx.accumulatedalignment + w) ∧
    (process_base E ctx node).1.alignmentpresent = ctx.alignmentpresent ∧
    (process_base E ctx node).1.header_stream = ctx.header_stream := by
  subst hw hname
  have hsteps := base_steps_known ctx (base_bytewidth E node.flags)
    (E.get_cpp11_name node.declarator) hknown hne
  have hst := process_base_state E ctx node
  have h2 : ¬ (0 > ctx.currentalignment ∧ base_bytewidth E node.flags ≠ 1) :=
    fun h => by omega
  have hwt := process_base_write_text E ctx node
  have hrt := process_base_read_text E ctx node
  have hwst := process_base_write_size_text E ctx node
  have hrst := process_base_read_size_text E ctx node
  rw [hsteps] at hwt hrt hwst hrst
  rw [← hpad] at hwt hrt hwst hrst
  refine ⟨?_, ?_, ?_, process_base_header_stream E ctx node⟩
  · intro hp
    rw [if_pos hp] at hwt hrt hwst hrst
    refine ⟨hwt, hrt, hwst, hrst, ?_⟩
    rw [hst.2.1, if_pos hne, if_neg h2, ← hpad, if_pos (Ne.symm hp)]
  · intro hp
    have hp' : ¬ pad ≠ 0 := fun h => h hp
    rw [if_neg hp'] at hwt hrt hwst hrst
    refine ⟨hwt, hrt, hwst, hrst, ?_⟩
    rw [hst.2.1, if_pos hne, if_neg h2, ← hpad, if_neg (fun h : 0 ≠ pad => h hp.symm)]
  · rw [hst.2.2, if_neg (fun h : _ ∧ _ => h2 h.2)]

set_option maxRecDepth 100000 in
/-- C20 at `d` of `struct S { int8 a; int32 b; int8 c; int64 d; };`: the tracked width is 4,
5 bytes are accumulated, the padding is 3, and the write-size body gets
`position += 3;` and `position += 8;`. -/
theorem padding_before_d :
    (8 = base_bytewidth sample (member_node IDL_INT64 "d" none).flags ∧
      "d" = sample.get_cpp11_name (member_node IDL_INT64 "d" none).declarator ∧
      3 = (8 - before_d.accumulatedalignment % 8) % 8 ∧
      0 ≤ before_d.currentalignment ∧
      before_d.currentalignment ≠ ((8 : Nat) : Int)) ∧
    (process_base sample before_d (member_node IDL_INT64 "d" none)).1.write_size_stream.text =
      before_d.write_size_stream.text ++ render 0
        [.advance 3 (.padding_for "d"), .advance 8 (.bytes_for "d")] ∧
    render 0 [.advance 3 (.padding_for "d"), .advance 8 (.bytes_for "d")] =
      "  position += 3;  //padding bytes for: d\n" ++
      "  position += 8;  //bytes for member: d\n" ∧
    (process_base sample before_d (member_node IDL_INT64 "d" none)).1.accumulatedalignment =
      0 + 8 :=
  ⟨⟨by decide, by decide, by decide, by decide, by decide⟩,
   ((known_width_padding sample before_d (member_node IDL_INT64 "d" none) 8 3 "d"
      (by decide) (by decide) (by decide) (by decide) (by decide)).1 (by decide)).2.2.1,
   by decide,
   ((known_width_padding sample before_d (member_node IDL_INT64 "d" none) 8 3 "d"
      (by decide) (by decide) (by decide) (by decide) (by decide)).1 (by decide)).2.2.2.2⟩

/-! ## The run-time alignment branch, its formula and the width table -/

theorem base_steps_negative (ctx : context) (w : Nat) (name : String)
    (hc : ctx.currentalignment < 0) (hw : 1 < w) :
    base_steps ctx w name =
      [.align (decide (0 = ctx.alignmentpresent)) w name, .member w name] := by
  unfold base_steps
  have h1 : ctx.currentalignment ≠ (w : Int) := by omega
  have h2 : 0 > ctx.currentalignment ∧ w ≠ 1 := ⟨by omega, by omega⟩
  simp [h1, h2]

/-- C21. `process_base` on a member of width `w > 1` in a context whose tracked width is
unknown (negative). The write body gets the line computing `alignmentbytes` with the
formula of `generatealignment w` (declaring the variable when the flag is 0, assigning
it otherwise), the zero-fill of `alignmentbytes` bytes and `position += alignmentbytes`;
the read body gets the same without the zero-fill; both size bodies get
`position += ` followed by the formula; each before the lines of the member. Afterwards
the tracked width is `w`, the accumulated bytes are `0 + w`, and the flag is 1 if it
was 0. -/
theorem unknown_width_alignment (E : externals) (ctx : context) (node : idl_node)
    (w : Nat) (name : String)
    (hw : w = base_bytewidth E node.flags)
    (hname : name = E.get_cpp11_name node.declarator)
    (hunknown : ctx.currentalignment < 0)
    (hwide : 1 < w) :
    (process_base E ctx node).1.write_stream.text =
      ctx.write_stream.text ++ render ctx.depth
        [if 0 = ctx.alignmentpresent then .declare_alignment w name
          else .assign_alignment w name,
         .zero_alignment, .skip_alignment, .copy_out name w, .advance w .moving] ∧
    (process_base E ctx node).1.read_stream.text =
      ctx.read_stream.text ++ render ctx.depth
        [if 0 = ctx.alignmentpresent then .declare_alignment w name
          else .assign_alignment w name,
         .skip_alignment, .copy_in name w, .advance w .moving] ∧
    (process_base E ctx node).1.write_size_stream.text =
      ctx.write_size_stream.text ++ render ctx.depth
        [.advance_alignment w name, .advance w (.bytes_for name)] ∧
    (process_base E ctx node).1.read_size_stream.text =
      ctx.read_size_stream.text ++ render ctx.depth
        [.advance_alignment w name, .advance w (.bytes_for name)] ∧
    instr.line (.declare_alignment w name) =
      "  size_t alignmentbytes = " ++ generatealignment w ++ "  //alignment for: " ++
        name ++ "\n" ∧
    instr.line (.assign_alignment w name) =
      "  alignmentbytes = " ++ generatealignment w ++ "  //alignment for: " ++ name ++ "\n" ∧
    instr.line (.advance_alignment w name) =
      "  position += " ++ generatealignment w ++ "  //alignment for: " ++ name ++ "\n" ∧
    instr.line .zero_alignment =
      "  memset(data+position,0x0,alignmentbytes);  //setting alignment bytes to 0x0\n" ∧
    (process_base E ctx node).1.currentalignment = (w : Int) ∧
    (process_base E ctx node).1.accumulatedalignment = 0 + w ∧
    (process_base E ctx node).1.alignmentpresent =
      (if 0 = ctx.alignmentpresent then 1 else ctx.alignmentpresent) ∧
    (process_base E ctx node).1.header_stream = ctx.header_stream := by
  subst hw hname
  have hsteps := base_steps_negative ctx (base_bytewidth E node.flags)
    (E.get_cpp11_name node.declarator) hunknown hwide
  have hst := process_base_state E ctx node
  have h1 : ctx.currentalignment ≠ (base_bytewidth E node.flags : Int) := by omega
  have h2 : 0 > ctx.currentalignment ∧ base_bytewidth E node.flags ≠ 1 :=
    ⟨by omega, by omega⟩
  have hwt := process_base_write_text E ctx node
  have hrt := process_base_read_text E ctx node
  have hwst := process_base_write_size_text E ctx node
  have hrst := process_base_read_size_text E ctx node
  rw [hsteps] at hwt hrt hwst hrst
  refine ⟨?_, ?_, hwst, hrst, rfl, rfl, rfl, rfl, ?_, ?_, ?_,
    process_base_header_stream E ctx node⟩
  · rw [hwt]
    by_cases h3 : 0 = ctx.alignmentpresent
    · simp only [if_pos h3, decide_eq_true h3]
      rfl
    · simp only [if_neg h3, decide_eq_false h3]
      rfl
  · rw [hrt]
    by_cases h3 : 0 = ctx.alignmentpresent
    · simp only [if_pos h3, decide_eq_true h3]
      rfl
    · simp only [if_neg h3, decide_eq_false h3]
      rfl
  · rw [hst.1, if_pos ⟨h1, h2⟩]
  · rw [hst.2.1, if_pos h1, if_pos h2]
  · rw [hst.2.2, if_pos ⟨h1, h2⟩]

set_option maxRecDepth 100000 in
/-- C21 at the first member of `struct S { int32 a; };`: the tracked width is unknown and
no alignment variable is declared yet; the write body gets the declaring line with the
formula for 4, the zero-fill and the two position updates around the copy, the
write-size body the two position updates, and the tracker holds width 4 with 4
accumulated bytes. -/
theorem alignment_before_int32 :
    (4 = base_bytewidth sample (member_node IDL_INT32 "a" none).flags ∧
      "a" = sample.get_cpp11_name (member_node IDL_INT32 "a" none).declarator ∧
      at_first_member.currentalignment < 0 ∧ 1 < 4) ∧
    (process_base sample at_first_member (member_node IDL_INT32 "a" none)).1.write_stream.text =
      at_first_member.write_stream.text ++ render at_first_member.depth
        [if 0 = at_first_member.alignmentpresent then .declare_alignment 4 "a"
          else .assign_alignment 4 "a",
         .zero_alignment, .skip_alignment, .copy_out "a" 4, .advance 4 .moving] ∧
    render at_first_member.depth
        [if 0 = at_first_member.alignmentpresent then .declare_alignment 4 "a"
          else .assign_alignment 4 "a",
         .zero_alignment, .skip_alignment, .copy_out "a" 4, .advance 4 .moving] =
      "  size_t alignmentbytes = (4 - position%4)%4;  //alignment for: a\n" ++
      "  memset(data+position,0x0,alignmentbytes);  //setting alignment bytes to 0x0\n" ++
      "  position += alignmentbytes;  //moving position indicator\n" ++
      "  memcpy(data+position,&write.a(),4);  //bytes for member: a\n" ++
      "  position += 4;  //moving position indicator\n" ∧
    render at_first_member.depth [.advance_alignment 4 "a", .advance 4 (.bytes_for "a")] =
      "  position += (4 - position%4)%4;  //alignment for: a\n" ++
      "  position += 4;  //bytes for member: a\n" ∧
    (process_base sample at_first_member (member_node IDL_INT32 "a" none)).1.currentalignment
      = 4 ∧
    (process_base sample at_first_member
      (member_node IDL_INT32 "a" none)).1.accumulatedalignment = 0 + 4 :=
  ⟨⟨by decide, by decide, by decide, by decide⟩,
   (unknown_width_alignment sample at_first_member (member_node IDL_INT32 "a" none) 4 "a"
      (by decide) (by decide) (by decide) (by decide)).1,
   by decide,
   by decide,
   (unknown_width_alignment sample at_first_member (member_node IDL_INT32 "a" none) 4 "a"
      (by decide) (by decide) (by decide) (by decide)).2.2.2.2.2.2.2.2.1,
   (unknown_width_alignment sample at_first_member (member_node IDL_INT32 "a" none) 4 "a"
      (by decide) (by decide) (by decide) (by decide)).2.2.2.2.2.2.2.2.2.1⟩
set_option maxRecDepth 100000 in
/-- C22. The text `generatealignment` returns is `position%2;` for width 2 and
`(w - position%w)%w;` for the widths 4 and 8. Read as a C expression over a 64-bit
`size_t`, its value `pad` at every position `p` is below `w`, makes `p + pad` a
multiple of `w`, and equals `(w - p mod w) mod w`; this is the value the generated
procedures are run with (`alignment_value`). -/
theorem alignment_formula :
    generatealignment 2 = "position%2;" ∧
    generatealignment 4 = "(4 - position%4)%4;" ∧
    generatealignment 8 = "(8 - position%8)%8;" ∧
    ∀ w : Nat, (w = 2 ∨ w = 4 ∨ w = 8) →
      generatealignment w = (alignment_expr w).text ++ ";" ∧
      ∀ p : Nat,
        (alignment_expr w).eval p = alignment_value w p ∧
        alignment_value w p < w ∧
        (p + alignment_value w p) % w = 0 ∧
        alignment_value w p = (w - p % w) % w := by
  refine ⟨by decide, by decide, by decide, ?_⟩
  intro w hw
  rcases hw with rfl | rfl | rfl
  · refine ⟨by decide, fun p => ?_⟩
    simp only [alignment_expr, cexpr.eval, alignment_value]
    norm_num
    omega
  · refine ⟨by decide, fun p => ?_⟩
    simp only [alignment_expr, cexpr.eval, alignment_value]
    norm_num
    omega
  · refine ⟨by decide, fun p => ?_⟩
    simp only [alignment_expr, cexpr.eval, alignment_value]
    norm_num
    omega

theorem process_base_member_line (E : externals) (ctx : context) (node : idl_node) :
    ∃ before : String, (process_base E ctx node).1.write_size_stream.text =
      before ++ render ctx.depth
        [.advance (base_bytewidth E node.flags)
          (.bytes_for (E.get_cpp11_name node.declarator))] := by
  rw [process_base_write_size_text]
  unfold base_steps
  rw [write_size_body_append, render_append, ← String.append_assoc]
  exact ⟨_, rfl⟩

/-- C23. The byte width `process_base` computes from the flags of a member, for every
value of the category constants. In the integer category the low four bits `0x2`,
`0x4`, `0x6`, `0x8` (int8, int16, int32, int64), with or without the sign bit `0x1`,
give 1, 2, 4, 8; outside it, in the floating-point category, `0x2` (float) gives 4 and
`0x4`, `0x6` (double, long double) give 8; flags in neither category (octet, char,
wchar, boolean) give 1. The width is the one of the member's `position += w;` line.
With the sample encoding each named kind has the width of the table. -/
theorem width_table :
    (∀ (E : externals) (flags : Nat),
      (flags &&& E.IDL_INTEGER_TYPE = E.IDL_INTEGER_TYPE →
        ((flags &&& 0xf = 0x2 ∨ flags &&& 0xf = 0x3) → base_bytewidth E flags = 1) ∧
        ((flags &&& 0xf = 0x4 ∨ flags &&& 0xf = 0x5) → base_bytewidth E flags = 2) ∧
        ((flags &&& 0xf = 0x6 ∨ flags &&& 0xf = 0x7) → base_bytewidth E flags = 4) ∧
        ((flags &&& 0xf = 0x8 ∨ flags &&& 0xf = 0x9) → base_bytewidth E flags = 8)) ∧
      (flags &&& E.IDL_INTEGER_TYPE ≠ E.IDL_INTEGER_TYPE →
        flags &&& E.IDL_FLOATING_PT_TYPE = E.IDL_FLOATING_PT_TYPE →
        (flags &&& 0xf = 0x2 → base_bytewidth E flags = 4) ∧
        (flags &&& 0xf = 0x4 → base_bytewidth E flags = 8) ∧
        (flags &&& 0xf = 0x6 → base_bytewidth E flags = 8)) ∧
      (flags &&& E.IDL_INTEGER_TYPE ≠ E.IDL_INTEGER_TYPE →
        flags &&& E.IDL_FLOATING_PT_TYPE ≠ E.IDL_FLOATING_PT_TYPE →
        base_bytewidth E flags = 1)) ∧
    (∀ (E : externals) (ctx : context) (node : idl_node),
      ∃ before : String, (process_base E ctx node).1.write_size_stream.text =
        before ++ render ctx.depth
          [.advance (base_bytewidth E node.flags)
            (.bytes_for (E.get_cpp11_name node.declarator))]) ∧
    [IDL_OCTET, IDL_CHAR, IDL_WCHAR, IDL_BOOL, IDL_INT8, IDL_INT8 ||| IDL_UNSIGNED].map
      (base_bytewidth sample) = [1, 1, 1, 1, 1, 1] ∧
    [IDL_INT16, IDL_INT16 ||| IDL_UNSIGNED].map (base_bytewidth sample) = [2, 2] ∧
    [IDL_INT32, IDL_INT32 ||| IDL_UNSIGNED, IDL_FLOAT].map (base_bytewidth sample) =
      [4, 4, 4] ∧
    [IDL_INT64, IDL_INT64 ||| IDL_UNSIGNED, IDL_DOUBLE, IDL_LDOUBLE].map
      (base_bytewidth sample) = [8, 8, 8, 8] := by
  refine ⟨?_, process_base_member_line, by decide, by decide, by decide, by decide⟩
  intro E flags
  refine ⟨?_, ?_, ?_⟩
  · intro hi
    refine ⟨?_, ?_, ?_, ?_⟩ <;>
    · intro h
      rcases h with h | h <;> simp [base_bytewidth, hi, h]
  · intro hi hf
    refine ⟨?_, ?_, ?_⟩ <;>
    · intro h
      simp [base_bytewidth, hi, hf, h]
  · intro hi hf
    simp [base_bytewidth, hi, hf]

/-! ## What a struct with members emits, whatever the alignment state before it -/

theorem process_constructed_open_tracker (E : externals) (ctx1 ctx2 : context)
    (name : String)
    (hsame : ctx1.context = ctx2.context ∧ ctx1.header_stream = ctx2.header_stream ∧
      ctx1.write_size_stream = ctx2.write_size_stream ∧
      ctx1.write_stream = ctx2.write_stream ∧
      ctx1.read_size_stream = ctx2.read_size_stream ∧
      ctx1.read_stream = ctx2.read_stream ∧ ctx1.depth = ctx2.depth) :
    process_constructed_open E ctx1 name = process_constructed_open E ctx2 name := by
  cases ctx1
  cases ctx2
  simp only at hsame
  obtain ⟨h1, h2, h3, h4, h5, h6, h7⟩ := hsame
  subst h1 h2 h3 h4 h5 h6 h7
  rfl

/-- C24. A struct with at least one member, all children being member nodes, processed
at depth `d` with `sp` the run of `2 * d` spaces. The header file receives, after the
text waiting in the declaration stream, the four signatures `write_struct`,
`write_size`, `read_struct`, `<name>_read_size` in this order, each after `sp` and
followed by a semicolon and an empty line. The implementation file receives the four
procedures: each is its signature and an opening brace, for the two size procedures the
line setting `position` to `offset`, the lines of the members, then `return position;`
(write and read) or `return position-offset;` (sizes) and a closing brace. -/
theorem struct_emission (E : externals) (str : streamer_t) (ctx : context)
    (node first : idl_node) (name sp : String) (steps : List step)
    (hc : node.children = some first)
    (hmem : ∀ n ∈ first.chain, n.flags &&& E.IDL_MEMBER ≠ 0)
    (hname : name = E.get_cpp11_name node.name)
    (hsp : sp = spaces (2 * ctx.depth))
    (hsteps : steps = members_steps E (process_constructed_open E ctx node.name) first.chain) :
    (process_constructed E str ctx node).1.header_file =
      str.header_file ++
        (ctx.header_stream.text ++
          (sp ++ ("size_t write_struct(const " ++ name ++
              " &write, void *data, size_t position)") ++ ";\n\n" ++
            (sp ++ ("size_t write_size(const " ++ name ++ " &write, size_t offset)") ++
              ";\n\n") ++
            (sp ++ ("size_t read_struct(" ++ name ++ " &read, void *data, size_t position)") ++
              ";\n\n") ++
            (sp ++ ("size_t " ++ name ++ "_read_size(void *data, size_t offset)") ++
              ";\n\n"))) ∧
    (process_constructed E str ctx node).1.impl_file =
      str.impl_file ++
        (ctx.write_stream.text ++
          (sp ++ ("size_t write_struct(const " ++ name ++
              " &write, void *data, size_t position)") ++ "\n" ++
            (sp ++ "\x7b\n") ++
            render ctx.depth (write_body steps) ++
            (sp ++ "  return position;\n") ++
            (sp ++ "\x7d\n\n"))) ++
        (ctx.write_size_stream.text ++
          (sp ++ ("size_t write_size(const " ++ name ++ " &write, size_t offset)") ++ "\n" ++
            (sp ++ "\x7b\n") ++
            (sp ++ "  size_t position = offset;\n") ++
            render ctx.depth (write_size_body steps) ++
            (sp ++ "  return position-offset;\n") ++
            (sp ++ "\x7d\n\n"))) ++
        (ctx.read_stream.text ++
          (sp ++ ("size_t read_struct(" ++ name ++ " &read, void *data, size_t position)") ++
              "\n" ++
            (sp ++ "\x7b\n") ++
            render ctx.depth (read_body steps) ++
            (sp ++ "  return position;\n") ++
            (sp ++ "\x7d\n\n"))) ++
        (ctx.read_size_stream.text ++
          (sp ++ ("size_t " ++ name ++ "_read_size(void *data, size_t offset)") ++ "\n" ++
            (sp ++ "\x7b\n") ++
            (sp ++ "  size_t position = offset;\n") ++
            render ctx.depth (read_size_body steps) ++
            (sp ++ "  return position-offset;\n") ++
            (sp ++ "\x7d\n\n"))) := by
  subst hname hsp hsteps
  have h := process_constructed_files E str ctx node first hc hmem
  exact ⟨h.1, h.2.1⟩

/-- C25. Two contexts that agree in everything but the alignment state (tracked width,
accumulated bytes, alignment-variable flag): `process_constructed` sets that state to
(-1, 0, 0) before it walks the children, so for a struct with children it gives the
same files, the same final context and the same result from both. -/
theorem tracker_initialised (E : externals) (str : streamer_t) (ctx1 ctx2 : context)
    (node : idl_node)
    (hc : node.children ≠ none)
    (hsame : ctx1.context = ctx2.context ∧ ctx1.header_stream = ctx2.header_stream ∧
      ctx1.write_size_stream = ctx2.write_size_stream ∧
      ctx1.write_stream = ctx2.write_stream ∧
      ctx1.read_size_stream = ctx2.read_size_stream ∧
      ctx1.read_stream = ctx2.read_stream ∧ ctx1.depth = ctx2.depth) :
    (process_constructed_open E ctx1 node.name).currentalignment = -1 ∧
    (process_constructed_open E ctx1 node.name).accumulatedalignment = 0 ∧
    (process_constructed_open E ctx1 node.name).alignmentpresent = 0 ∧
    process_constructed_open E ctx1 node.name = process_constructed_open E ctx2 node.name ∧
    process_constructed E str ctx1 node = process_constructed E str ctx2 node := by
  have ho := process_constructed_open_tracker E ctx1 ctx2 node.name hsame
  have hs := process_constructed_open_state E ctx1 node.name
  refine ⟨hs.1, hs.2.1, hs.2.2, ho, ?_⟩
  cases hch : node.children with
  | none => exact absurd hch hc
  | some c =>
    simp only [process_constructed, hch, process_constructed_body, ho]

set_option maxRecDepth 100000 in
/-- C24 at `struct S { int32 a; };` processed at the root, depth 0: the header file holds
the four signatures, the implementation file the four procedures, and the write
procedure is the signature, the brace, the lines of `a`, `return position;` and the
brace. -/
theorem struct_int32_emitted :
    (struct_int32.children = some (member_node IDL_INT32 "a" none) ∧
      (∀ n ∈ (member_node IDL_INT32 "a" none).chain, n.flags &&& sample.IDL_MEMBER ≠ 0) ∧
      "S" = sample.get_cpp11_name struct_int32.name ∧
      "" = spaces (2 * root_context.depth) ∧
      [.align true 4 "a", .member 4 "a"] =
        members_steps sample (process_constructed_open sample root_context struct_int32.name)
          (member_node IDL_INT32 "a" none).chain) ∧
    (process_constructed sample no_text root_context struct_int32).1.header_file =
      "size_t write_struct(const S &write, void *data, size_t position);\n\n" ++
      "size_t write_size(const S &write, size_t offset);\n\n" ++
      "size_t read_struct(S &read, void *data, size_t position);\n\n" ++
      "size_t S_read_size(void *data, size_t offset);\n\n" ∧
    (process_constructed sample no_text root_context struct_int32).1.impl_file =
      no_text.impl_file ++
        (root_context.write_stream.text ++
          write_procedure 0 "S" (write_body [.align true 4 "a", .member 4 "a"])) ++
        (root_context.write_size_stream.text ++
          write_size_procedure 0 "S" (write_size_body [.align true 4 "a", .member 4 "a"])) ++
        (root_context.read_stream.text ++
          read_procedure 0 "S" (read_body [.align true 4 "a", .member 4 "a"])) ++
        (root_context.read_size_stream.text ++
          read_size_procedure 0 "S" (read_size_body [.align true 4 "a", .member 4 "a"])) ∧
    write_procedure 0 "S" (write_body [.align true 4 "a", .member 4 "a"]) =
      "size_t write_struct(const S &write, void *data, size_t position)\n" ++
      "\x7b\n" ++
      "  size_t alignmentbytes = (4 - position%4)%4;  //alignment for: a\n" ++
      "  memset(data+position,0x0,alignmentbytes);  //setting alignment bytes to 0x0\n" ++
      "  position += alignmentbytes;  //moving position indicator\n" ++
      "  memcpy(data+position,&write.a(),4);  //bytes for member: a\n" ++
      "  position += 4;  //moving position indicator\n" ++
      "  return position;\n" ++
      "\x7d\n\n" ∧
    read_size_procedure 0 "S" (read_size_body [.align true 4 "a", .member 4 "a"]) =
      "size_t S_read_size(void *data, size_t offset)\n" ++
      "\x7b\n" ++
      "  size_t position = offset;\n" ++
      "  position += (4 - position%4)%4;  //alignment for: a\n" ++
      "  position += 4;  //bytes for member: a\n" ++
      "  return position-offset;\n" ++
      "\x7d\n\n" :=
  ⟨⟨rfl, by decide, by decide, by decide, by decide⟩,
   (struct_emission sample no_text root_context struct_int32 (member_node IDL_INT32 "a" none)
      "S" "" [.align true 4 "a", .member 4 "a"]
      rfl (by decide) (by decide) (by decide) (by decide)).1.trans (by decide),
   (struct_emission sample no_text root_context struct_int32 (member_node IDL_INT32 "a" none)
      "S" "" [.align true 4 "a", .member 4 "a"]
      rfl (by decide) (by decide) (by decide) (by decide)).2,
   by decide, by decide⟩

set_option maxRecDepth 100000 in
/-- C25 at `struct S { int32 a; };`: processed from the fresh root context and from the
root context holding the alignment state (4, 5, 1), the outcome is the same. -/
theorem struct_int32_from_used_context :
    (struct_int32.children ≠ none ∧
      (root_context.context = root_context_used.context ∧
        root_context.header_stream = root_context_used.header_stream ∧
        root_context.write_size_stream = root_context_used.write_size_stream ∧
        root_context.write_stream = root_context_used.write_stream ∧
        root_context.read_size_stream = root_context_used.read_size_stream ∧
        root_context.read_stream = root_context_used.read_stream ∧
        root_context.depth = root_context_used.depth)) ∧
    root_context ≠ root_context_used ∧
    process_constructed sample no_text root_context struct_int32 =
      process_constructed sample no_text root_context_used struct_int32 :=
  ⟨⟨by simp [struct_int32, struct_node, idl_node.children], by decide⟩, by decide,
   (tracker_initialised sample no_text root_context root_context_used struct_int32
      (by simp [struct_int32, struct_node, idl_node.children]) (by decide)).2.2.2.2⟩

/-! ## The backend walk on nodes it has no case for -/

/-- C26. `cpp11_scope_walk` on a node whose category is neither `IDL_MODULE` nor
`IDL_CONSTR_TYPE` returns `IDL_RETCODE_INVALID_PARSETREE` and leaves the backend state
(and so the output) as it was; on a constructed type whose flags are not `IDL_STRUCT`
it returns `IDL_RETCODE_OK` and leaves the state as it was: neither callee runs. With
the sample backend a member node at scope level gives the invalid-tree result, a union
gives OK, both with the output unchanged, while a struct reaches `on_struct_open`. -/
theorem scope_walk_malformed :
    (∀ (β : Type) (B : backend_externals β) (ctx : β) (node : idl_node),
      (node.flags &&& B.IDL_CATEGORY_MASK ≠ B.IDL_MODULE →
        node.flags &&& B.IDL_CATEGORY_MASK ≠ B.IDL_CONSTR_TYPE →
        cpp11_scope_walk B ctx node = (ctx, idl_retcode_t.IDL_RETCODE_INVALID_PARSETREE)) ∧
      (node.flags &&& B.IDL_CATEGORY_MASK ≠ B.IDL_MODULE →
        node.flags &&& B.IDL_CATEGORY_MASK = B.IDL_CONSTR_TYPE →
        node.flags ≠ B.IDL_STRUCT →
        cpp11_scope_walk B ctx node = (ctx, idl_retcode_t.IDL_RETCODE_OK))) ∧
    cpp11_scope_walk sample_backend "text" (member_node IDL_INT32 "a" none) =
      ("text", idl_retcode_t.IDL_RETCODE_INVALID_PARSETREE) ∧
    cpp11_scope_walk sample_backend "text" (.mk IDL_UNION "U" "" none none) =
      ("text", idl_retcode_t.IDL_RETCODE_OK) ∧
    cpp11_scope_walk sample_backend "text" struct_int32 =
      ("textclass S \x7b\n", idl_retcode_t.IDL_RETCODE_OK) := by
  refine ⟨?_, by decide, by decide, by decide⟩
  intro β B ctx node
  refine ⟨?_, ?_⟩
  · intro hm hc
    simp only [cpp11_scope_walk, if_neg hm, if_neg hc]
  · intro hm hc hs
    simp only [cpp11_scope_walk, if_neg hm, if_pos hc, if_neg hs]

/-! ## The tracked width over a sequence of calls -/

theorem run_calls_append (E : externals) (ctx : context) (p q : List tracker_call) :
    run_calls E ctx (p ++ q) = run_calls E (run_calls E ctx p) q := by
  simp [run_calls]

theorem tracker_call_width (E : externals) (ctx : context) (c : tracker_call)
    (hv : c.valid E = true)
    (hc : ctx.currentalignment = -1 ∨ ctx.currentalignment = 2 ∨
      ctx.currentalignment = 4 ∨ ctx.currentalignment = 8) :
    (c.run E ctx).currentalignment = -1 ∨ (c.run E ctx).currentalignment = 2 ∨
      (c.run E ctx).currentalignment = 4 ∨ (c.run E ctx).currentalignment = 8 := by
  cases c with
  | nested node => exact Or.inl (process_instance_state E ctx node).1
  | base node =>
    simp only [tracker_call.valid, Bool.or_eq_true, beq_iff_eq] at hv
    simp only [tracker_call.run]
    rw [(process_base_state E ctx node).1]
    split_ifs with h
    · omega
    · exact hc

theorem run_calls_width (E : externals) (calls : List tracker_call) :
    ∀ ctx : context, (∀ c ∈ calls, c.valid E = true) →
      (ctx.currentalignment = -1 ∨ ctx.currentalignment = 2 ∨
        ctx.currentalignment = 4 ∨ ctx.currentalignment = 8) →
      ((run_calls E ctx calls).currentalignment = -1 ∨
        (run_calls E ctx calls).currentalignment = 2 ∨
        (run_calls E ctx calls).currentalignment = 4 ∨
        (run_calls E ctx calls).currentalignment = 8) := by
  induction calls with
  | nil => intro ctx _ h; exact h
  | cons c rest ih =>
    intro ctx hv h
    exact ih (c.run E ctx) (fun d hd => hv d (by simp [hd]))
      (tracker_call_width E ctx c (hv c (by simp)) h)

theorem process_members_calls (E : externals) (nodes : List idl_node) :
    ∀ ctx : context,
      process_members E ctx nodes = run_calls E ctx (nodes.filterMap (member_call E)) := by
  induction nodes with
  | nil => intro ctx; rfl
  | cons n rest ih =>
    intro ctx
    rw [process_members_cons, ih]
    by_cases h1 : n.flags &&& E.IDL_BASE_TYPE ≠ 0
    · simp [List.filterMap_cons, member_call, h1, run_calls, tracker_call.run,
        process_member]
    · by_cases h2 : n.flags &&& E.IDL_SCOPED_NAME ≠ 0
      · simp [List.filterMap_cons, member_call, h1, h2, run_calls, tracker_call.run,
          process_member]
      · simp [List.filterMap_cons, member_call, h1, h2, run_calls,
          process_member, process_template]

/-- C27. A sequence of `process_base` and `process_instance` calls, started with the
tracked width unknown (-1) as `process_constructed` sets it, every base type having a
computed width of 1, 2, 4 or 8. After every prefix of the sequence the tracked width is
-1, 2, 4 or 8. A `process_base` call for width `w` changes it only when it is unknown
and `w > 1`, and then to `w`; when it is unknown and `w = 1` it stays unknown; when it
is known it stays as it is, whatever `w`. A `process_instance` call leaves it unknown.
The calls `process_member` makes over a member list form such a sequence. -/
theorem tracked_width_invariant (E : externals) (ctx : context) (calls : List tracker_call)
    (hstart : ctx.currentalignment = -1)
    (hvalid : ∀ c ∈ calls, c.valid E = true) :
    (∀ pre post : List tracker_call, calls = pre ++ post →
      ((run_calls E ctx pre).currentalignment = -1 ∨
        (run_calls E ctx pre).currentalignment = 2 ∨
        (run_calls E ctx pre).currentalignment = 4 ∨
        (run_calls E ctx pre).currentalignment = 8)) ∧
    (∀ (pre post : List tracker_call) (node : idl_node),
      calls = pre ++ .base node :: post →
      ((run_calls E ctx pre).currentalignment = -1 → 1 < base_bytewidth E node.flags →
        (run_calls E ctx (pre ++ [.base node])).currentalignment =
          (base_bytewidth E node.flags : Int)) ∧
      ((run_calls E ctx pre).currentalignment = -1 → base_bytewidth E node.flags = 1 →
        (run_calls E ctx (pre ++ [.base node])).currentalignment = -1) ∧
      ((run_calls E ctx pre).currentalignment ≠ -1 →
        (run_calls E ctx (pre ++ [.base node])).currentalignment =
          (run_calls E ctx pre).currentalignment)) ∧
    (∀ (pre post : List tracker_call) (node : idl_node),
      calls = pre ++ .nested node :: post →
      (run_calls E ctx (pre ++ [.nested node])).currentalignment = -1) ∧
    (∀ (c : context) (nodes : List idl_node),
      process_members E c nodes = run_calls E c (nodes.filterMap (member_call E))) := by
  have hinv : ∀ pre post : List tracker_call, calls = pre ++ post →
      ((run_calls E ctx pre).currentalignment = -1 ∨
        (run_calls E ctx pre).currentalignment = 2 ∨
        (run_calls E ctx pre).currentalignment = 4 ∨
        (run_calls E ctx pre).currentalignment = 8) := by
    intro pre post h
    exact run_calls_width E pre ctx (fun c hc => hvalid c (by simp [h, hc])) (Or.inl hstart)
  refine ⟨hinv, ?_, ?_, fun c nodes => process_members_calls E nodes c⟩
  · intro pre post node h
    have hp := hinv pre _ h
    have hst := (process_base_state E (run_calls E ctx pre) node).1
    have hrun : run_calls E ctx (pre ++ [.base node]) =
        (process_base E (run_calls E ctx pre) node).1 := by
      rw [run_calls_append]
      rfl
    rw [hrun, hst]
    refine ⟨?_, ?_, ?_⟩
    · intro hu hw
      rw [if_pos ⟨by omega, by omega, by omega⟩]
    · intro hu hw
      rw [if_neg (fun hx => hx.2.2 hw)]
      exact hu
    · intro hk
      rw [if_neg (fun hx => by omega)]
  · intro pre post node _
    rw [run_calls_append]
    exact (process_instance_state E (run_calls E ctx pre) node).1

set_option maxRecDepth 100000 in
/-- C27 at `struct S { int8 a; int32 b; int64 c; Inner d; int16 e; };`: the tracked width
after each prefix is -1, -1, 4, 4, -1, 2; in particular the `int64` member `c`, met with
the width 4 known, leaves it at 4. -/
theorem tracked_width_at_1_4_8_nested_2 :
    (at_first_member.currentalignment = -1 ∧
      ∀ c ∈ calls_1_4_8_nested_2, c.valid sample = true) ∧
    (run_calls sample at_first_member
        ([.base (member_node IDL_INT8 "a" none), .base (member_node IDL_INT32 "b" none)] ++
          [.base (member_node IDL_INT64 "c" none)])).currentalignment =
      (run_calls sample at_first_member
        [.base (member_node IDL_INT8 "a" none),
          .base (member_node IDL_INT32 "b" none)]).currentalignment ∧
    (List.range 6).map (fun k =>
        (run_calls sample at_first_member (calls_1_4_8_nested_2.take k)).currentalignment) =
      [-1, -1, 4, 4, -1, 2] :=
  ⟨⟨by decide, by decide⟩,
   ((tracked_width_invariant sample at_first_member calls_1_4_8_nested_2
      (by decide) (by decide)).2.1
      [.base (member_node IDL_INT8 "a" none), .base (member_node IDL_INT32 "b" none)]
      [.nested (member_node sample.IDL_SCOPED_NAME "d" none),
        .base (member_node IDL_INT16 "e" none)]
      (member_node IDL_INT64 "c" none) rfl).2.2 (by decide),
   by decide⟩

/-! ## The alignment variable is declared once, before its uses -/

theorem member_alignment_cases (E : externals) (ctx : context) (node : idl_node) :
    ((∀ s ∈ member_steps E ctx node, s.declares = none) ∧
      (process_member E ctx node).1.alignmentpresent = ctx.alignmentpresent) ∨
    (∃ (w : Nat) (name : String),
      member_steps E ctx node =
        [.align (decide (0 = ctx.alignmentpresent)) w name, .member w name] ∧
      (process_member E ctx node).1.alignmentpresent =
        (if 0 = ctx.alignmentpresent then 1 else ctx.alignmentpresent)) := by
  unfold member_steps process_member
  by_cases h1 : node.flags &&& E.IDL_BASE_TYPE ≠ 0
  · simp only [if_pos h1]
    have hst := (process_base_state E ctx node).2.2
    by_cases hc : ctx.currentalignment ≠ (base_bytewidth E node.flags : Int) ∧
        (0 > ctx.currentalignment ∧ base_bytewidth E node.flags ≠ 1)
    · right
      refine ⟨base_bytewidth E node.flags, E.get_cpp11_name node.declarator, ?_, ?_⟩
      · unfold base_steps
        simp only [if_pos hc.1, if_pos hc.2]
        rfl
      · rw [hst, if_pos hc]
    · left
      refine ⟨?_, ?_⟩
      · intro s hs
        unfold base_steps at hs
        by_cases ha : ctx.currentalignment ≠ (base_bytewidth E node.flags : Int)
        · have hb : ¬ (0 > ctx.currentalignment ∧ base_bytewidth E node.flags ≠ 1) :=
            fun hx => hc ⟨ha, hx⟩
          simp only [if_pos ha, if_neg hb] at hs
          split_ifs at hs
          · simp only [List.singleton_append, List.mem_cons, List.mem_singleton,
              List.not_mem_nil, or_false] at hs
            rcases hs with rfl | rfl <;> rfl
          · simp only [List.nil_append, List.mem_singleton] at hs
            subst hs
            rfl
        · simp only [if_neg ha, List.nil_append, List.mem_singleton] at hs
          subst hs
          rfl
      · rw [hst, if_neg hc]
  · left
    simp only [if_neg h1]
    by_cases h2 : node.flags &&& E.IDL_SCOPED_NAME ≠ 0
    · simp only [if_pos h2]
      refine ⟨?_, (process_instance_state E ctx node).2.2⟩
      intro s hs
      simp only [List.mem_singleton] at hs
      subst hs
      rfl
    · simp only [if_neg h2]
      refine ⟨fun s hs => by simp at hs, ?_⟩
      by_cases h3 : node.flags &&& E.IDL_TEMPL_TYPE ≠ 0
      · simp only [if_pos h3, process_template]
      · simp only [if_neg h3]

theorem well_declared_neutral (steps : List step) :
    (∀ s ∈ steps, s.declares = none) → ∀ (b : Bool) (rest : List instr),
      well_declared b (write_body steps ++ rest) = well_declared b rest ∧
      well_declared b (read_body steps ++ rest) = well_declared b rest := by
  induction steps with
  | nil => intro _ b rest; exact ⟨rfl, rfl⟩
  | cons s more ih =>
    intro h b rest
    have hs := h s (by simp)
    have hm := ih (fun t ht => h t (by simp [ht])) b rest
    cases s with
    | align d w name => simp [step.declares] at hs
    | pad n name =>
      simp only [write_body, read_body, List.flatMap_cons, step.write, step.read,
        List.cons_append, List.nil_append, well_declared, List.append_assoc]
      exact hm
    | member w name =>
      simp only [write_body, read_body, List.flatMap_cons, step.write, step.read,
        List.cons_append, List.nil_append, well_declared, List.append_assoc]
      exact hm
    | delegate name =>
      simp only [write_body, read_body, List.flatMap_cons, step.write, step.read,
        List.cons_append, List.nil_append, well_declared, List.append_assoc]
      exact hm

theorem filterMap_declares_none (steps : List step)
    (h : ∀ s ∈ steps, s.declares = none) : steps.filterMap step.declares = [] := by
  induction steps with
  | nil => rfl
  | cons s more ih =>
    rw [List.filterMap_cons, h s (by simp)]
    exact ih (fun t ht => h t (by simp [ht]))

theorem members_steps_declared (E : externals) (nodes : List idl_node) :
    ∀ ctx : context, ctx.alignmentpresent ≠ 0 →
      (∀ b ∈ (members_steps E ctx nodes).filterMap step.declares, b = false) ∧
      well_declared true (write_body (members_steps E ctx nodes)) = true ∧
      well_declared true (read_body (members_steps E ctx nodes)) = true := by
  induction nodes with
  | nil =>
    intro ctx _
    exact ⟨fun b hb => by simp [members_steps] at hb, rfl, rfl⟩
  | cons n rest ih =>
    intro ctx hp
    simp only [members_steps, List.filterMap_append, write_body_append, read_body_append]
    rcases member_alignment_cases E ctx n with ⟨hnone, hsame⟩ | ⟨w, name, hsteps, hnew⟩
    · have hr := ih (process_member E ctx n).1 (by rw [hsame]; exact hp)
      have hn := well_declared_neutral _ hnone
      rw [filterMap_declares_none _ hnone, (hn true _).1, (hn true _).2]
      exact ⟨fun b hb => hr.1 b (by simpa using hb), hr.2.1, hr.2.2⟩
    · have h0 : ¬ (0 = ctx.alignmentpresent) := fun h => hp h.symm
      have hr := ih (process_member E ctx n).1 (by rw [hnew, if_neg h0]; exact hp)
      rw [hsteps, decide_eq_false h0]
      refine ⟨?_, ?_, ?_⟩
      · intro b hb
        simp only [List.filterMap_cons, step.declares, List.filterMap_nil,
          List.singleton_append, List.mem_cons] at hb
        rcases hb with rfl | hb
        · rfl
        · exact hr.1 b hb
      · simp only [write_body, List.flatMap_cons, List.flatMap_nil, step.write,
          List.cons_append, List.nil_append, List.append_nil, well_declared, Bool.true_and]
        exact hr.2.1
      · simp only [read_body, List.flatMap_cons, List.flatMap_nil, step.read,
          List.cons_append, List.nil_append, List.append_nil, well_declared, Bool.true_and]
        exact hr.2.2

theorem members_steps_undeclared (E : externals) (nodes : List idl_node) :
    ∀ ctx : context, ctx.alignmentpresent = 0 →
      ((members_steps E ctx nodes).filterMap step.declares = [] ∨
        ∃ k : Nat, (members_steps E ctx nodes).filterMap step.declares =
          true :: List.replicate k false) ∧
      well_declared false (write_body (members_steps E ctx nodes)) = true ∧
      well_declared false (read_body (members_steps E ctx nodes)) = true := by
  induction nodes with
  | nil =>
    intro ctx _
    exact ⟨Or.inl rfl, rfl, rfl⟩
  | cons n rest ih =>
    intro ctx hp
    simp only [members_steps, List.filterMap_append, write_body_append, read_body_append]
    rcases member_alignment_cases E ctx n with ⟨hnone, hsame⟩ | ⟨w, name, hsteps, hnew⟩
    · have hr := ih (process_member E ctx n).1 (by rw [hsame]; exact hp)
      have hn := well_declared_neutral _ hnone
      rw [filterMap_declares_none _ hnone, (hn false _).1, (hn false _).2]
      exact ⟨by simpa using hr.1, hr.2.1, hr.2.2⟩
    · have h0 : 0 = ctx.alignmentpresent := hp.symm
      have hr := members_steps_declared E rest (process_member E ctx n).1
        (by rw [hnew, if_pos h0]; decide)
      rw [hsteps, decide_eq_true h0]
      refine ⟨Or.inr ⟨((members_steps E (process_member E ctx n).1 rest).filterMap
          step.declares).length, ?_⟩, ?_, ?_⟩
      · simp only [List.filterMap_cons, step.declares, List.filterMap_nil,
          List.singleton_append, List.cons.injEq, true_and]
        exact List.eq_replicate_iff.mpr ⟨rfl, hr.1⟩
      · simp only [write_body, List.flatMap_cons, List.flatMap_nil, step.write,
          List.cons_append, List.nil_append, List.append_nil, well_declared, Bool.true_and,
          Bool.not_false]
        exact hr.2.1
      · simp only [read_body, List.flatMap_cons, List.flatMap_nil, step.read,
          List.cons_append, List.nil_append, List.append_nil, well_declared, Bool.true_and,
          Bool.not_false]
        exact hr.2.2

/-- C28. The members of one struct, processed from a context in which no alignment
variable is declared yet (the flag is 0, as `process_constructed` sets it). Among the
run-time alignments of the struct the first has the declaring form and all later ones
the assigning form, nested-instance members in between or not. The write body and the
read body, which are the rendered lines of these steps, declare `alignmentbytes` at
most once and before every line that assigns or reads it. -/
theorem alignment_variable_declared_once (E : externals) (ctx : context)
    (nodes : List idl_node) (hstart : ctx.alignmentpresent = 0) :
    ((members_steps E ctx nodes).filterMap step.declares = [] ∨
      ∃ k : Nat, (members_steps E ctx nodes).filterMap step.declares =
        true :: List.replicate k false) ∧
    well_declared false (write_body (members_steps E ctx nodes)) = true ∧
    well_declared false (read_body (members_steps E ctx nodes)) = true ∧
    (process_members E ctx nodes).write_stream.text =
      ctx.write_stream.text ++ render ctx.depth (write_body (members_steps E ctx nodes)) ∧
    (process_members E ctx nodes).read_stream.text =
      ctx.read_stream.text ++ render ctx.depth (read_body (members_steps E ctx nodes)) ∧
    (∀ (w : Nat) (name : String),
      step.write (.align true w name) =
        [.declare_alignment w name, .zero_alignment, .skip_alignment] ∧
      step.write (.align false w name) =
        [.assign_alignment w name, .zero_alignment, .skip_alignment] ∧
      step.read (.align true w name) = [.declare_alignment w name, .skip_alignment] ∧
      step.read (.align false w name) = [.assign_alignment w name, .skip_alignment] ∧
      instr.line (.declare_alignment w name) =
        "  size_t alignmentbytes = " ++ generatealignment w ++ "  //alignment for: " ++
          name ++ "\n" ∧
      instr.line (.assign_alignment w name) =
        "  alignmentbytes = " ++ generatealignment w ++ "  //alignment for: " ++
          name ++ "\n") ∧
    (∀ (c : context) (name : String),
      (process_constructed_open E c name).alignmentpresent = 0) := by
  have h := members_steps_undeclared E nodes ctx hstart
  exact ⟨h.1, h.2.1, h.2.2, process_members_write_text E nodes ctx,
    process_members_read_text E nodes ctx,
    fun w name => ⟨rfl, rfl, rfl, rfl, rfl, rfl⟩,
    fun c name => (process_constructed_open_state E c name).2.2⟩

set_option maxRecDepth 100000 in
/-- C28 at `struct S { int32 a; Inner b; int8 c; int64 d; Inner e; int16 f; };`: the
run-time alignments of `a`, `d` and `f` are declaring, assigning, assigning, and both
bodies pass the check. -/
theorem declared_once_with_instances :
    at_first_member.alignmentpresent = 0 ∧
    (members_steps sample at_first_member members_with_instances.chain).filterMap
        step.declares = [true, false, false] ∧
    well_declared false
      (write_body (members_steps sample at_first_member members_with_instances.chain)) = true ∧
    well_declared false
      (read_body (members_steps sample at_first_member members_with_instances.chain)) = true :=
  ⟨by decide, by decide,
   (alignment_variable_declared_once sample at_first_member members_with_instances.chain
      (by decide)).2.1,
   (alignment_variable_declared_once sample at_first_member members_with_instances.chain
      (by decide)).2.2.1⟩

/-! ## Formatting: `sprintf` over the format strings, and the buffer sizes -/

theorem sprintf_struct_write_func_fmt (s : String) :
    sprintf raw.struct_write_func_fmt [.str s] = struct_write_func_fmt s ∧
    (sprintf raw.struct_write_func_fmt [.str s]).length + 2 = raw.struct_write_func_fmt.length + s.length := by
  have h : sprintf raw.struct_write_func_fmt [.str s] =
      "size_t write_struct(const " ++ (s ++ " &write, void *data, size_t position)") := rfl
  have h1 : "size_t write_struct(const ".length = 26 := by decide
  have h2 : " &write, void *data, size_t position)".length = 37 := by decide
  have h3 : raw.struct_write_func_fmt.length = 65 := by decide
  refine ⟨?_, ?_⟩
  · rw [h]
    simp [struct_write_func_fmt, String.append_assoc]
  · rw [h, h3, String.length_append, String.length_append, h1, h2]
    omega

theorem sprintf_instance_write_func_fmt (s : String) :
    sprintf raw.instance_write_func_fmt [.str s] = instance_write_func_fmt s ∧
    (sprintf raw.instance_write_func_fmt [.str s]).length + 2 = raw.instance_write_func_fmt.length + s.length := by
  have h : sprintf raw.instance_write_func_fmt [.str s] =
      "  position = write_struct(write." ++ (s ++ "(), data, position);\n") := rfl
  have h1 : "  position = write_struct(write.".length = 32 := by decide
  have h2 : "(), data, position);\n".length = 21 := by decide
  have h3 : raw.instance_write_func_fmt.length = 55 := by decide
  refine ⟨?_, ?_⟩
  · rw [h]
    simp [instance_write_func_fmt, String.append_assoc]
  · rw [h, h3, String.length_append, String.length_append, h1, h2]
    omega

theorem sprintf_namespace_declaration_fmt (s : String) :
    sprintf raw.namespace_declaration_fmt [.str s] = namespace_declaration_fmt s ∧
    (sprintf raw.namespace_declaration_fmt [.str s]).length + 2 = raw.namespace_declaration_fmt.length + s.length := by
  have h : sprintf raw.namespace_declaration_fmt [.str s] =
      "namespace " ++ (s ++ "\n") := rfl
  have h1 : "namespace ".length = 10 := by decide
  have h2 : "\n".length = 1 := by decide
  have h3 : raw.namespace_declaration_fmt.length = 13 := by decide
  refine ⟨?_, ?_⟩
  · rw [h]
    simp [namespace_declaration_fmt, String.append_assoc]
  · rw [h, h3, String.length_append, String.length_append, h1, h2]
    omega

theorem sprintf_struct_write_size_func_fmt (s : String) :
    sprintf raw.struct_write_size_func_fmt [.str s] = struct_write_size_func_fmt s ∧
    (sprintf raw.struct_write_size_func_fmt [.str s]).length + 2 = raw.struct_write_size_func_fmt.length + s.length := by
  have h : sprintf raw.struct_write_size_func_fmt [.str s] =
      "size_t write_size(const " ++ (s ++ " &write, size_t offset)") := rfl
  have h1 : "size_t write_size(const ".length = 24 := by decide
  have h2 : " &write, size_t offset)".length = 23 := by decide
  have h3 : raw.struct_write_size_func_fmt.length = 49 := by decide
  refine ⟨?_, ?_⟩
  · rw [h]
    simp [struct_write_size_func_fmt, String.append_assoc]
  · rw [h, h3, String.length_append, String.length_append, h1, h2]
    omega

theorem sprintf_instance_size_func_calc_fmt (s : String) :
    sprintf raw.instance_size_func_calc_fmt [.str s] = instance_size_func_calc_fmt s ∧
    (sprintf raw.instance_size_func_calc_fmt [.str s]).length + 2 = raw.instance_size_func_calc_fmt.length + s.length := by
  have h : sprintf raw.instance_size_func_calc_fmt [.str s] =
      "  position += write_size(write." ++ (s ++ "(), position);\n") := rfl
  have h1 : "  position += write_size(write.".length = 31 := by decide
  have h2 : "(), position);\n".length = 15 := by decide
  have h3 : raw.instance_size_func_calc_fmt.length = 48 := by decide
  refine ⟨?_, ?_⟩
  · rw [h]
    simp [instance_size_func_calc_fmt, String.append_assoc]
  · rw [h, h3, String.length_append, String.length_append, h1, h2]
    omega

theorem sprintf_struct_read_func_fmt (s : String) :
    sprintf raw.struct_read_func_fmt [.str s] = struct_read_func_fmt s ∧
    (sprintf raw.struct_read_func_fmt [.str s]).length + 2 = raw.struct_read_func_fmt.length + s.length := by
  have h : sprintf raw.struct_read_func_fmt [.str s] =
      "size_t read_struct(" ++ (s ++ " &read, void *data, size_t position)") := rfl
  have h1 : "size_t read_struct(".length = 19 := by decide
  have h2 : " &read, void *data, size_t position)".length = 36 := by decide
  have h3 : raw.struct_read_func_fmt.length = 57 := by decide
  refine ⟨?_, ?_⟩
  · rw [h]
    simp [struct_read_func_fmt, String.append_assoc]
  · rw [h, h3, String.length_append, String.length_append, h1, h2]
    omega

theorem sprintf_struct_read_size_func_fmt (s : String) :
    sprintf raw.struct_read_size_func_fmt [.str s] = struct_read_size_func_fmt s ∧
    (sprintf raw.struct_read_size_func_fmt [.str s]).length + 2 = raw.struct_read_size_func_fmt.length + s.length := by
  have h : sprintf raw.struct_read_size_func_fmt [.str s] =
      "size_t " ++ (s ++ "_read_size(void *data, size_t offset)") := rfl
  have h1 : "size_t ".length = 7 := by decide
  have h2 : "_read_size(void *data, size_t offset)".length = 37 := by decide
  have h3 : raw.struct_read_size_func_fmt.length = 46 := by decide
  refine ⟨?_, ?_⟩
  · rw [h]
    simp [struct_read_size_func_fmt, String.append_assoc]
  · rw [h, h3, String.length_append, String.length_append, h1, h2]
    omega

theorem sprintf_struct_read_size_func_call_fmt (s : String) :
    sprintf raw.struct_read_size_func_call_fmt [.str s] = struct_read_size_func_call_fmt s ∧
    (sprintf raw.struct_read_size_func_call_fmt [.str s]).length + 2 = raw.struct_read_size_func_call_fmt.length + s.length := by
  have h : sprintf raw.struct_read_size_func_call_fmt [.str s] =
      "  position += " ++ (s ++ "_read_size(data, position);\n") := rfl
  have h1 : "  position += ".length = 14 := by decide
  have h2 : "_read_size(data, position);\n".length = 28 := by decide
  have h3 : raw.struct_read_size_func_call_fmt.length = 44 := by decide
  refine ⟨?_, ?_⟩
  · rw [h]
    simp [struct_read_size_func_call_fmt, String.append_assoc]
  · rw [h, h3, String.length_append, String.length_append, h1, h2]
    omega

theorem sprintf_instance_read_func_fmt (s : String) :
    sprintf raw.instance_read_func_fmt [.str s] = instance_read_func_fmt s ∧
    (sprintf raw.instance_read_func_fmt [.str s]).length + 2 = raw.instance_read_func_fmt.length + s.length := by
  have h : sprintf raw.instance_read_func_fmt [.str s] =
      "  position = read_struct(write." ++ (s ++ "(), data, position);\n") := rfl
  have h1 : "  position = read_struct(write.".length = 31 := by decide
  have h2 : "(), data, position);\n".length = 21 := by decide
  have h3 : raw.instance_read_func_fmt.length = 54 := by decide
  refine ⟨?_, ?_⟩
  · rw [h]
    simp [instance_read_func_fmt, String.append_assoc]
  · rw [h, h3, String.length_append, String.length_append, h1, h2]
    omega

theorem sprintf_primitive_write_func_write_fmt (s : String) (n : Nat) :
    sprintf raw.primitive_write_func_write_fmt [.str s, .int n] = primitive_write_func_write_fmt s n ∧
    (sprintf raw.primitive_write_func_write_fmt [.str s, .int n]).length + 4 =
      raw.primitive_write_func_write_fmt.length + s.length + (fmt_d n).length := by
  have h : sprintf raw.primitive_write_func_write_fmt [.str s, .int n] =
      "  memcpy(data+position,&write." ++ (s ++ ("()," ++ (fmt_d n ++ ");"))) := rfl
  have h1 : "  memcpy(data+position,&write.".length = 30 := by decide
  have h2 : "(),".length = 3 := by decide
  have h3 : ");".length = 2 := by decide
  have h4 : raw.primitive_write_func_write_fmt.length = 39 := by decide
  refine ⟨?_, ?_⟩
  · rw [h]
    simp [primitive_write_func_write_fmt, String.append_assoc]
  · rw [h, h4, String.length_append, String.length_append, String.length_append,
      String.length_append, h1, h2, h3]
    omega

theorem sprintf_primitive_read_func_read_fmt (s : String) (n : Nat) :
    sprintf raw.primitive_read_func_read_fmt [.str s, .int n] = primitive_read_func_read_fmt s n ∧
    (sprintf raw.primitive_read_func_read_fmt [.str s, .int n]).length + 4 =
      raw.primitive_read_func_read_fmt.length + s.length + (fmt_d n).length := by
  have h : sprintf raw.primitive_read_func_read_fmt [.str s, .int n] =
      "  memcpy(&read." ++ (s ++ ("() data+position," ++ (fmt_d n ++ ");"))) := rfl
  have h1 : "  memcpy(&read.".length = 15 := by decide
  have h2 : "() data+position,".length = 17 := by decide
  have h3 : ");".length = 2 := by decide
  have h4 : raw.primitive_read_func_read_fmt.length = 38 := by decide
  refine ⟨?_, ?_⟩
  · rw [h]
    simp [primitive_read_func_read_fmt, String.append_assoc]
  · rw [h, h4, String.length_append, String.length_append, String.length_append,
      String.length_append, h1, h2, h3]
    omega

theorem sprintf_primitive_write_func_padding_fmt (n : Nat) :
    sprintf raw.primitive_write_func_padding_fmt [.int n] =
      primitive_write_func_padding_fmt n ∧
    (sprintf raw.primitive_write_func_padding_fmt [.int n]).length + 2 =
      raw.primitive_write_func_padding_fmt.length + (fmt_d n).length := by
  have h : sprintf raw.primitive_write_func_padding_fmt [.int n] =
      "  memset(data+position,0x0," ++ (fmt_d n ++ ");  //setting padding bytes to 0x0\n") := rfl
  have h1 : "  memset(data+position,0x0,".length = 27 := by decide
  have h2 : ");  //setting padding bytes to 0x0\n".length = 35 := by decide
  have h3 : raw.primitive_write_func_padding_fmt.length = 64 := by decide
  refine ⟨?_, ?_⟩
  · rw [h]
    simp [primitive_write_func_padding_fmt, String.append_assoc]
  · rw [h, h3, String.length_append, String.length_append, h1, h2]
    omega

theorem sprintf_primitive_incr_pos (n : Nat) :
    sprintf raw.primitive_incr_pos [.int n] = primitive_incr_pos n ∧
    (sprintf raw.primitive_incr_pos [.int n]).length + 2 =
      raw.primitive_incr_pos.length + (fmt_d n).length := by
  have h : sprintf raw.primitive_incr_pos [.int n] =
      "  position += " ++ (fmt_d n ++ ";") := rfl
  have h1 : "  position += ".length = 14 := by decide
  have h2 : ";".length = 1 := by decide
  have h3 : raw.primitive_incr_pos.length = 17 := by decide
  refine ⟨?_, ?_⟩
  · rw [h]
    simp [primitive_incr_pos, String.append_assoc]
  · rw [h, h3, String.length_append, String.length_append, h1, h2]
    omega

theorem sprintf_primitive_calc_alignment_fmt (a b c : Nat) :
    sprintf raw.primitive_calc_alignment_fmt [.int a, .int b, .int c] =
      primitive_calc_alignment_fmt a b c := by
  have h : sprintf raw.primitive_calc_alignment_fmt [.int a, .int b, .int c] =
      "(" ++ (fmt_d a ++ (" - position%" ++ (fmt_d b ++ (")%" ++ (fmt_d c ++ ";"))))) := rfl
  rw [h]
  simp [primitive_calc_alignment_fmt, String.append_assoc]

theorem generatealignment_formatting_text (alignto : Nat) :
    (generatealignment_formatting alignto).text = generatealignment alignto := by
  unfold generatealignment_formatting generatealignment
  split_ifs
  · rfl
  · rfl
  · exact sprintf_primitive_calc_alignment_fmt alignto alignto alignto

theorem fmt_d_one_digit (n : Nat) (h : n < 10) : (fmt_d n).length = 1 := by
  interval_cases n <;> rfl

theorem raw_lengths :
    raw.struct_write_func_fmt.length = 65 ∧
    raw.instance_write_func_fmt.length = 55 ∧
    raw.namespace_declaration_fmt.length = 13 ∧
    raw.struct_write_size_func_fmt.length = 49 ∧
    raw.instance_size_func_calc_fmt.length = 48 ∧
    raw.struct_read_func_fmt.length = 57 ∧
    raw.struct_read_size_func_fmt.length = 46 ∧
    raw.struct_read_size_func_call_fmt.length = 44 ∧
    raw.instance_read_func_fmt.length = 54 ∧
    raw.primitive_write_func_write_fmt.length = 39 ∧
    raw.primitive_read_func_read_fmt.length = 38 ∧
    raw.primitive_write_func_padding_fmt.length = 64 ∧
    raw.primitive_incr_pos.length = 17 := by
  decide

theorem fits_iff (f : formatting) : f.fits = true ↔ f.text.length + 1 ≤ f.bufsize := by
  simp [formatting.fits]

theorem process_instance_formattings_fit (name : String) :
    ∀ f ∈ process_instance_formattings name ++ process_module_formattings name ++
      process_constructed_formattings name, f.fits = true := by
  obtain ⟨l1, l2, l3, l4, l5, l6, l7, l8, l9, _⟩ := raw_lengths
  have s1 := (sprintf_struct_write_func_fmt name).2
  have s2 := (sprintf_instance_write_func_fmt name).2
  have s3 := (sprintf_namespace_declaration_fmt name).2
  have s4 := (sprintf_struct_write_size_func_fmt name).2
  have s5 := (sprintf_instance_size_func_calc_fmt name).2
  have s6 := (sprintf_struct_read_func_fmt name).2
  have s7 := (sprintf_struct_read_size_func_fmt name).2
  have s8 := (sprintf_struct_read_size_func_call_fmt name).2
  have s9 := (sprintf_instance_read_func_fmt name).2
  intro f hf
  simp only [process_instance_formattings, process_module_formattings,
    process_constructed_formattings, List.cons_append, List.nil_append, List.mem_cons,
    List.mem_singleton, List.not_mem_nil, or_false] at hf
  rw [fits_iff]
  rcases hf with rfl | rfl | rfl | rfl | rfl | rfl | rfl | rfl | rfl <;>
    simp only <;> omega

theorem process_base_formattings_fit (ctx : context) (w : Nat) (name : String)
    (hw : w = 1 ∨ w = 2 ∨ w = 4 ∨ w = 8) :
    ∀ f ∈ process_base_formattings ctx w name, f.line ≠ 625 → f.fits = true := by
  obtain ⟨_, _, _, _, _, _, _, _, _, l10, l11, _, l13⟩ := raw_lengths
  have hd : (fmt_d w).length = 1 := fmt_d_one_digit w (by omega)
  have s10 := (sprintf_primitive_write_func_write_fmt name w).2
  have s11 := (sprintf_primitive_read_func_read_fmt name w).2
  have s13 := (sprintf_primitive_incr_pos w).2
  have hmiss : (fmt_d ((w - ctx.accumulatedalignment % w) % w)).length = 1 := by
    apply fmt_d_one_digit
    have : (w - ctx.accumulatedalignment % w) % w < w := Nat.mod_lt _ (by omega)
    omega
  have s13m := (sprintf_primitive_incr_pos ((w - ctx.accumulatedalignment % w) % w)).2
  intro f hf hline
  unfold process_base_formattings at hf
  rw [List.mem_append] at hf
  rcases hf with hf | hf
  · by_cases h1 : ctx.currentalignment ≠ (w : Int)
    · by_cases h2 : 0 > ctx.currentalignment ∧ w ≠ 1
      · simp only [if_pos h1, if_pos h2, List.mem_singleton] at hf
        subst hf
        rcases hw with rfl | rfl | rfl | rfl
        · exact absurd rfl h2.2
        · decide
        · decide
        · decide
      · simp only [if_pos h1, if_neg h2] at hf
        split_ifs at hf
        · simp only [List.mem_cons, List.mem_singleton, List.not_mem_nil, or_false] at hf
          rcases hf with rfl | rfl
          · exact absurd rfl hline
          · rw [fits_iff]
            simp only [incr_pos_formatting]
            omega
        · simp at hf
    · simp only [if_neg h1] at hf
      simp at hf
  · simp only [List.mem_cons, List.mem_singleton, List.not_mem_nil, or_false] at hf
    rw [fits_iff]
    rcases hf with rfl | rfl | rfl
    · simp only [write_formatting]
      omega
    · simp only [read_formatting]
      omega
    · simp only [incr_pos_formatting]
      omega

theorem pad_step_is_formatted (ctx : context) (w n : Nat) (name who : String)
    (h : step.pad n who ∈ base_steps ctx w name) :
    padding_formatting n ∈ process_base_formattings ctx w name := by
  unfold base_steps at h
  unfold process_base_formattings
  by_cases h1 : ctx.currentalignment ≠ (w : Int)
  · by_cases h2 : 0 > ctx.currentalignment ∧ w ≠ 1
    · simp only [if_pos h1, if_pos h2] at h
      simp at h
    · simp only [if_pos h1, if_neg h2] at h ⊢
      by_cases h3 : 0 ≠ (w - ctx.accumulatedalignment % w) % w
      · simp only [if_pos h3] at h ⊢
        simp only [List.singleton_append, List.mem_cons, step.pad.injEq, List.mem_singleton,
          List.not_mem_nil, or_false, reduceCtorEq] at h
        rw [h.1]
        simp
      · simp only [if_neg h3] at h
        simp at h
  · simp only [if_neg h1] at h
    simp at h

set_option maxRecDepth 100000 in
/-- C29. The buffer of the fixed padding instruction (line 623) is sized
`strlen(primitive_write_func_padding_fmt) - 2`, 62 bytes, while the formatted line with
a one-digit count has 63 characters and needs 64 bytes with its NUL: `sprintf` writes 2
bytes past the allocation, for every padding count from 1 to 7. At member `d` of
`struct S { int8 a; int32 b; int8 c; int64 d; };` (padding 3) the five formattings of
`process_base` have the sizes and needs listed. The text formatted there is the one
`process_base` appends, and a padding step always comes with this formatting. Every
other formatting of `process_base` (for widths 1, 2, 4, 8, `generatealignment`
included), `process_instance`, `process_module` and `process_constructed` gets a
buffer that holds its text and the NUL, for every name. -/
theorem padding_buffer_two_bytes_short :
    (process_base_formattings before_d 8 "d").map
        (fun f => (f.line, f.bufsize, f.text.length + 1)) =
      [(625, 62, 64), (630, 17, 17), (658, 38, 38), (666, 37, 37), (674, 17, 17)] ∧
    (padding_formatting 3).fits = false ∧
    (padding_formatting 3).text =
      "  memset(data+position,0x0,3);  //setting padding bytes to 0x0\n" ∧
    (∀ n : Nat, 1 ≤ n → n ≤ 7 →
      (padding_formatting n).fits = false ∧
      (padding_formatting n).text.length + 1 = (padding_formatting n).bufsize + 2) ∧
    (∀ n : Nat, (padding_formatting n).text = primitive_write_func_padding_fmt n) ∧
    (∀ (ctx : context) (w n : Nat) (name who : String),
      step.pad n who ∈ base_steps ctx w name →
      padding_formatting n ∈ process_base_formattings ctx w name) ∧
    (∀ (ctx : context) (w : Nat) (name : String), (w = 1 ∨ w = 2 ∨ w = 4 ∨ w = 8) →
      ∀ f ∈ process_base_formattings ctx w name, f.line ≠ 625 → f.fits = true) ∧
    (∀ name : String,
      ∀ f ∈ process_instance_formattings name ++ process_module_formattings name ++
        process_constructed_formattings name, f.fits = true) := by
  refine ⟨by decide, by decide, by decide, ?_,
    fun n => (sprintf_primitive_write_func_padding_fmt n).1,
    pad_step_is_formatted, process_base_formattings_fit, process_instance_formattings_fit⟩
  intro n h1 h7
  interval_cases n <;> exact ⟨by decide, by decide⟩

/-! ## `generatealignment` is never asked for a width below 2 -/

theorem align_step_is_call (ctx : context) (w : Nat) (name : String) (d : Bool) (a : Nat)
    (n : String) (h : step.align d a n ∈ base_steps ctx w name) :
    generatealignment_call ctx w = some a := by
  unfold base_steps at h
  unfold generatealignment_call
  by_cases h1 : ctx.currentalignment ≠ (w : Int)
  · by_cases h2 : 0 > ctx.currentalignment ∧ w ≠ 1
    · simp only [if_pos h1, if_pos h2] at h ⊢
      simp only [List.singleton_append, List.mem_cons, step.align.injEq, List.mem_singleton,
        List.not_mem_nil, or_false, reduceCtorEq] at h
      rw [h.2.1]
    · simp only [if_pos h1, if_neg h2] at h
      split_ifs at h <;> simp at h
  · simp only [if_neg h1] at h
    simp at h

/-- C30. A member list whose base types have a computed width of 1, 2, 4 or 8, walked
from any context. Whenever `process_base` reaches its call of `generatealignment`, at
any member of the list, the argument is 2, 4 or 8: the branch `alignto < 2` is not
taken, and the text returned is that of the second or third branch. Every run-time
alignment among the steps of `process_base` comes from such a call. -/
theorem generatealignment_never_below_two (E : externals) (ctx : context)
    (nodes : List idl_node)
    (hvalid : ∀ n ∈ nodes, n.flags &&& E.IDL_BASE_TYPE ≠ 0 →
      (base_bytewidth E n.flags = 1 ∨ base_bytewidth E n.flags = 2 ∨
        base_bytewidth E n.flags = 4 ∨ base_bytewidth E n.flags = 8)) :
    (∀ (pre post : List idl_node) (n : idl_node) (a : Nat),
      nodes = pre ++ n :: post → n.flags &&& E.IDL_BASE_TYPE ≠ 0 →
      generatealignment_call (process_members E ctx pre) (base_bytewidth E n.flags) = some a →
      (a = 2 ∨ a = 4 ∨ a = 8) ∧ ¬ a < 2 ∧
        generatealignment a =
          (if a = 2 then primitive_calc_alignment_even_odd
            else primitive_calc_alignment_fmt a a a)) ∧
    (∀ (c : context) (w : Nat) (name : String) (d : Bool) (a : Nat) (n : String),
      step.align d a n ∈ base_steps c w name → generatealignment_call c w = some a) := by
  refine ⟨?_, align_step_is_call⟩
  intro pre post n a hn hb hcall
  have hv := hvalid n (by simp [hn]) hb
  unfold generatealignment_call at hcall
  split_ifs at hcall with h1 h2
  simp only [Option.some.injEq] at hcall
  subst hcall
  have h3 : ¬ base_bytewidth E n.flags < 2 := by omega
  refine ⟨by omega, h3, ?_⟩
  unfold generatealignment
  rw [if_neg h3]

/-- C30 at `b` of `struct S { int8 a; int32 b; int8 c; int64 d; };`: the call is reached
with the argument 4. -/
theorem generatealignment_called_with_4 :
    (∀ n ∈ members_1_4_1_8.chain, n.flags &&& sample.IDL_BASE_TYPE ≠ 0 →
      (base_bytewidth sample n.flags = 1 ∨ base_bytewidth sample n.flags = 2 ∨
        base_bytewidth sample n.flags = 4 ∨ base_bytewidth sample n.flags = 8)) ∧
    generatealignment_call
        (process_members sample at_first_member (members_1_4_1_8.chain.take 1))
        (base_bytewidth sample (members_1_4_1_8.chain.get ⟨1, by decide⟩).flags) = some 4 ∧
    ((4 = 2 ∨ 4 = 4 ∨ 4 = 8) ∧ ¬ 4 < 2 ∧
      generatealignment 4 =
        (if 4 = 2 then primitive_calc_alignment_even_odd
          else primitive_calc_alignment_fmt 4 4 4)) :=
  ⟨by decide, by decide,
   (generatealignment_never_below_two sample at_first_member members_1_4_1_8.chain
      (by decide)).1 (members_1_4_1_8.chain.take 1) (members_1_4_1_8.chain.drop 2)
      (members_1_4_1_8.chain.get ⟨1, by decide⟩) 4
      (by simp [members_1_4_1_8, member_node, idl_node.chain]) (by decide) (by decide)⟩

/-! ## Case-insensitive comparison -/

theorem tolower_eq_zero (c : Nat) : tolower c = 0 ↔ c = 0 := by
  unfold tolower
  by_cases h : 65 ≤ c ∧ c ≤ 90
  · rw [if_pos h]
    constructor
    · intro hx
      omega
    · intro hx
      omega
  · rw [if_neg h]

theorem c_string_nil : c_string [] = [] := rfl

theorem c_string_cons (c : Nat) (rest : List Nat) :
    c_string (c :: rest) = if c ≠ 0 then c :: c_string rest else [] := by
  unfold c_string
  by_cases h : c = 0
  · simp [h]
  · simp [h, List.takeWhile_cons]

theorem idl_strcasecmp_zero (s1 : List Nat) :
    ∀ s2 : List Nat, idl_strcasecmp s1 s2 = 0 ↔
      (c_string s1).map tolower = (c_string s2).map tolower := by
  induction s1 with
  | nil =>
    intro s2
    cases s2 with
    | nil => simp [idl_strcasecmp, c_string_nil, tolower]
    | cons b s2 =>
      have hb := tolower_eq_zero b
      simp only [idl_strcasecmp, List.headD_nil, List.headD_cons, c_string_nil, c_string_cons,
        List.map_nil]
      by_cases h : b = 0
      · simp [h, tolower]
      · have : tolower b ≠ 0 := fun hx => h (hb.mp hx)
        simp only [ne_eq, h, not_false_eq_true, if_true, List.map_cons]
        constructor
        · intro hx
          simp [tolower] at hx
          omega
        · intro hx
          simp at hx
  | cons a s1 ih =>
    intro s2
    have ha := tolower_eq_zero a
    cases s2 with
    | nil =>
      simp only [idl_strcasecmp, List.headD_nil, List.headD_cons, c_string_nil, c_string_cons,
        List.map_nil]
      by_cases h : a = 0
      · simp [h, tolower]
      · have : tolower a ≠ 0 := fun hx => h (ha.mp hx)
        simp only [ne_eq, h, not_false_eq_true, if_true, List.map_cons]
        constructor
        · intro hx
          simp [tolower] at hx
          omega
        · intro hx
          simp at hx
    | cons b s2 =>
      have hb := tolower_eq_zero b
      simp only [idl_strcasecmp, c_string_cons]
      by_cases hab : a ≠ 0 ∧ b ≠ 0
      · simp only [if_pos hab, if_pos hab.1, if_pos hab.2, List.map_cons, List.cons.injEq]
        by_cases hc : (tolower a : Int) - (tolower b : Int) ≠ 0
        · simp only [if_pos hc]
          constructor
          · intro hx
            exact absurd hx hc
          · intro hx
            exfalso
            apply hc
            rw [hx.1]
            simp
        · simp only [if_neg hc]
          rw [ih s2]
          have : tolower a = tolower b := by omega
          simp [this]
      · simp only [if_neg hab]
        by_cases h1 : a = 0
        · subst h1
          by_cases h2 : b = 0
          · subst h2
            simp
          · have : tolower b ≠ 0 := fun hx => h2 (hb.mp hx)
            simp only [ne_eq, not_true_eq_false, if_false, h2, not_false_eq_true, if_true,
              List.map_nil, List.map_cons]
            constructor
            · intro hx
              simp [tolower] at hx
              omega
            · intro hx
              simp at hx
        · have h2 : b = 0 := by
            by_contra hb0
            exact hab ⟨h1, hb0⟩
          subst h2
          have : tolower a ≠ 0 := fun hx => h1 (ha.mp hx)
          simp only [ne_eq, h1, not_false_eq_true, if_true, not_true_eq_false, if_false,
            List.map_nil, List.map_cons]
          constructor
          · intro hx
            simp [tolower] at hx
            omega
          · intro hx
            simp at hx

theorem idl_strcasecmp_neg (s1 : List Nat) :
    ∀ s2 : List Nat, idl_strcasecmp s1 s2 = - idl_strcasecmp s2 s1 := by
  induction s1 with
  | nil =>
    intro s2
    cases s2 with
    | nil => simp [idl_strcasecmp]
    | cons b s2 => simp [idl_strcasecmp]
  | cons a s1 ih =>
    intro s2
    cases s2 with
    | nil => simp [idl_strcasecmp]
    | cons b s2 =>
      simp only [idl_strcasecmp]
      by_cases hab : a ≠ 0 ∧ b ≠ 0
      · have hba : b ≠ 0 ∧ a ≠ 0 := ⟨hab.2, hab.1⟩
        simp only [if_pos hab, if_pos hba]
        by_cases hc : (tolower a : Int) - (tolower b : Int) ≠ 0
        · have hc2 : (tolower b : Int) - (tolower a : Int) ≠ 0 := by omega
          simp only [if_pos hc, if_pos hc2]
          omega
        · have hc2 : ¬ (tolower b : Int) - (tolower a : Int) ≠ 0 := by omega
          simp only [if_neg hc, if_neg hc2]
          exact ih s2
      · have hba : ¬ (b ≠ 0 ∧ a ≠ 0) := fun h => hab ⟨h.2, h.1⟩
        simp only [if_neg hab, if_neg hba]
        omega
set_option maxRecDepth 100000 in
/-- C31. `idl_strcasecmp` on the strings at two pointers: the result is 0 exactly when
the two strings, each with `tolower` applied to every byte, are equal, and swapping the
arguments negates the result. The result is a difference of two values between 0 and
255. For example `Hello` and `hELLO` compare as 0, `abc` and `abd` as -1 and 1, and
`Hello` against `hELLOw` gives minus the code of `w`. -/
theorem strcasecmp_zero_and_sign :
    (∀ s1 s2 : List Nat,
      (idl_strcasecmp s1 s2 = 0 ↔
        (c_string s1).map tolower = (c_string s2).map tolower) ∧
      idl_strcasecmp s1 s2 = - idl_strcasecmp s2 s1) ∧
    idl_strcasecmp (c_bytes "Hello") (c_bytes "hELLO") = 0 ∧
    idl_strcasecmp (c_bytes "abc") (c_bytes "abd") = -1 ∧
    idl_strcasecmp (c_bytes "abd") (c_bytes "abc") = 1 ∧
    idl_strcasecmp (c_bytes "Hello") (c_bytes "hELLOw") = -119 ∧
    idl_strcasecmp (c_bytes "hELLOw") (c_bytes "Hello") = 119 := by
  refine ⟨fun s1 s2 => ⟨idl_strcasecmp_zero s1 s2, idl_strcasecmp_neg s1 s2⟩,
    by decide, by decide, by decide, by decide, by decide⟩

/-! ## Bounded comparison -/

theorem idl_strncasecmp_loop_eq (n : Nat) :
    ∀ s1 s2 : List Nat,
      idl_strncasecmp_loop 0 s1 s2 n = idl_strcasecmp (s1.take n) (s2.take n) := by
  induction n with
  | zero =>
    intro s1 s2
    cases s1 <;> cases s2 <;> simp [idl_strncasecmp_loop, idl_strcasecmp]
  | succ n ih =>
    intro s1 s2
    cases s1 with
    | nil =>
      cases s2 with
      | nil => simp [idl_strncasecmp_loop, idl_strcasecmp]
      | cons b s2 => simp [idl_strncasecmp_loop, idl_strcasecmp]
    | cons a s1 =>
      cases s2 with
      | nil => simp [idl_strncasecmp_loop, idl_strcasecmp]
      | cons b s2 =>
        simp only [idl_strncasecmp_loop, List.take_succ_cons, idl_strcasecmp]
        by_cases hab : a ≠ 0 ∧ b ≠ 0
        · simp only [if_pos hab]
          by_cases hc : (tolower a : Int) - (tolower b : Int) ≠ 0
          · simp only [if_pos hc]
          · simp only [if_neg hc]
            have h0 : (tolower a : Int) - (tolower b : Int) = 0 := by omega
            rw [h0]
            exact ih s1 s2
        · simp only [if_neg hab]

theorem idl_strcasecmp_c_string (s1 : List Nat) :
    ∀ s2 : List Nat, idl_strcasecmp (c_string s1) (c_string s2) = idl_strcasecmp s1 s2 := by
  induction s1 with
  | nil =>
    intro s2
    cases s2 with
    | nil => rfl
    | cons b s2 =>
      rw [c_string_nil, c_string_cons]
      by_cases hb : b = 0
      · simp [hb, idl_strcasecmp]
      · simp [hb, idl_strcasecmp]
  | cons a s1 ih =>
    intro s2
    cases s2 with
    | nil =>
      rw [c_string_nil, c_string_cons]
      by_cases ha : a = 0
      · simp [ha, idl_strcasecmp]
      · simp [ha, idl_strcasecmp]
    | cons b s2 =>
      rw [c_string_cons, c_string_cons]
      by_cases ha : a = 0
      · by_cases hb : b = 0
        · simp [ha, hb, idl_strcasecmp]
        · simp [ha, hb, idl_strcasecmp]
      · by_cases hb : b = 0
        · simp [ha, hb, idl_strcasecmp]
        · simp only [ne_eq, ha, hb, not_false_eq_true, if_true, idl_strcasecmp, and_self]
          rw [ih s2]

theorem c_string_take (n : Nat) :
    ∀ s : List Nat, c_string (s.take n) = (c_string s).take n := by
  induction n with
  | zero => intro s; simp [c_string_nil]
  | succ n ih =>
    intro s
    cases s with
    | nil => simp [c_string_nil]
    | cons c rest =>
      rw [List.take_succ_cons, c_string_cons, c_string_cons]
      by_cases hc : c = 0
      · simp [hc]
      · simp [hc, ih rest]

theorem idl_strncasecmp_eq (s1 s2 : List Nat) (n : Nat) :
    idl_strncasecmp s1 s2 n = strcasecmp_of_prefixes s1 s2 n := by
  unfold idl_strncasecmp strcasecmp_of_prefixes
  rw [idl_strncasecmp_loop_eq, ← c_string_take, ← c_string_take, idl_strcasecmp_c_string]

set_option maxRecDepth 100000 in
/-- C32. `idl_strncasecmp(s1, s2, n)` is `idl_strcasecmp` of the first `n` characters of
the string at `s1` and the first `n` characters of the string at `s2`, for every `n`.
It is 0 for `n = 0`, and it is `idl_strcasecmp(s1, s2)` when `n` is at least both
lengths. For `Hello` and `hELp!` it is 0 up to `n = 3` and -4 from `n = 4` on. -/
theorem strncasecmp_is_strcasecmp_of_prefixes :
    (∀ (s1 s2 : List Nat) (n : Nat),
      idl_strncasecmp s1 s2 n = strcasecmp_of_prefixes s1 s2 n ∧
      strcasecmp_of_prefixes s1 s2 n =
        idl_strcasecmp ((c_string s1).take n) ((c_string s2).take n)) ∧
    (∀ s1 s2 : List Nat, idl_strncasecmp s1 s2 0 = 0) ∧
    (∀ (s1 s2 : List Nat) (n : Nat),
      (c_string s1).length ≤ n → (c_string s2).length ≤ n →
      idl_strncasecmp s1 s2 n = idl_strcasecmp s1 s2) ∧
    (List.range 7).map (idl_strncasecmp (c_bytes "Hello") (c_bytes "hELp!")) =
      [0, 0, 0, 0, -4, -4, -4] ∧
    idl_strcasecmp (c_bytes "Hello") (c_bytes "hELp!") = -4 := by
  refine ⟨fun s1 s2 n => ⟨idl_strncasecmp_eq s1 s2 n, rfl⟩, ?_, ?_, by decide, by decide⟩
  · intro s1 s2
    rw [idl_strncasecmp_eq]
    simp [strcasecmp_of_prefixes, idl_strcasecmp]
  · intro s1 s2 n h1 h2
    rw [idl_strncasecmp_eq]
    unfold strcasecmp_of_prefixes
    rw [List.take_of_length_le h1, List.take_of_length_le h2, idl_strcasecmp_c_string]
/-! ## The tokenizer -/

theorem strchr_none_iff (sep : List Nat) (c : Nat) (hc : c ≠ 0) :
    strchr sep c = none ↔ c ∉ c_string sep := by
  induction sep with
  | nil => simp [strchr, hc, c_string_nil]
  | cons b rest ih =>
    rw [c_string_cons]
    by_cases hbc : b = c
    · subst hbc
      simp [strchr, hc]
    · by_cases hb : b = 0
      · subst hb
        simp [strchr, hbc]
      · have hcb : ¬ c = b := fun h => hbc h.symm
        simp [strchr, hbc, hb, ih, hcb]

theorem peek_append (front rest : List Nat) (k : Nat) :
    peek (front ++ rest) (front.length + k) = peek rest k := by
  induction front with
  | nil => simp
  | cons a front ih =>
    have h : (a :: front).length + k = (front.length + k) + 1 := by simp; omega
    rw [h]
    simpa [peek] using ih

theorem set_append_length (front rest : List Nat) (k v : Nat) :
    (front ++ rest).set (front.length + k) v = front ++ rest.set k v := by
  induction front with
  | nil => simp
  | cons a front ih =>
    have h : (a :: front).length + k = (front.length + k) + 1 := by simp; omega
    rw [h]
    simp [ih]

theorem idl_strsep_loop_split (sep : List Nat) (pre : List Nat) :
    ∀ (post : List Nat) (str : Nat),
      (∀ c ∈ pre, c ≠ 0 ∧ strchr sep c = none) →
      (post = [] ∨ ∃ s tail, post = s :: tail ∧ ¬ (s ≠ 0 ∧ strchr sep s = none)) →
      idl_strsep_loop sep (pre ++ post) str = str + pre.length := by
  induction pre with
  | nil =>
    intro post str _ hpost
    rcases hpost with rfl | ⟨s, tail, rfl, hs⟩
    · simp [idl_strsep_loop]
    · simp only [List.nil_append, idl_strsep_loop, if_neg hs, List.length_nil, Nat.add_zero]
  | cons c pre ih =>
    intro post str hpre hpost
    have hc := hpre c (by simp)
    have hr := ih post (str + 1) (fun d hd => hpre d (by simp [hd])) hpost
    rw [List.cons_append]
    simp only [idl_strsep_loop, if_pos hc, List.length_cons]
    rw [hr]
    omega

theorem c_string_append_nonzero (pre : List Nat) (post : List Nat)
    (h : ∀ c ∈ pre, c ≠ 0) : c_string (pre ++ post) = pre ++ c_string post := by
  induction pre with
  | nil => rfl
  | cons c pre ih =>
    have hc := h c (by simp)
    rw [List.cons_append, c_string_cons, if_pos hc, ih (fun d hd => h d (by simp [hd]))]
    rfl

theorem takeWhile_all {α : Type} (p : α → Bool) (l rest : List α)
    (h : ∀ x ∈ l, p x = true) :
    (l ++ rest).takeWhile p = l ++ rest.takeWhile p ∧
    (l ++ rest).dropWhile p = rest.dropWhile p := by
  induction l with
  | nil => exact ⟨rfl, rfl⟩
  | cons a l ih =>
    have ha := h a (by simp)
    have hr := ih (fun x hx => h x (by simp [hx]))
    simp [List.takeWhile_cons, List.dropWhile_cons, ha, hr.1, hr.2]

/-- The tokenizer on a block split at `*str` into the token and what follows it, when
the token ends at the end of the string. -/
theorem idl_strsep_at_end (sep front pre post : List Nat)
    (hpre : ∀ c ∈ pre, c ≠ 0 ∧ strchr sep c = none) (hne : pre ≠ [])
    (hpost : post = [] ∨ ∃ tail, post = 0 :: tail) :
    idl_strsep (front ++ (pre ++ post)) front.length sep =
      (some front.length, front ++ (pre ++ post), front.length + pre.length) := by
  have hloop := idl_strsep_loop_split sep pre post front.length hpre (by
    rcases hpost with rfl | ⟨tail, rfl⟩
    · exact Or.inl rfl
    · exact Or.inr ⟨0, tail, rfl, fun h => h.1 rfl⟩)
  have hhead : peek (front ++ (pre ++ post)) front.length ≠ 0 := by
    have := peek_append front (pre ++ post) 0
    rw [Nat.add_zero] at this
    rw [this]
    cases pre with
    | nil => exact absurd rfl hne
    | cons c pre => simpa [peek] using (hpre c (by simp)).1
  have hend : peek (front ++ (pre ++ post)) (front.length + pre.length) = 0 := by
    rw [peek_append]
    have := peek_append pre post 0
    rw [Nat.add_zero] at this
    rw [this]
    rcases hpost with rfl | ⟨tail, rfl⟩ <;> simp [peek]
  unfold idl_strsep
  rw [if_neg hhead]
  simp only [List.drop_left, hloop, hend, ne_eq, not_true_eq_false, if_false]

/-- The tokenizer on a block split at `*str` into the token, a separator and what
follows it. -/
theorem idl_strsep_at_separator (sep front pre tail : List Nat) (s : Nat)
    (hpre : ∀ c ∈ pre, c ≠ 0 ∧ strchr sep c = none)
    (hs : s ≠ 0) (hsep : strchr sep s ≠ none) :
    idl_strsep (front ++ (pre ++ s :: tail)) front.length sep =
      (some front.length, front ++ (pre ++ 0 :: tail), front.length + pre.length + 1) := by
  have hloop := idl_strsep_loop_split sep pre (s :: tail) front.length hpre
    (Or.inr ⟨s, tail, rfl, fun h => hsep h.2⟩)
  have hhead : peek (front ++ (pre ++ s :: tail)) front.length ≠ 0 := by
    have := peek_append front (pre ++ s :: tail) 0
    rw [Nat.add_zero] at this
    rw [this]
    cases pre with
    | nil => simpa [peek] using hs
    | cons c pre => simpa [peek] using (hpre c (by simp)).1
  have hend : peek (front ++ (pre ++ s :: tail)) (front.length + pre.length) ≠ 0 := by
    rw [peek_append]
    have := peek_append pre (s :: tail) 0
    rw [Nat.add_zero] at this
    rw [this]
    simpa [peek] using hs
  have hset : (front ++ (pre ++ s :: tail)).set (front.length + pre.length) 0 =
      front ++ (pre ++ 0 :: tail) := by
    rw [set_append_length]
    have := set_append_length pre (s :: tail) 0 0
    rw [Nat.add_zero] at this
    rw [this]
    rfl
  unfold idl_strsep
  rw [if_neg hhead]
  simp only [List.drop_left, hloop, hend, ne_eq, not_false_eq_true, if_true, hset]

theorem scan_split (sep : List Nat) (rest : List Nat) :
    ∃ pre post : List Nat, rest = pre ++ post ∧
      (∀ c ∈ pre, c ≠ 0 ∧ strchr sep c = none) ∧
      (post = [] ∨ ∃ s tail, post = s :: tail ∧ ¬ (s ≠ 0 ∧ strchr sep s = none)) := by
  induction rest with
  | nil => exact ⟨[], [], rfl, fun c hc => by simp at hc, Or.inl rfl⟩
  | cons c rest ih =>
    by_cases hc : c ≠ 0 ∧ strchr sep c = none
    · obtain ⟨pre, post, hrest, hpre, hpost⟩ := ih
      refine ⟨c :: pre, post, by rw [hrest]; rfl, ?_, hpost⟩
      intro d hd
      rcases List.mem_cons.mp hd with rfl | hd
      · exact hc
      · exact hpre d hd
    · exact ⟨[], c :: rest, rfl, fun d hd => by simp at hd, Or.inr ⟨c, rest, rfl, hc⟩⟩

theorem c_string_eq_nil_iff (mem : List Nat) (p : Nat) :
    c_string (mem.drop p) = [] ↔ peek mem p = 0 := by
  have hpeek : peek mem p = (mem.drop p).headD 0 := by
    unfold peek
    induction mem generalizing p with
    | nil => simp
    | cons a mem ih =>
      cases p with
      | zero => simp
      | succ p => simp
  rw [hpeek]
  cases mem.drop p with
  | nil => simp [c_string_nil]
  | cons c rest =>
    rw [c_string_cons]
    by_cases hc : c = 0 <;> simp [hc]

theorem idl_strsep_token_split (sep front rest : List Nat) (h : c_string rest ≠ []) :
    (idl_strsep (front ++ rest) front.length sep).1 = some front.length ∧
    c_string ((idl_strsep (front ++ rest) front.length sep).2.1.drop front.length) =
      (c_string rest).takeWhile (fun c => decide (c ∉ c_string sep)) ∧
    c_string ((idl_strsep (front ++ rest) front.length sep).2.1.drop
        (idl_strsep (front ++ rest) front.length sep).2.2) =
      ((c_string rest).dropWhile (fun c => decide (c ∉ c_string sep))).drop 1 ∧
    (idl_strsep (front ++ rest) front.length sep).2.1.take front.length = front ∧
    (idl_strsep (front ++ rest) front.length sep).2.1.length = (front ++ rest).length := by
  obtain ⟨pre, post, hrest, hpre, hpost⟩ := scan_split sep rest
  subst hrest
  have hnz : ∀ c ∈ pre, c ≠ 0 := fun c hc => (hpre c hc).1
  have hns : ∀ c ∈ pre, (fun c => decide (c ∉ c_string sep)) c = true := by
    intro c hc
    have := (strchr_none_iff sep c (hpre c hc).1).mp (hpre c hc).2
    simpa using this
  have hin := c_string_append_nonzero pre post hnz
  have hend : (post = [] ∨ ∃ tail, post = 0 :: tail) ∨
      ∃ s tail, post = s :: tail ∧ s ≠ 0 ∧ strchr sep s ≠ none := by
    rcases hpost with rfl | ⟨s, tail, rfl, hs⟩
    · exact Or.inl (Or.inl rfl)
    · by_cases h0 : s = 0
      · subst h0
        exact Or.inl (Or.inr ⟨tail, rfl⟩)
      · exact Or.inr ⟨s, tail, rfl, h0, fun hx => hs ⟨h0, hx⟩⟩
  rcases hend with hend | ⟨s, tail, rfl, hs0, hssep⟩
  · have hpost0 : c_string post = [] := by
      rcases hend with rfl | ⟨tail, rfl⟩
      · rfl
      · simp [c_string_cons]
    have hne : pre ≠ [] := by
      intro hp
      apply h
      rw [hin, hp, hpost0]
      rfl
    rw [idl_strsep_at_end sep front pre post hpre hne hend]
    have htw := takeWhile_all (fun c => decide (c ∉ c_string sep)) pre [] hns
    simp only [List.append_nil, List.takeWhile_nil, List.dropWhile_nil] at htw
    refine ⟨rfl, ?_, ?_, ?_, rfl⟩
    · simp only [List.drop_left, hin, hpost0, List.append_nil, htw.1]
    · have hd : (front ++ (pre ++ post)).drop (front.length + pre.length) = post := by
        rw [← List.append_assoc, ← List.length_append, List.drop_left]
      simp only [hd, hin, hpost0, List.append_nil, htw.2]
      rfl
    · simp
  · have hsin : s ∈ c_string sep := by
      by_contra hx
      exact hssep ((strchr_none_iff sep s hs0).mpr hx)
    rw [idl_strsep_at_separator sep front pre tail s hpre hs0 hssep]
    have htw := takeWhile_all (fun c => decide (c ∉ c_string sep)) pre (s :: c_string tail) hns
    have hcs : c_string (s :: tail) = s :: c_string tail := by
      rw [c_string_cons, if_pos hs0]
    refine ⟨rfl, ?_, ?_, ?_, ?_⟩
    · simp only [List.drop_left, hin, hcs, htw.1]
      rw [c_string_append_nonzero pre (0 :: tail) hnz]
      simp [c_string_cons, List.takeWhile_cons, hsin]
    · have hd : (front ++ (pre ++ 0 :: tail)).drop (front.length + pre.length + 1) = tail := by
        have : front ++ (pre ++ 0 :: tail) = (front ++ pre ++ [0]) ++ tail := by simp
        rw [this]
        have hl : front.length + pre.length + 1 = (front ++ pre ++ [0]).length := by
          simp only [List.length_append, List.length_singleton]
        rw [hl, List.drop_left]
      simp only [hd, hin, hcs, htw.2]
      simp [List.dropWhile_cons, hsin]
    · simp
    · simp

set_option maxRecDepth 100000 in
/-- C33. `idl_strsep` on a block of memory with `*str` at offset `str`; the remaining
input is the string at `*str`. The result is null exactly when the remaining input is
empty, and then neither the block nor `*str` changes. Otherwise the result is the old
`*str`, the string it points at afterwards is the longest prefix of the remaining input
with no byte of `sep` in it, the string at the new `*str` is what followed the first
separator byte in the remaining input (empty when there was none), and the block
before the old `*str` is unchanged. On `a,,b` with the separators `,` and `;` the calls
return `a`, the empty token and `b`, then null; on `a,` they return `a`, then null. -/
theorem strsep_tokens :
    (∀ (mem sep : List Nat) (str : Nat),
      ((idl_strsep mem str sep).1 = none ↔ c_string (mem.drop str) = []) ∧
      (c_string (mem.drop str) = [] → idl_strsep mem str sep = (none, mem, str)) ∧
      (c_string (mem.drop str) ≠ [] →
        (idl_strsep mem str sep).1 = some str ∧
        c_string ((idl_strsep mem str sep).2.1.drop str) =
          (c_string (mem.drop str)).takeWhile (fun c => decide (c ∉ c_string sep)) ∧
        c_string ((idl_strsep mem str sep).2.1.drop (idl_strsep mem str sep).2.2) =
          ((c_string (mem.drop str)).dropWhile (fun c => decide (c ∉ c_string sep))).drop 1 ∧
        (idl_strsep mem str sep).2.1.take str = mem.take str ∧
        (idl_strsep mem str sep).2.1.length = mem.length)) ∧
    idl_strsep (c_bytes "a,,b") 0 (c_bytes ",;") = (some 0, [97, 0, 44, 98], 2) ∧
    idl_strsep [97, 0, 44, 98] 2 (c_bytes ",;") = (some 2, [97, 0, 0, 98], 3) ∧
    idl_strsep [97, 0, 0, 98] 3 (c_bytes ",;") = (some 3, [97, 0, 0, 98], 4) ∧
    idl_strsep [97, 0, 0, 98] 4 (c_bytes ",;") = (none, [97, 0, 0, 98], 4) ∧
    [string_at [97, 0, 44, 98] 0, string_at [97, 0, 0, 98] 2, string_at [97, 0, 0, 98] 3] =
      ["a", "", "b"] ∧
    idl_strsep (c_bytes "a,") 0 (c_bytes ",") = (some 0, [97, 0], 2) ∧
    idl_strsep [97, 0] 2 (c_bytes ",") = (none, [97, 0], 2) ∧
    string_at [97, 0] 0 = "a" := by
  refine ⟨?_, by decide, by decide, by decide, by decide, by decide, by decide, by decide,
    by decide⟩
  intro mem sep str
  have hnil : c_string (mem.drop str) = [] → idl_strsep mem str sep = (none, mem, str) := by
    intro h
    have hp := (c_string_eq_nil_iff mem str).mp h
    unfold idl_strsep
    rw [if_pos hp]
  have hsplit : c_string (mem.drop str) ≠ [] →
      (idl_strsep mem str sep).1 = some str ∧
      c_string ((idl_strsep mem str sep).2.1.drop str) =
        (c_string (mem.drop str)).takeWhile (fun c => decide (c ∉ c_string sep)) ∧
      c_string ((idl_strsep mem str sep).2.1.drop (idl_strsep mem str sep).2.2) =
        ((c_string (mem.drop str)).dropWhile (fun c => decide (c ∉ c_string sep))).drop 1 ∧
      (idl_strsep mem str sep).2.1.take str = mem.take str ∧
      (idl_strsep mem str sep).2.1.length = mem.length := by
    intro h
    have hlen : str ≤ mem.length := by
      by_contra hx
      apply h
      rw [List.drop_of_length_le (by omega)]
      rfl
    have hfront : (mem.take str).length = str := List.length_take_of_le hlen
    have hmem : mem.take str ++ mem.drop str = mem := List.take_append_drop str mem
    have hs := idl_strsep_token_split sep (mem.take str) (mem.drop str) h
    rw [hmem, hfront] at hs
    exact hs
  refine ⟨⟨?_, ?_⟩, hnil, hsplit⟩
  · intro hr
    by_contra hx
    have := (hsplit hx).1
    rw [hr] at this
    exact absurd this (by simp)
  · intro h
    rw [hnil h]

end StreamerGenerator
